import Mathlib

/-!
# MaidSafe-Routing: message handler and acknowledgement engine

A shallow embedding of `acknowledgement.cc`, `message_handler.cc` and `utils.cc`.

* A `protobuf::Message` is a record of optional fields; the accessor `m.x` returns the
  protobuf default when the field is unset and `m.has_x` reports presence.
* Byte strings (`std::string`, node ids) are lists of byte values.
* A handler is a function from the incoming message to the list of observable calls it makes
  on its collaborators (network, cache, timer, application functors), in program order.
* Collaborators whose code is not part of these sources (routing tables, the helpers declared
  in headers, configuration constants) are fields of `Env`.
* `assert` is compiled out (release semantics); only the unconditional `assert(false)` of
  `InvokeTypedMessageReceivedFunctor` is kept, as an observable call.
-/

namespace Routing

/-! ## Data model -/

/-- Byte string: the contents of a `std::string`. -/
abbrev Bytes := List Nat

/-- The type `AckId`: an unsigned 32-bit integer, kept as a natural number below `2^32`. -/
abbrev AckId := Nat

/-- The wire message `protobuf::Message`. Every singular field is optional, the two repeated
fields are lists. -/
structure Message where
  type? : Option Int := none
  request? : Option Bool := none
  direct? : Option Bool := none
  source_id? : Option Bytes := none
  destination_id? : Option Bytes := none
  group_source? : Option Bytes := none
  group_destination? : Option Bytes := none
  relay_id? : Option Bytes := none
  relay_connection_id? : Option Bytes := none
  data : List Bytes := []
  id? : Option Nat := none
  ack_id? : Option Nat := none
  replication? : Option Int := none
  hops_to_live? : Option Int := none
  visited? : Option Bool := none
  route_history : List Bytes := []
  cacheable? : Option Int := none
  client_node? : Option Bool := none
  routing_message? : Option Bool := none
  last_id? : Option Bytes := none
  average_distace? : Option Bytes := none
  actual_destination_is_relay_id? : Option Bool := none
  deriving DecidableEq, Repr

namespace Message

def type (m : Message) : Int := m.type?.getD 0
def request (m : Message) : Bool := m.request?.getD false
def direct (m : Message) : Bool := m.direct?.getD false
def source_id (m : Message) : Bytes := m.source_id?.getD []
def destination_id (m : Message) : Bytes := m.destination_id?.getD []
def group_source (m : Message) : Bytes := m.group_source?.getD []
def group_destination (m : Message) : Bytes := m.group_destination?.getD []
def relay_id (m : Message) : Bytes := m.relay_id?.getD []
def relay_connection_id (m : Message) : Bytes := m.relay_connection_id?.getD []
def id (m : Message) : Nat := m.id?.getD 0
def ack_id (m : Message) : Nat := m.ack_id?.getD 0
def replication (m : Message) : Int := m.replication?.getD 0
def hops_to_live (m : Message) : Int := m.hops_to_live?.getD 0
def visited (m : Message) : Bool := m.visited?.getD false
def cacheable (m : Message) : Int := m.cacheable?.getD 0
def client_node (m : Message) : Bool := m.client_node?.getD false
def routing_message (m : Message) : Bool := m.routing_message?.getD false
def average_distace (m : Message) : Bytes := m.average_distace?.getD []

def has_source_id (m : Message) : Bool := m.source_id?.isSome
def has_id (m : Message) : Bool := m.id?.isSome
def has_ack_id (m : Message) : Bool := m.ack_id?.isSome
def has_relay_id (m : Message) : Bool := m.relay_id?.isSome
def has_relay_connection_id (m : Message) : Bool := m.relay_connection_id?.isSome
def has_visited (m : Message) : Bool := m.visited?.isSome
def has_group_source (m : Message) : Bool := m.group_source?.isSome
def has_group_destination (m : Message) : Bool := m.group_destination?.isSome
def has_average_distace (m : Message) : Bool := m.average_distace?.isSome
def has_actual_destination_is_relay_id (m : Message) : Bool :=
  m.actual_destination_is_relay_id?.isSome

/-- The call `data_size()`. -/
def data_size (m : Message) : Nat := m.data.length

/-- The call `data(0)`; `none` stands for the out-of-range access on an empty payload list. -/
def data0 (m : Message) : Option Bytes := m.data.head?

/-- The call `Clear()`: every field unset. -/
def Clear (_m : Message) : Message := {}

end Message

/-- A routing-table record as far as the handler reads it. -/
structure NodeInfo where
  node_id : Bytes
  connection_id : Bytes
  deriving DecidableEq, Repr

/-- The configuration constants of `Parameters` (declared in `parameters.h`). -/
structure Parameters where
  hops_to_live : Int
  group_size : Nat
  closest_nodes_size : Nat
  max_ack_attempts : Nat
  caching : Bool

/-! ## utils.cc -/

def IsRoutingMessage (message : Message) : Bool :=
  decide (message.type < 100) && decide (message.type > -100)

def IsNodeLevelMessage (message : Message) : Bool :=
  !IsRoutingMessage message

def IsRequest (message : Message) : Bool :=
  decide (message.type > 0)

def IsResponse (message : Message) : Bool :=
  !IsRequest message

/-! ## acknowledgement.cc -/

/-- The timeout callback type `Handler`, an opaque `std::function`, identified by a tag. -/
abbrev Handler := Nat

/-- What a deadline timer will run when it fires: the caller's handler, or the eviction
lambda `Remove(ack_id)` installed on the last attempt. -/
inductive Continuation
  | handler (h : Handler)
  | remove (ack_id : AckId)
  deriving DecidableEq, Repr

/-- An `asio::deadline_timer`: its expiry (seconds from now), the handler of the wait armed
last, and whether that wait is still pending, that is, has neither completed nor been
cancelled. A timer is created with a wait armed. -/
structure DeadlineTimer where
  expires_from_now : Int
  continuation : Continuation
  waiting : Bool := true
  deriving DecidableEq, Repr

/-- Modelled from the spec: the attempt count of a queue element is 8 bits wide (the spec's ack
entry has `attempts: u8`); the element type of the tuple is declared in `acknowledgement.h`,
which is not among the sources. -/
def attemptsModulus : Nat := 2 ^ 8

/-- One queue element, the tuple `Timers`: ack id, message snapshot, timer, attempt count.
The count is a natural number that `Add` increments modulo `attemptsModulus`. -/
structure Timers where
  ack_id : AckId
  message : Message
  timer : DeadlineTimer
  attempts : Nat
  deriving DecidableEq, Repr

/-- The mutable members of `Acknowledgement`: the id counter, the queue, and what `io_service_`
still has to do for this object: the handlers of the waits that were cancelled
(`expires_from_now` on a timer with a pending wait, `cancel`), each to be invoked with
`operation_aborted`, in the order in which the waits were cancelled. -/
structure Acknowledgement where
  ack_id_ : AckId
  queue_ : List Timers
  io_service_ : List Continuation := []
  deriving DecidableEq, Repr

/-- The handler of the pending wait on the timer of the element `std::find_if` returns for
`ack_id` (the first match): what cancelling that timer's waits hands to `io_service_`. -/
def pendingWait (ack_id : AckId) : List Timers → List Continuation
  | [] => []
  | i :: rest =>
    if ack_id = i.ack_id then (if i.timer.waiting then [i.timer.continuation] else [])
    else pendingWait ack_id rest

/-- Apply `f` to the element `std::find_if` returns for `ack_id` (the first match), if any. -/
def updateFound (ack_id : AckId) (f : Timers → Timers) : List Timers → List Timers
  | [] => []
  | i :: rest => if ack_id = i.ack_id then f i :: rest else i :: updateFound ack_id f rest

/-- Erase the element `std::find_if` returns for `ack_id` (the first match), if any. -/
def eraseFound (ack_id : AckId) : List Timers → List Timers
  | [] => []
  | i :: rest => if ack_id = i.ack_id then rest else i :: eraseFound ack_id rest

/-- Whether `std::find_if` finds an element for `ack_id`. -/
def found (ack_id : AckId) (queue : List Timers) : Bool :=
  queue.any (fun i => decide (ack_id = i.ack_id))

namespace Acknowledgement

/-- Constructor: counter seeded with `RandomUint32()`, empty queue. -/
def init (seed : Nat) : Acknowledgement :=
  { ack_id_ := seed % 2 ^ 32, queue_ := [] }

/-- The method `GetId`: pre-increment of the 32-bit counter; returns the new state and the id. -/
def GetId (self : Acknowledgement) : Acknowledgement × AckId :=
  let next := (self.ack_id_ + 1) % 2 ^ 32
  ({ self with ack_id_ := next }, next)

/-- The retransmit branch of `Add` on the found element: the count is incremented (an 8-bit
increment) and the timer is given a new expiry and a new wait. The wait that was pending is
cancelled by `expires_from_now`; `Add` hands its handler to `io_service_`. -/
def rearm (P : Parameters) (ack_id : AckId) (handler : Handler) (timeout : Int)
    (i : Timers) : Timers :=
  let attempts := (i.attempts + 1) % attemptsModulus
  { i with
    attempts := attempts
    timer :=
      { expires_from_now := timeout
        continuation :=
          if attempts = P.max_ack_attempts then Continuation.remove ack_id
          else Continuation.handler handler } }

/-- The method `Add`. -/
def Add (P : Parameters) (self : Acknowledgement) (message : Message) (handler : Handler)
    (timeout : Int) : Acknowledgement :=
  let ack_id := message.ack_id
  if found ack_id self.queue_ then
    { self with
      queue_ := updateFound ack_id (rearm P ack_id handler timeout) self.queue_
      io_service_ := self.io_service_ ++ pendingWait ack_id self.queue_ }
  else
    { self with
      queue_ := self.queue_ ++
        [{ ack_id := ack_id, message := message,
           timer := { expires_from_now := timeout, continuation := Continuation.handler handler },
           attempts := 0 }] }

/-- The method `Remove`: cancel the timer of the found element, which hands the handler of
its pending wait to `io_service_`, and erase the element. -/
def Remove (self : Acknowledgement) (ack_id : AckId) : Acknowledgement :=
  if found ack_id self.queue_ then
    { self with
      queue_ := eraseFound ack_id self.queue_
      io_service_ := self.io_service_ ++ pendingWait ack_id self.queue_ }
  else self

/-- Conversion of an `AckId` argument to the `int32_t` parameter of `HandleMessage`. -/
def toInt32 (n : Nat) : Int :=
  if n % 2 ^ 32 < 2 ^ 31 then ((n % 2 ^ 32 : Nat) : Int) else ((n % 2 ^ 32 : Nat) : Int) - 2 ^ 32

/-- Conversion of the `int32_t` parameter back to `AckId` at the call of `Remove`. -/
def toUint32 (i : Int) : Nat := (i % 2 ^ 32).toNat

/-- The method `HandleMessage(int32_t ack_id)`. -/
def HandleMessage (self : Acknowledgement) (ack_id : Int) : Acknowledgement :=
  Remove self (toUint32 ack_id)

/-- The method `RemoveAll`: snapshot the ids, then `Remove` each one. -/
def RemoveAll (self : Acknowledgement) : Acknowledgement :=
  let ack_ids := self.queue_.map (fun timer => timer.ack_id)
  ack_ids.foldl Remove self

/-- One step of `io_service_`: the first handler it holds is invoked with `operation_aborted`.
The eviction lambda of `Add` ignores its error code and calls `Remove` with the id it
captured. A caller's handler is not among the sources: what it does to the engine when it is
invoked with `operation_aborted` is given by `aborted`. -/
def runAborted (aborted : Handler → Acknowledgement → Acknowledgement)
    (self : Acknowledgement) : Acknowledgement :=
  match self.io_service_ with
  | [] => self
  | Continuation.remove ack_id :: rest => Remove { self with io_service_ := rest } ack_id
  | Continuation.handler h :: rest => aborted h { self with io_service_ := rest }

end Acknowledgement

/-- The helpers of `NeedsAck` that are declared in `utils.h` but absent from `utils.cc`. -/
structure AckHelpers where
  IsAck : Message → Bool
  IsGroupUpdate : Message → Bool

/-- The method `Acknowledgement::NeedsAck`. -/
def Acknowledgement.NeedsAck (H : AckHelpers) (message : Message) (_node_id : Bytes) : Bool :=
  if H.IsAck message then false
  else if H.IsGroupUpdate message then false
  else if IsResponse message && decide (message.destination_id = message.relay_id) then false
  else if message.source_id.isEmpty then false
  else true

/-- A call on the public interface of the acknowledgement engine. -/
inductive AckCall
  | Add (message : Message) (handler : Handler) (timeout : Int)
  | Remove (ack_id : AckId)
  | HandleMessage (ack_id : Int)
  | RemoveAll

/-- The preconditions the methods assert: `Add` needs a present, non-zero ack id and
`HandleMessage` a non-zero one. -/
def AckCall.asserted : AckCall → Prop
  | .Add message _ _ => message.has_ack_id = true ∧ message.ack_id ≠ 0
  | .HandleMessage ack_id => ack_id ≠ 0
  | _ => True

/-- Effect of one call on the engine. -/
def AckCall.apply (P : Parameters) (self : Acknowledgement) : AckCall → Acknowledgement
  | .Add message handler timeout => self.Add P message handler timeout
  | .Remove ack_id => self.Remove ack_id
  | .HandleMessage ack_id => self.HandleMessage ack_id
  | .RemoveAll => self.RemoveAll

/-- The state after a sequence of calls. -/
def runCalls (P : Parameters) (self : Acknowledgement) (calls : List AckCall) : Acknowledgement :=
  calls.foldl (AckCall.apply P) self

/-- The ack ids held in the queue, in queue order. -/
def Acknowledgement.ids (self : Acknowledgement) : List AckId :=
  self.queue_.map (fun timer => timer.ack_id)

/-! ## message_handler.cc: collaborators -/

/-- The zero id `NodeId()`: 64 zero bytes. -/
def kZeroId : Bytes := List.replicate 64 0

/-- The test `NodeId(id).IsZero()`. The `NodeId` class belongs to the common library; an id is
kept as its raw string and the constructor's length check is left to `ValidateMessage`. -/
def IsZero (id : Bytes) : Bool := decide (id = kZeroId)

/-- Modelled from the spec: `IsDirect` is declared in `utils.h` and missing from `utils.cc`; the
spec's wire format has `direct: bool // direct vs group`, and the handlers entered on
`IsDirect(message)` assert `message.direct()`. -/
def IsDirect (message : Message) : Bool := message.direct

/-- The enumerators of `MessageType` that `HandleRoutingMessage` switches on. -/
inductive MessageType
  | kPing | kConnect | kFindNodes | kConnectSuccess | kConnectSuccessAcknowledgement
  | kRemove | kClosestNodesUpdate | kGetGroup
  deriving DecidableEq, Repr

/-- The member functions of the service, the response handler, the remove-furthest-node
handler and the group-change handler that `HandleRoutingMessage` calls with the message. -/
inductive RoutingCall
  | service_Ping | response_Ping
  | service_Connect | response_Connect
  | service_FindNodes | response_FindNodes
  | service_ConnectSuccess
  | response_ConnectSuccessAcknowledgement
  | RemoveRequest | RemoveResponse
  | ClosestNodesUpdate
  | CloseNodeUpdateForClient
  | service_GetGroup | response_GetGroup
  deriving DecidableEq, Repr

/-- The typed envelopes built by the `Create...Message` helpers, with the fields they read. -/
inductive TypedMessage
  | SingleToSingle (contents : Option Bytes) (source destination : Bytes) (cacheable : Int)
  | SingleToGroup (contents : Option Bytes) (source group_destination : Bytes) (cacheable : Int)
  | GroupToSingle (contents : Option Bytes) (group_source source destination : Bytes)
      (cacheable : Int)
  | GroupToGroup (contents : Option Bytes) (group_source source group_destination : Bytes)
      (cacheable : Int)
  | SingleToGroupRelay (contents : Option Bytes) (original_sender connection_id relay_node
      group_destination : Bytes) (cacheable : Int)
  deriving DecidableEq, Repr

/-- Which of the typed-message functors are set. -/
structure TypedFunctors where
  single_to_single : Bool
  single_to_group : Bool
  group_to_single : Bool
  group_to_group : Bool
  single_to_group_relay : Bool

/-- An observable call made by the message handler on one of its collaborators: the three
sends of the network, the two cache hooks, `timer_.AddResponse`, the statistics update, the
untyped functor `message_received_functor_(data(0), false, response_functor)` (recorded with
the request the reply functor captured), a typed functor, a call through an empty
`std::function`, the `assert(false)` of the typed dispatch, `erase(begin())` on an empty
vector, a service member called with the message, and the matrix update of an unvalidated
peer. -/
inductive Effect
  | SendToClosestNode (message : Message)
  | SendToDirect (message : Message) (peer_id connection_id : Bytes)
  | SendToDirectAdjustedRoute (message : Message) (peer_id connection_id : Bytes)
  | HandleGetFromCache (message : Message)
  | AddToCache (message : Message)
  | AddResponse (id : Nat) (response : Bytes)
  | UpdateNetworkAverageDistance (distance : Bytes)
  | message_received (data : Option Bytes) (request : Message)
  | typed_message_received (message : TypedMessage)
  | bad_function_call
  | assert_false
  | erase_begin_of_empty
  | routing (call : RoutingCall) (message : Message)
  | AddMatrixUpdateFromUnvalidatedPeer (peer : Bytes) (nodes : List NodeInfo)
  deriving DecidableEq, Repr

/-- Whether the call hands a message to the network layer. -/
def Effect.isSend : Effect → Bool
  | .SendToClosestNode _ => true
  | .SendToDirect _ _ _ => true
  | .SendToDirectAdjustedRoute _ _ _ => true
  | _ => false

/-- The message handed to the network layer by a send. -/
def Effect.sent? : Effect → Option Message
  | .SendToClosestNode message => some message
  | .SendToDirect message _ _ => some message
  | .SendToDirectAdjustedRoute message _ _ => some message
  | _ => none

/-- Whether the call hands a message to the application (untyped or typed functor). -/
def Effect.isDelivery : Effect → Bool
  | .message_received _ _ => true
  | .typed_message_received _ => true
  | _ => false

/-- Whether the call feeds the correlation timer. -/
def Effect.isAddResponse : Effect → Bool
  | .AddResponse _ _ => true
  | _ => false

/-- The state and collaborators a `MessageHandler` reads. The routing tables, the network,
the helpers of `utils.h` that `utils.cc` does not define, the protobuf schema and the
service objects are not among the sources and are taken as given. -/
structure Env where
  P : Parameters
  /-- Value of `routing_table_.kNodeId().string()`. -/
  kNodeId : Bytes
  client_mode : Bool
  /-- Value of `routing_table_.size()`. -/
  size : Nat
  /-- Query `routing_table_.Contains`. -/
  Contains : Bytes → Bool
  /-- Query `IsThisNodeClosestTo(target, ignore_exact_match)`; the flag defaults to false. -/
  IsThisNodeClosestTo : Bytes → Bool → Bool
  IsThisNodeClosestToIncludingMatrix : Bytes → Bool
  IsThisNodeInRange : Bytes → Nat → Bool
  /-- Query `IsThisNodeGroupLeader`: the result and the out-parameter; the second argument is
  the route history, `none` for the overload without one. -/
  IsThisNodeGroupLeader : Bytes → Option (List Bytes) → Bool × NodeInfo
  GetClosestMatrixNodes : Bytes → Nat → List NodeInfo
  GetClosestNodes : Bytes → Nat → List Bytes
  /-- Query `GetNodeInfo`: `some` when it returns true and fills the out-parameter. -/
  GetNodeInfo : Bytes → Option NodeInfo
  /-- Query `client_routing_table_.Contains`. -/
  client_Contains : Bytes → Bool
  bootstrap_connection_id : Bytes
  ValidateMessage : Message → Bool
  IsClientToClientMessageWithDifferentNodeIds : Message → Bool → Bool
  IsCacheableGet : Message → Bool
  IsCacheablePut : Message → Bool
  IsInitialized : Message → Bool
  /-- The cast `static_cast<MessageType>(type)`; `none` selects the `default` label. -/
  messageType : Int → Option MessageType
  /-- How the called service member rewrites the message it is given by reference. -/
  handler : RoutingCall → Message → Message
  /-- The pair returned by `group_change_handler_.ClosestNodesUpdate`. -/
  ClosestNodesUpdate : Message → Bytes × List NodeInfo
  /-- Whether `timer_.AddResponse` throws a `maidsafe_error`. -/
  AddResponse_throws : Nat → Bytes → Bool
  /-- Whether `message_received_functor_` is set. -/
  message_received_functor_ : Bool
  typed_message_received_functors_ : TypedFunctors

/-! ## message_handler.cc: handlers -/

def CreateSingleToSingleMessage (proto_message : Message) : TypedMessage :=
  .SingleToSingle proto_message.data0 proto_message.source_id proto_message.destination_id
    proto_message.cacheable

def CreateSingleToGroupMessage (proto_message : Message) : TypedMessage :=
  .SingleToGroup proto_message.data0 proto_message.source_id proto_message.group_destination
    proto_message.cacheable

def CreateGroupToSingleMessage (proto_message : Message) : TypedMessage :=
  .GroupToSingle proto_message.data0 proto_message.group_source proto_message.source_id
    proto_message.destination_id proto_message.cacheable

def CreateGroupToGroupMessage (proto_message : Message) : TypedMessage :=
  .GroupToGroup proto_message.data0 proto_message.group_source proto_message.source_id
    proto_message.group_destination proto_message.cacheable

def CreateSingleToGroupRelayMessage (proto_message : Message) : TypedMessage :=
  .SingleToGroupRelay proto_message.data0 proto_message.relay_id
    proto_message.relay_connection_id proto_message.source_id proto_message.group_destination
    proto_message.cacheable

namespace MessageHandler

/-- One call of a service member: the rewritten message and the recorded call. -/
def call (env : Env) (c : RoutingCall) (message : Message) : Message × List Effect :=
  (env.handler c message, [Effect.routing c message])

/-- The `switch` of `HandleRoutingMessage`; `none` is the `default` label (silent drop). -/
def routingSwitch (env : Env) (message : Message) : Option (Message × List Effect) :=
  match env.messageType message.type with
  | some .kPing =>
    some (call env (if message.request then .service_Ping else .response_Ping) message)
  | some .kConnect =>
    some (call env (if message.request then .service_Connect else .response_Connect) message)
  | some .kFindNodes =>
    some (call env (if message.request then .service_FindNodes else .response_FindNodes) message)
  | some .kConnectSuccess => some (call env .service_ConnectSuccess message)
  | some .kConnectSuccessAcknowledgement =>
    some (call env .response_ConnectSuccessAcknowledgement message)
  | some .kRemove =>
    some (call env (if message.request then .RemoveRequest else .RemoveResponse) message)
  | some .kClosestNodesUpdate =>
    let matrix_update := env.ClosestNodesUpdate message
    let updated := call env .ClosestNodesUpdate message
    let unvalidated :=
      if matrix_update.1 ≠ kZeroId then
        [Effect.AddMatrixUpdateFromUnvalidatedPeer matrix_update.1 matrix_update.2]
      else []
    if env.client_mode then
      let client := call env .CloseNodeUpdateForClient updated.1
      some (client.1, updated.2 ++ unvalidated ++ client.2)
    else some (updated.1, updated.2 ++ unvalidated)
  | some .kGetGroup =>
    some (call env (if message.request then .service_GetGroup else .response_GetGroup) message)
  | none => none

def HandleRoutingMessage (env : Env) (message : Message) : List Effect :=
  let request := message.request
  match routingSwitch env message with
  | none => []
  | some (message, effects) =>
    if !request || !env.IsInitialized message then effects
    else if env.size = 0 then
      effects ++ [Effect.SendToDirect message env.bootstrap_connection_id
        env.bootstrap_connection_id]
    else effects ++ [Effect.SendToClosestNode message]

def InvokeTypedMessageReceivedFunctor (env : Env) (proto_message : Message) : List Effect :=
  let functors := env.typed_message_received_functors_
  if (!proto_message.has_group_source && !proto_message.has_group_destination) &&
      functors.single_to_single then
    [Effect.typed_message_received (CreateSingleToSingleMessage proto_message)]
  else if (!proto_message.has_group_source && proto_message.has_group_destination) &&
      functors.single_to_group then
    if proto_message.has_relay_id && proto_message.has_relay_connection_id then
      if functors.single_to_group_relay then
        [Effect.typed_message_received (CreateSingleToGroupRelayMessage proto_message)]
      else [Effect.bad_function_call]
    else [Effect.typed_message_received (CreateSingleToGroupMessage proto_message)]
  else if (proto_message.has_group_source && !proto_message.has_group_destination) &&
      functors.group_to_single then
    [Effect.typed_message_received (CreateGroupToSingleMessage proto_message)]
  else if (proto_message.has_group_source && proto_message.has_group_destination) &&
      functors.group_to_group then
    [Effect.typed_message_received (CreateGroupToGroupMessage proto_message)]
  else [Effect.assert_false]

def HandleNodeLevelMessageForThisNode (env : Env) (message : Message) : List Effect :=
  if IsRequest message &&
      !env.IsClientToClientMessageWithDifferentNodeIds message env.client_mode then
    if env.message_received_functor_ then
      [Effect.message_received message.data0 message]
    else InvokeTypedMessageReceivedFunctor env message
  else if IsResponse message then
    if !message.has_id || message.data_size ≠ 1 then []
    else
      match message.data0 with
      | none => []
      | some response =>
        Effect.AddResponse message.id response ::
          (if env.AddResponse_throws message.id response then []
           else if message.has_average_distace then
             [Effect.UpdateNetworkAverageDistance message.average_distace]
           else [])
  else []

/-- The method `RelayDirectMessageIfNeeded`: the result, the message afterwards, the calls. -/
def RelayDirectMessageIfNeeded (message : Message) : Bool × Message × List Effect :=
  if !message.has_relay_id then (false, message, [])
  else if IsRequest message && message.has_actual_destination_is_relay_id &&
      decide (message.destination_id ≠ message.relay_id) then
    let message :=
      { message with destination_id? := none, actual_destination_is_relay_id? := none }
    (true, message, [Effect.SendToClosestNode message])
  else if IsResponse message && decide (message.destination_id ≠ message.relay_id) then
    let message := { message with destination_id? := none }
    (true, message, [Effect.SendToClosestNode message])
  else (false, message, [])

def HandleMessageForThisNode (env : Env) (message : Message) : List Effect :=
  let relayed := RelayDirectMessageIfNeeded message
  if relayed.1 then relayed.2.2
  else
    relayed.2.2 ++
      (if IsRoutingMessage relayed.2.1 then HandleRoutingMessage env relayed.2.1
       else HandleNodeLevelMessageForThisNode env relayed.2.1)

def HandleDirectMessageAsClosestNode (env : Env) (message : Message) : List Effect :=
  let destination_node_id := message.destination_id
  if env.IsThisNodeClosestToIncludingMatrix destination_node_id then
    if env.Contains destination_node_id || env.client_Contains destination_node_id then
      [Effect.SendToClosestNode message]
    else if !message.has_visited || !message.visited then
      let message := { message with visited? := some true }
      [Effect.SendToClosestNode message]
    else []
  else [Effect.SendToClosestNode message]

/-- The loop `while (close_from_matrix.size() > replication) close_from_matrix.pop_back()`,
run for at most `fuel` iterations. -/
def popBackLoop (replication : Nat) : Nat → List NodeInfo → List NodeInfo
  | 0, close_from_matrix => close_from_matrix
  | fuel + 1, close_from_matrix =>
    if close_from_matrix.length > replication then
      popBackLoop replication fuel close_from_matrix.dropLast
    else close_from_matrix

/-- The pop-back loop with as many iterations available as the vector has elements. -/
def popBackWhileLonger (replication : Nat) (close_from_matrix : List NodeInfo) : List NodeInfo :=
  popBackLoop replication close_from_matrix.length close_from_matrix

/-- The replication loop of `HandleGroupMessageAsClosestNode`: the message afterwards and the
sends, one per peer. -/
def replicateToGroup (env : Env) : Message → List NodeInfo → Message × List Effect
  | message, [] => (message, [])
  | message, i :: rest =>
    let message := { message with destination_id? := some i.node_id }
    let send :=
      match env.GetNodeInfo i.node_id with
      | some node => Effect.SendToDirect message node.node_id node.connection_id
      | none => Effect.SendToClosestNode message
    let later := replicateToGroup env message rest
    (later.1, send :: later.2)

/-- The conversion `static_cast<uint16_t>(message.replication())`. -/
def replicationOf (message : Message) : Nat := (message.replication % 65536).toNat

/-- The route history handed to `IsThisNodeGroupLeader`. -/
def groupLeaderRouteHistory (env : Env) (message : Message) : List Bytes :=
  if message.route_history.length > 1 then message.route_history.dropLast
  else if message.route_history.length = 1 ∧ message.route_history.head? ≠ some env.kNodeId then
    message.route_history.take 1
  else []

/-- The peers the group message is replicated to. -/
def replicationTargets (env : Env) (message : Message) : List NodeInfo :=
  let replication := replicationOf message - 1
  let destination_id := message.destination_id
  let own_node_id := env.kNodeId
  let close_from_matrix := env.GetClosestMatrixNodes destination_id (replication + 2)
  let close_from_matrix :=
    close_from_matrix.filter (fun node_info => !decide (node_info.node_id = destination_id))
  let close_from_matrix :=
    close_from_matrix.filter (fun node_info => !decide (node_info.node_id = own_node_id))
  popBackWhileLonger replication close_from_matrix

/-- The delivery to this node that ends both group-replication handlers. -/
def deliverLocally (env : Env) (message : Message) : List Effect :=
  if IsRoutingMessage message then HandleRoutingMessage env message
  else HandleNodeLevelMessageForThisNode env message

def HandleGroupMessageAsClosestNode (env : Env) (message : Message) : List Effect :=
  let have_node_with_group_id := env.Contains message.destination_id
  if !env.IsThisNodeClosestTo message.destination_id (!IsDirect message) &&
      !have_node_with_group_id then
    [Effect.SendToClosestNode message]
  else if message.has_visited && !message.visited &&
      decide (env.size > env.P.closest_nodes_size) &&
      !env.IsThisNodeInRange message.destination_id env.P.closest_nodes_size then
    let message := { message with visited? := some true }
    [Effect.SendToClosestNode message]
  else
    let route_history := groupLeaderRouteHistory env message
    let leader := env.IsThisNodeGroupLeader message.destination_id (some route_history)
    if !leader.1 then
      [Effect.SendToDirectAdjustedRoute message leader.2.node_id leader.2.connection_id]
    else
      let replication := replicationOf message
      if decide (replication < 1) || decide (replication > env.P.group_size) then []
      else
        let close_from_matrix := replicationTargets env message
        let message := { message with direct? := some true, route_history := [] }
        let replicated := replicateToGroup env message close_from_matrix
        let message := { replicated.1 with destination_id? := some env.kNodeId }
        replicated.2 ++ deliverLocally env message

def HandleMessageAsClosestNode (env : Env) (message : Message) : List Effect :=
  if IsDirect message then HandleDirectMessageAsClosestNode env message
  else HandleGroupMessageAsClosestNode env message

def HandleMessageAsFarNode (env : Env) (message : Message) : List Effect :=
  let message :=
    if message.has_visited &&
        env.IsThisNodeClosestTo message.destination_id (!message.direct) &&
        !message.direct && !message.visited then
      { message with visited? := some true }
    else message
  [Effect.SendToClosestNode message]

def HandleMessageForNonRoutingNodes (env : Env) (message : Message) : List Effect :=
  if env.IsClientToClientMessageWithDifferentNodeIds message true then []
  else [Effect.SendToClosestNode message]

def HandleGroupMessageToSelfId (_env : Env) (message : Message) : List Effect :=
  [Effect.SendToClosestNode message]

def HandleDirectRelayRequestMessageAsClosestNode (env : Env) (message : Message) :
    List Effect :=
  let destination_node_id := message.destination_id
  if env.IsThisNodeClosestTo destination_node_id false then
    if env.Contains destination_node_id || env.client_Contains destination_node_id then
      let message := { message with source_id? := some env.kNodeId }
      [Effect.SendToClosestNode message]
    else []
  else [Effect.SendToClosestNode message]

/-- The loop over `close` of `HandleGroupRelayRequestMessageAsClosestNode`: peers without a
routing-table record are skipped. -/
def relayReplicate (env : Env) : Message → List Bytes → Message × List Effect
  | message, [] => (message, [])
  | message, i :: rest =>
    let message := { message with destination_id? := some i }
    let later := relayReplicate env message rest
    match env.GetNodeInfo i with
    | some node => (later.1, Effect.SendToDirect message node.node_id node.connection_id :: later.2)
    | none => later

def HandleGroupRelayRequestMessageAsClosestNode (env : Env) (message : Message) :
    List Effect :=
  let have_node_with_group_id := env.Contains message.destination_id
  if !env.IsThisNodeClosestTo message.destination_id (!IsDirect message) &&
      !have_node_with_group_id then
    let message := { message with source_id? := some env.kNodeId }
    [Effect.SendToClosestNode message]
  else
    let leader := env.IsThisNodeGroupLeader message.destination_id none
    if !leader.1 then
      let message := { message with source_id? := some env.kNodeId }
      [Effect.SendToDirect message leader.2.node_id leader.2.connection_id]
    else
      let replication := replicationOf message
      if decide (replication < 1) || decide (replication > env.P.group_size) then []
      else
        let replication := replication - 1
        let message := { message with direct? := some true }
        let replication := if have_node_with_group_id then replication + 1 else replication
        let close := env.GetClosestNodes message.destination_id replication
        if have_node_with_group_id && close.isEmpty then [Effect.erase_begin_of_empty]
        else
          let close := if have_node_with_group_id then close.tail else close
          let message := { message with source_id? := some env.kNodeId }
          let replicated := relayReplicate env message close
          let message := { replicated.1 with destination_id? := some env.kNodeId }
          replicated.2 ++ deliverLocally env message

def HandleRelayRequest (env : Env) (message : Message) : List Effect :=
  if decide (message.destination_id = env.kNodeId) && IsRequest message then
    if decide (message.destination_id = env.kNodeId) && message.request && !message.direct then
      let message := { message with source_id? := some env.kNodeId }
      HandleGroupMessageToSelfId env message
    else HandleMessageForThisNode env message
  else if message.request && env.IsThisNodeClosestTo message.destination_id false then
    if message.direct then HandleDirectRelayRequestMessageAsClosestNode env message
    else HandleGroupRelayRequestMessageAsClosestNode env message
  else
    let message := { message with source_id? := some env.kNodeId }
    [Effect.SendToClosestNode message]

def IsRelayResponseForThisNode (env : Env) (message : Message) : Bool :=
  IsRoutingMessage message && message.has_relay_id && decide (message.relay_id = env.kNodeId)

def HandleClientMessage (env : Env) (message : Message) : List Effect :=
  if message.source_id.isEmpty then []
  else if IsRoutingMessage message then HandleRoutingMessage env message
  else if message.destination_id = env.kNodeId then HandleNodeLevelMessageForThisNode env message
  else []

def IsGroupMessageRequestToSelfId (env : Env) (message : Message) : Bool :=
  decide (message.source_id = env.kNodeId) && decide (message.destination_id = env.kNodeId) &&
    message.request && !message.direct

def HandleCacheLookup (_env : Env) (message : Message) : List Effect :=
  [Effect.HandleGetFromCache message]

def StoreCacheCopy (_env : Env) (message : Message) : List Effect :=
  [Effect.AddToCache message]

def IsValidCacheableGet (env : Env) (message : Message) : Bool :=
  env.IsCacheableGet message && IsNodeLevelMessage message && env.P.caching && !env.client_mode

def IsValidCacheablePut (env : Env) (message : Message) : Bool :=
  IsNodeLevelMessage message && env.P.caching && !env.client_mode &&
    env.IsCacheablePut message && !IsRequest message

/-- The statement `message.set_hops_to_live(message.hops_to_live() - 1)`. -/
def decrementHops (message : Message) : Message :=
  { message with hops_to_live? := some (message.hops_to_live - 1) }

def HandleMessage (env : Env) (message : Message) : List Effect :=
  if !env.ValidateMessage message then []
  else
    let message := decrementHops message
    if IsValidCacheableGet env message then HandleCacheLookup env message
    else
      (if IsValidCacheablePut env message then StoreCacheCopy env message else []) ++
      (if IsGroupMessageRequestToSelfId env message then HandleGroupMessageToSelfId env message
       else if env.client_mode then HandleClientMessage env message
       else if message.source_id.isEmpty then HandleRelayRequest env message
       else if IsZero message.source_id then []
       else if message.destination_id = env.kNodeId then HandleMessageForThisNode env message
       else if IsRelayResponseForThisNode env message then HandleRoutingMessage env message
       else if env.client_Contains message.destination_id && IsDirect message then
         HandleMessageForNonRoutingNodes env message
       else if env.IsThisNodeInRange message.destination_id env.P.group_size ||
           (env.IsThisNodeClosestTo message.destination_id (!message.direct) &&
             message.visited) then
         HandleMessageAsClosestNode env message
       else HandleMessageAsFarNode env message)

/-- The frame `message_out` built by the reply lambda of `HandleNodeLevelMessageForThisNode`
from the captured request and the reply string. -/
def message_out (env : Env) (message : Message) (reply_message : Bytes) : Message :=
  let out : Message := {}
  let out := { out with request? := some false }
  let out := { out with hops_to_live? := some env.P.hops_to_live }
  let out := { out with destination_id? := some message.source_id }
  let out := { out with type? := some message.type }
  let out := { out with direct? := some true }
  let out := { out with data := [] }
  let out := { out with client_node? := some message.client_node }
  let out := { out with routing_message? := some message.routing_message }
  let out := { out with data := out.data ++ [reply_message] }
  let out := { out with last_id? := some env.kNodeId }
  let out := { out with source_id? := some env.kNodeId }
  let out := if message.has_id then { out with id? := some message.id } else out
  let out := if message.has_relay_id then { out with relay_id? := some message.relay_id } else out
  if message.has_relay_connection_id then
    { out with relay_connection_id? := some message.relay_connection_id }
  else out

/-- The reply lambda `response_functor` of `HandleNodeLevelMessageForThisNode`, for the
request it captured. -/
def response_functor (env : Env) (message : Message) (reply_message : Bytes) : List Effect :=
  if reply_message.isEmpty then []
  else
    let message_out := message_out env message reply_message
    if env.client_mode && decide (env.kNodeId = message_out.destination_id) then
      [Effect.SendToClosestNode message_out]
    else if env.kNodeId ≠ message_out.destination_id then
      [Effect.SendToClosestNode message_out]
    else HandleMessage env message_out

end MessageHandler

/-! ## The decision tree of the specification (section 4.4) -/

/-- The pipelines named by the classification order of the specification. -/
inductive Pipeline
  | cacheLookup | groupToSelfId | clientMode | relayRequest | invalidSource | forThisNode
  | relayResponse | clientPeer | closestNode | farNode
  deriving DecidableEq, Repr

/-- The clauses of the specification's classification, in its order, each with the pipeline
it selects; the last clause is the `otherwise` case. -/
def specClauses (env : Env) (m : Message) : List (Bool × Pipeline) :=
  [ (MessageHandler.IsValidCacheableGet env m, .cacheLookup),
    (decide (m.source_id = env.kNodeId ∧ m.destination_id = env.kNodeId) &&
      m.request && !m.direct, .groupToSelfId),
    (env.client_mode, .clientMode),
    (decide (m.source_id = []), .relayRequest),
    (IsZero m.source_id, .invalidSource),
    (decide (m.destination_id = env.kNodeId), .forThisNode),
    (IsRoutingMessage m && decide (m.relay_id? = some env.kNodeId), .relayResponse),
    (env.client_Contains m.destination_id && m.direct, .clientPeer),
    (env.IsThisNodeInRange m.destination_id env.P.group_size ||
      (env.IsThisNodeClosestTo m.destination_id (!m.direct) && m.visited), .closestNode),
    (true, .farNode) ]

/-- The pipeline of the earliest clause that matches. -/
def specClassify (env : Env) (m : Message) : Pipeline :=
  match (specClauses env m).find? (fun clause => clause.1) with
  | some clause => clause.2
  | none => .farNode

/-- What each pipeline of the specification does with the message. -/
def specPipeline (env : Env) (m : Message) : Pipeline → List Effect
  | .cacheLookup => [Effect.HandleGetFromCache m]
  | .groupToSelfId => [Effect.SendToClosestNode m]
  | .clientMode => MessageHandler.HandleClientMessage env m
  | .relayRequest => MessageHandler.HandleRelayRequest env m
  | .invalidSource => []
  | .forThisNode => MessageHandler.HandleMessageForThisNode env m
  | .relayResponse => MessageHandler.HandleRoutingMessage env m
  | .clientPeer => MessageHandler.HandleMessageForNonRoutingNodes env m
  | .closestNode => MessageHandler.HandleMessageAsClosestNode env m
  | .farNode => MessageHandler.HandleMessageAsFarNode env m

/-- The specification's `handle(msg)` for a message that passed the pre-checks: decrement the
hop count, tee a valid cacheable PUT into the cache unless the GET clause returns first, then
run the pipeline of the earliest matching clause. -/
def specHandle (env : Env) (m : Message) : List Effect :=
  let m := MessageHandler.decrementHops m
  (if !MessageHandler.IsValidCacheableGet env m && MessageHandler.IsValidCacheablePut env m
    then [Effect.AddToCache m] else []) ++
  specPipeline env m (specClassify env m)

/-! ## Concrete nodes and messages -/

/-- A 64-byte node id ending in the given byte. -/
def nodeId (n : Nat) : Bytes := List.replicate 63 0 ++ [n]

/-- The typical configuration of the specification. -/
def typicalParameters : Parameters :=
  { hops_to_live := 10, group_size := 4, closest_nodes_size := 8, max_ack_attempts := 3,
    caching := true }

/-- A vault with id `nodeId n` and an empty view of the network: it knows no peer and no
client, is closest to nothing and in range of nothing; validation accepts a message with a
positive hop count; the untyped application functor is set. -/
def isolatedNode (n : Nat) : Env :=
  { P := typicalParameters
    kNodeId := nodeId n
    client_mode := false
    size := 0
    Contains := fun _ => false
    IsThisNodeClosestTo := fun _ _ => false
    IsThisNodeClosestToIncludingMatrix := fun _ => false
    IsThisNodeInRange := fun _ _ => false
    IsThisNodeGroupLeader := fun _ _ => (true, { node_id := [], connection_id := [] })
    GetClosestMatrixNodes := fun _ _ => []
    GetClosestNodes := fun _ _ => []
    GetNodeInfo := fun _ => none
    client_Contains := fun _ => false
    bootstrap_connection_id := nodeId 0
    ValidateMessage := fun message => decide (0 < message.hops_to_live)
    IsClientToClientMessageWithDifferentNodeIds := fun _ _ => false
    IsCacheableGet := fun _ => false
    IsCacheablePut := fun _ => false
    IsInitialized := fun _ => true
    messageType := fun _ => none
    handler := fun _ message => message
    ClosestNodesUpdate := fun _ => ([], [])
    AddResponse_throws := fun _ _ => false
    message_received_functor_ := true
    typed_message_received_functors_ :=
      { single_to_single := false, single_to_group := false, group_to_single := false,
        group_to_group := false, single_to_group_relay := false } }

/-- A direct node-level request (type 100, id 7) from `nodeId 1` to `nodeId 2`. -/
def sampleRequest : Message :=
  { type? := some 100, request? := some true, direct? := some true,
    source_id? := some (nodeId 1), destination_id? := some (nodeId 2),
    data := [[113]], id? := some 7, hops_to_live? := some 10 }

/-- A message with ack id 5. -/
def ackedMessage : Message := { sampleRequest with ack_id? := some 5 }

/-- A different message with the same ack id 5. -/
def ackedMessageAgain : Message := { sampleRequest with ack_id? := some 5, data := [[114]] }

/-- A message with ack id 6. -/
def otherAckedMessage : Message := { sampleRequest with ack_id? := some 6 }


/-- The calls in the list that feed the correlation timer. -/
def addResponses (l : List Effect) : List Effect := l.filter Effect.isAddResponse

/-- The guards a group message passes before the replication step of
`HandleGroupMessageAsClosestNode`: it is not passed on as "not closest", not forwarded by the
`visited` pre-pass, and this node is the group leader for the trimmed route history. -/
def reachesReplicationStep (env : Env) (message : Message) : Bool :=
  !(!env.IsThisNodeClosestTo message.destination_id (!IsDirect message) &&
      !env.Contains message.destination_id) &&
  !(message.has_visited && !message.visited &&
      decide (env.size > env.P.closest_nodes_size) &&
      !env.IsThisNodeInRange message.destination_id env.P.closest_nodes_size) &&
  (env.IsThisNodeGroupLeader message.destination_id
    (some (MessageHandler.groupLeaderRouteHistory env message))).1

/-- The copy of a group message addressed to one peer. -/
def replicaFor (message : Message) (peer : Bytes) : Message :=
  { message with direct? := some true, route_history := [], destination_id? := some peer }

/-- The send of the copy for one peer: direct when the peer has a routing-table record. -/
def sendReplica (env : Env) (message : Message) (peer : NodeInfo) : Effect :=
  match env.GetNodeInfo peer.node_id with
  | some node => Effect.SendToDirect (replicaFor message peer.node_id) node.node_id
      node.connection_id
  | none => Effect.SendToClosestNode (replicaFor message peer.node_id)

/-- A vault like `isolatedNode 1` that is among the closest to every target as far as its own
routing table goes, but is not closest once the group matrix is taken into account. -/
def nodeWithCloserMatrixPeer : Env :=
  { isolatedNode 1 with
    IsThisNodeInRange := fun _ _ => true
    IsThisNodeClosestToIncludingMatrix := fun _ => false }

/-- A direct message to the unknown peer `nodeId 9` that already carries `visited = true`. -/
def visitedDirectMessage : Message :=
  { sampleRequest with destination_id? := some (nodeId 9), visited? := some true }

/-- A message from `nodeId 3` to the far peer `nodeId 9` on its last hop. -/
def lastHopMessage : Message :=
  { sampleRequest with
    source_id? := some (nodeId 3), destination_id? := some (nodeId 9),
    hops_to_live? := some 1 }

/-- The vault `nodeId 1` as group leader: closest to every target, with the matrix peers
`nodeId 9`, itself, `nodeId 2`, `nodeId 3`, `nodeId 4` in distance order, of which only
`nodeId 2` has a routing-table record. -/
def groupLeaderNode : Env :=
  { isolatedNode 1 with
    size := 3
    IsThisNodeClosestTo := fun _ _ => true
    IsThisNodeInRange := fun _ _ => true
    GetClosestMatrixNodes := fun _ n =>
      ([9, 1, 2, 3, 4].map (fun k => { node_id := nodeId k, connection_id := nodeId k })).take n
    GetNodeInfo := fun id =>
      if id = nodeId 2 then some { node_id := nodeId 2, connection_id := nodeId 2 } else none }

/-- A node-level group request for the group `nodeId 9` with the given replication. -/
def groupRequest (replication : Int) : Message :=
  { sampleRequest with
    direct? := some false, source_id? := some (nodeId 5), destination_id? := some (nodeId 9),
    replication? := some replication, route_history := [nodeId 5, nodeId 6] }

/-- The engine after the first `Add` of `ackedMessage`. -/
def engineAfterFirstAdd : Acknowledgement :=
  (Acknowledgement.init 0).Add typicalParameters ackedMessage 1 30

/-- Parameters like `typicalParameters` with `max_ack_attempts = 256`, a value the 8-bit
attempt count cannot take. -/
def wideParameters : Parameters :=
  { typicalParameters with max_ack_attempts := 256 }

/-- An engine whose only entry, for ack id 5, has reached the attempt count 255. -/
def engineAtLastCount : Acknowledgement :=
  { ack_id_ := 0
    queue_ :=
      [{ ack_id := 5, message := ackedMessage,
         timer := { expires_from_now := 30, continuation := Continuation.handler 1 },
         attempts := 255 }] }

/-! ## Timer expiry and the id sequence -/

/-- The element `std::find_if` returns for `ack_id` (the first match), if any. -/
def lookup (ack_id : AckId) (queue : List Timers) : Option Timers :=
  queue.find? (fun i => decide (ack_id = i.ack_id))

/-- The timer of a queue element once its wait has completed. -/
def completeWait (i : Timers) : Timers :=
  { i with timer := { i.timer with waiting := false } }

/-- Expiry of the deadline timer of the entry for `ack_id`: the wait armed by the most recent
`Add` for that id completes and its handler runs. The retransmit handler sends the stored
message again, which re-adds it with the same handler and timeout; the eviction lambda calls
`Remove` with the id it captured. An id that is not queued has no timer, and a timer without
a pending wait does not fire. -/
def Acknowledgement.expire (P : Parameters) (self : Acknowledgement) (ack_id : AckId) :
    Acknowledgement :=
  match lookup ack_id self.queue_ with
  | none => self
  | some i =>
    if i.timer.waiting then
      let completed := { self with queue_ := updateFound ack_id completeWait self.queue_ }
      match i.timer.continuation with
      | Continuation.handler h => completed.Add P i.message h i.timer.expires_from_now
      | Continuation.remove id => completed.Remove id
    else self

/-- The engine after `n` successive expiries of the timer for `ack_id`. -/
def Acknowledgement.expireTimes (P : Parameters) (self : Acknowledgement) (ack_id : AckId) :
    Nat → Acknowledgement
  | 0 => self
  | n + 1 => (Acknowledgement.expireTimes P self ack_id n).expire P ack_id

/-- An event of a timer-driven run of the engine: a first `Add` of a message, the expiry of
an entry's timer, or one of the removal calls. -/
inductive AckEvent
  | Add (message : Message) (handler : Handler) (timeout : Int)
  | expire (ack_id : AckId)
  | Remove (ack_id : AckId)
  | HandleMessage (ack_id : Int)
  | RemoveAll

/-- In a timer-driven run an `Add` from outside the timer carries an id that is not queued:
every re-add of a queued id is made by the retransmit handler of its timer. -/
def AckEvent.allowed (self : Acknowledgement) : AckEvent → Bool
  | .Add message _ _ => !found message.ack_id self.queue_
  | _ => true

/-- Effect of one event on the engine. -/
def AckEvent.apply (P : Parameters) (self : Acknowledgement) : AckEvent → Acknowledgement
  | .Add message handler timeout => self.Add P message handler timeout
  | .expire ack_id => self.expire P ack_id
  | .Remove ack_id => self.Remove ack_id
  | .HandleMessage ack_id => self.HandleMessage ack_id
  | .RemoveAll => self.RemoveAll

/-- The state after a timer-driven run; `none` when an event is not allowed where it occurs. -/
def runEvents (P : Parameters) : Acknowledgement → List AckEvent → Option Acknowledgement
  | self, [] => some self
  | self, event :: rest =>
    if event.allowed self then runEvents P (event.apply P self) rest else none

/-- The engine after `k` calls of `GetId`. -/
def Acknowledgement.afterGetIds (self : Acknowledgement) : Nat → Acknowledgement
  | 0 => self
  | k + 1 => (Acknowledgement.afterGetIds self k).GetId.1

/-- The id returned by call number `k` of `GetId`, counted from 1. -/
def Acknowledgement.nthId (self : Acknowledgement) (k : Nat) : AckId :=
  (self.afterGetIds (k - 1)).GetId.2

/-! ## The client-to-client test and further concrete inputs -/

/-- Modelled from the spec: `IsClientToClientMessageWithDifferentNodeIds` is declared in
`utils.h` and missing from `utils.cc`. The spec speaks of "client-to-client messages with
mismatched node ids": the sender is a client (`client_node`), the destination is a client, and
the source and destination ids differ. -/
def IsClientToClientMessageWithDifferentNodeIds (message : Message)
    (is_destination_client : Bool) : Bool :=
  is_destination_client && message.client_node &&
    decide (message.destination_id ≠ message.source_id)

/-- A client with id `nodeId n` and an empty view of the network, using the client-to-client
test modelled from the spec. -/
def clientNode (n : Nat) : Env :=
  { isolatedNode n with
    client_mode := true
    IsClientToClientMessageWithDifferentNodeIds := IsClientToClientMessageWithDifferentNodeIds }

/-- A node-level response (type -100, id 7) sent by the client `nodeId 3` to the client
`nodeId 1`. -/
def clientToClientResponse : Message :=
  { type? := some (-100), request? := some false, direct? := some true,
    source_id? := some (nodeId 3), destination_id? := some (nodeId 1),
    data := [[114]], id? := some 7, hops_to_live? := some 10, client_node? := some true }

/-- A message with the ack id `2^31 + 5`, which does not fit a positive `int32_t`. -/
def highAckedMessage : Message := { sampleRequest with ack_id? := some 2147483653 }

/-- A relayed response: destination `nodeId 1`, relay id `nodeId 8`. -/
def relayedResponse : Message :=
  { type? := some (-100), request? := some false, direct? := some true,
    source_id? := some (nodeId 2), destination_id? := some (nodeId 1),
    relay_id? := some (nodeId 8), relay_connection_id? := some (nodeId 7),
    data := [[114]], id? := some 7, hops_to_live? := some 9 }

/-- What a timer-driven run maintains for every queue entry: the snapshot carries the entry's
ack id, the attempt count is at most `max_ack_attempts`, an entry at the maximum has the
eviction lambda for its own id armed, and an entry below it has a retransmit handler armed. -/
def timerInvariant (P : Parameters) (e : Timers) : Prop :=
  e.message.ack_id = e.ack_id ∧ e.attempts ≤ P.max_ack_attempts ∧
  (e.attempts = P.max_ack_attempts → e.timer.continuation = Continuation.remove e.ack_id) ∧
  (e.attempts < P.max_ack_attempts → ∃ h, e.timer.continuation = Continuation.handler h)


/-! ## service.cc

`service.cc` is written against an earlier message schema: `data` is one string, the message
has a `signature` and a `response` flag, and each service sends its reply itself with
`SendOn`. It is embedded with its own message type. The payload messages (`PingRequest`,
`ConnectRequest`, ...) belong to the protobuf schema, which is not among the sources: their
parsing and serialisation are taken as given. -/

namespace Service

/-- The wire message `protobuf::Message` with the fields `service.cc` reads and writes. -/
structure Message where
  type? : Option Int := none
  source_id? : Option Bytes := none
  destination_id? : Option Bytes := none
  data? : Option Bytes := none
  signature? : Option Bytes := none
  direct? : Option Bool := none
  response? : Option Bool := none
  replication? : Option Int := none
  client_node? : Option Bool := none
  deriving DecidableEq, Repr

namespace Message

def source_id (m : Message) : Bytes := m.source_id?.getD []
def destination_id (m : Message) : Bytes := m.destination_id?.getD []
def data (m : Message) : Bytes := m.data?.getD []
def signature (m : Message) : Bytes := m.signature?.getD []
def client_node (m : Message) : Bool := m.client_node?.getD false

end Message

/-- An endpoint `boost::asio::ip::udp::endpoint`: address (as its string) and 16-bit port. -/
structure Endpoint where
  address : Bytes
  port : Nat
  deriving DecidableEq, Repr

/-- The address string `0.0.0.0` of a default-constructed endpoint. -/
def defaultAddress : Bytes := [48, 46, 48, 46, 48, 46, 48]

/-- The payload field `protobuf::Endpoint`. -/
structure PbEndpoint where
  ip : Bytes
  port : Int
  deriving DecidableEq, Repr

/-- The payload field `protobuf::Contact`. -/
structure Contact where
  node_id : Bytes
  endpoint : PbEndpoint
  deriving DecidableEq, Repr

/-- The payload `protobuf::ConnectRequest`, as far as `Connect` reads it. -/
structure ConnectRequest where
  contact : Contact
  bootstrap : Bool
  client : Bool
  deriving DecidableEq, Repr

/-- The payload `protobuf::ConnectResponse`. -/
structure ConnectResponse where
  answer? : Option Bool := none
  contact? : Option Contact := none
  original_request? : Option Bytes := none
  original_signature? : Option Bytes := none
  deriving DecidableEq, Repr

/-- The payload `protobuf::PingResponse`. -/
structure PingResponse where
  pong? : Option Bool := none
  original_request? : Option Bytes := none
  original_signature? : Option Bytes := none
  deriving DecidableEq, Repr

/-- The payload `protobuf::FindNodesRequest`, as far as `FindNodes` reads it. -/
structure FindNodesRequest where
  num_nodes_requested : Int
  deriving DecidableEq, Repr

/-- The payload `protobuf::FindNodesResponse`. -/
structure FindNodesResponse where
  nodes : List Bytes := []
  original_request? : Option Bytes := none
  original_signature? : Option Bytes := none
  deriving DecidableEq, Repr

/-- An observable call made by a service: `SendOn` of the reply, or the node-validation
functor with the local identity, the peer's endpoint, the client flag and our endpoint; or
the way the method is left by an exception: thrown by the `NodeId` constructor for the
candidate's id, or by `boost::asio::ip::address::from_string` for the contact's ip. -/
inductive Effect
  | SendOn (message : Message)
  | node_validation_functor_ (identity : Bytes) (their_endpoint : Endpoint) (client_node : Bool)
      (our_endpoint : Endpoint)
  | NodeId_throws
  | from_string_throws
  deriving DecidableEq, Repr

/-- The members of `Service` and the collaborators it reads. -/
structure Env where
  /-- Value of `routing_table_.kKeys().identity`. -/
  identity : Bytes
  /-- Value of `routing_table_.Size()`. -/
  Size : Nat
  /-- Query `routing_table_.GetClosestNodes(target, n)`. -/
  GetClosestNodes : Bytes → Nat → List Bytes
  /-- Query `routing_table_.CheckNode(node)` for a record that has only its node id set. -/
  CheckNode : Bytes → Bool
  /-- The constant `Parameters::closest_nodes_size`. -/
  closest_nodes_size : Nat
  /-- The endpoint `rudp_.GetAvailableEndpoint` writes to `our_endpoint`. -/
  GetAvailableEndpoint : Endpoint
  /-- Whether `PingRequest::ParseFromString` accepts the string. -/
  ParsePingRequest : Bytes → Bool
  /-- The request `ConnectRequest::ParseFromString` reads; `none` when it returns false. -/
  ParseConnectRequest : Bytes → Option ConnectRequest
  /-- The request `FindNodesRequest::ParseFromString` would read from the string. -/
  ParseFindNodesRequest : Bytes → Option FindNodesRequest
  /-- The value of `num_nodes_requested()` on a default-constructed `FindNodesRequest`. -/
  default_num_nodes_requested : Int
  /-- Whether the constructor `NodeId(std::string)` of the common library accepts the string;
  it throws otherwise. -/
  IsValidNodeId : Bytes → Bool
  /-- Whether `boost::asio::ip::address::from_string(std::string)` accepts the string; it
  throws `boost::system::system_error` otherwise. -/
  address_from_string : Bytes → Bool
  SerializePingResponse : PingResponse → Bytes
  SerializeConnectResponse : ConnectResponse → Bytes
  SerializeFindNodesResponse : FindNodesResponse → Bytes

/-- The response `ping_response` that `Ping` fills in. -/
def ping_response (message : Message) : PingResponse :=
  { pong? := some true, original_request? := some message.data,
    original_signature? := some message.signature }

/-- The method `Service::Ping`: the message afterwards and the calls made. -/
def Ping (env : Env) (message : Message) : Message × List Effect :=
  if message.destination_id ≠ env.identity then (message, [])
  else if !env.ParsePingRequest message.data then (message, [])
  else
    let response := ping_response message
    let message := { message with data? := some (env.SerializePingResponse response) }
    let message := { message with destination_id? := some message.source_id }
    let message := { message with source_id? := some env.identity }
    (message, [Effect.SendOn message])

/-- The endpoint `their_endpoint` of `Connect`: default-constructed, then its port is set from
the request. The statement `their_endpoint.address().from_string(ip)` calls the static
`from_string`, which throws when `ip` is not an address (`none`); when it returns, its result
is dropped and the endpoint's address is left as it was. -/
def their_endpoint (env : Env) (connect_request : ConnectRequest) : Option Endpoint :=
  if env.address_from_string connect_request.contact.endpoint.ip then
    some { address := defaultAddress,
           port := (connect_request.contact.endpoint.port % 65536).toNat }
  else none

/-- The response `connect_response` that `Connect` fills in, given the answer. -/
def connect_response (env : Env) (message : Message) (answer : Bool) : ConnectResponse :=
  { answer? := some answer
    contact? := some
      { node_id := env.identity
        endpoint := { ip := env.GetAvailableEndpoint.address,
                      port := (env.GetAvailableEndpoint.port : Int) } }
    original_request? := some message.data
    original_signature? := some message.signature }

/-- The answer `Connect` gives and whether it calls the node-validation functor: a client is
accepted at once, any other candidate when `CheckNode` accepts it. -/
def connect_answer (env : Env) (connect_request : ConnectRequest) : Bool :=
  if connect_request.client then true
  else if env.CheckNode connect_request.contact.node_id then true
  else false

/-- The method `Service::Connect`: the message afterwards and the calls made. An exception
of the `NodeId` constructor or of `from_string` leaves the method before anything is sent. -/
def Connect (env : Env) (message : Message) : Message × List Effect :=
  if message.destination_id ≠ env.identity then (message, [])
  else
    match env.ParseConnectRequest message.data with
    | none => (message, [])
    | some connect_request =>
      if !env.IsValidNodeId connect_request.contact.node_id then
        (message, [Effect.NodeId_throws])
      else if connect_request.bootstrap then (message, [])
      else
        match their_endpoint env connect_request with
        | none => (message, [Effect.from_string_throws])
        | some their_endpoint =>
          let our_endpoint := env.GetAvailableEndpoint
          let validation :=
            if connect_request.client then
              [Effect.node_validation_functor_ env.identity their_endpoint
                message.client_node our_endpoint]
            else if env.CheckNode connect_request.contact.node_id then
              [Effect.node_validation_functor_ env.identity their_endpoint
                message.client_node our_endpoint]
            else []
          let response := connect_response env message (connect_answer env connect_request)
          let message := { message with destination_id? := some message.source_id }
          let message := { message with source_id? := some env.identity }
          let message := { message with data? := some (env.SerializeConnectResponse response) }
          let message := { message with direct? := some true }
          let message := { message with response? := some true }
          let message := { message with replication? := some 1 }
          let message := { message with type? := some 1 }
          (message, validation ++ [Effect.SendOn message])

/-- The count `FindNodes` passes to `GetClosestNodes`: `num_nodes_requested()` of its
default-constructed request `find_nodes`, converted to `uint16_t`. The request is never
parsed from the message. -/
def find_nodes_count (env : Env) : Nat := (env.default_num_nodes_requested % 65536).toNat

/-- The response `found_nodes` that `FindNodes` fills in. -/
def found_nodes (env : Env) (message : Message) : FindNodesResponse :=
  let nodes := env.GetClosestNodes message.destination_id (find_nodes_count env)
  let nodes := if env.Size < env.closest_nodes_size then nodes ++ [env.identity] else nodes
  { nodes := nodes, original_request? := some message.data,
    original_signature? := some message.signature }

/-- The method `Service::FindNodes`: the message afterwards and the calls made. -/
def FindNodes (env : Env) (message : Message) : Message × List Effect :=
  let response := found_nodes env message
  let message := { message with destination_id? := some message.source_id }
  let message := { message with source_id? := some env.identity }
  let message := { message with data? := some (env.SerializeFindNodesResponse response) }
  let message := { message with direct? := some true }
  let message := { message with response? := some true }
  let message := { message with replication? := some 1 }
  let message := { message with type? := some 1 }
  (message, [Effect.SendOn message])

end Service

/-! ## Relay route, typed dispatch and further concrete inputs -/

/-- What the relay pipeline promises for a message it hands to the network: the source is the
local node id and the relay id and relay connection id are those of the incoming message. -/
def keepsRelayRoute (env : Env) (incoming sent : Message) : Prop :=
  sent.source_id = env.kNodeId ∧ sent.relay_id? = incoming.relay_id? ∧
    sent.relay_connection_id? = incoming.relay_connection_id?

/-- What `HandleRoutingMessage` hands to the network for the message `incoming`: the message
as the routing handler called for its type left it. -/
def writtenByRoutingHandler (env : Env) (incoming sent : Message) : Prop :=
  ∃ r, MessageHandler.routingSwitch env incoming = some r ∧ sent = r.1

/-- Whether the functor that the pair (has group source, has group destination) selects among
`single_to_single`, `single_to_group`, `group_to_single` and `group_to_group` is set. -/
def selectedFunctorIsSet (functors : TypedFunctors) (proto_message : Message) : Bool :=
  match proto_message.has_group_source, proto_message.has_group_destination with
  | false, false => functors.single_to_single
  | false, true => functors.single_to_group
  | true, false => functors.group_to_single
  | true, true => functors.group_to_group

/-- A vault like `isolatedNode n` on which the application registered the five typed functors
and no untyped one. -/
def typedNode (n : Nat) : Env :=
  { isolatedNode n with
    message_received_functor_ := false
    typed_message_received_functors_ :=
      { single_to_single := true, single_to_group := true, group_to_single := true,
        group_to_group := true, single_to_group_relay := true } }

/-- A vault like `isolatedNode n` on which the application registered only the
`single_to_group` typed functor. -/
def singleToGroupOnlyNode (n : Nat) : Env :=
  { isolatedNode n with
    message_received_functor_ := false
    typed_message_received_functors_ :=
      { single_to_single := false, single_to_group := true, group_to_single := false,
        group_to_group := false, single_to_group_relay := false } }

/-- A single-to-group request that came through a relay: it carries a group destination, a
relay id and a relay connection id. -/
def relayedGroupRequest : Message :=
  { sampleRequest with
    group_destination? := some (nodeId 9), relay_id? := some (nodeId 8),
    relay_connection_id? := some (nodeId 7) }

/-- A client like `clientNode n` for which message type 1 is `kPing`. -/
def clientWithPing (n : Nat) : Env :=
  { clientNode n with
    messageType := fun type => if type = 1 then some MessageType.kPing else none }

/-- A ping request (type 1) for `nodeId 1` from a peer that has no id yet: the source id is
empty and the relay fields are set. -/
def relayedPing : Message :=
  { type? := some 1, request? := some true, direct? := some true,
    destination_id? := some (nodeId 1), relay_id? := some (nodeId 8),
    relay_connection_id? := some (nodeId 7), data := [[112]], id? := some 3,
    hops_to_live? := some 10 }

/-- A group request of the vault `nodeId 1` to its own id. -/
def groupRequestToSelf : Message :=
  { sampleRequest with
    direct? := some false, source_id? := some (nodeId 1), destination_id? := some (nodeId 1) }

/-- A vault like `isolatedNode 1`, with caching on, for which every message is a cacheable
PUT and none a cacheable GET. -/
def cachingNode : Env :=
  { isolatedNode 1 with IsCacheablePut := fun _ => true }

/-- A message like `groupRequestToSelf`, with the `request` flag set, whose type is -100. -/
def flaggedPutToSelf : Message :=
  { groupRequestToSelf with type? := some (-100) }

/-- A direct node-level request for `nodeId 1` from a peer that has no id yet (empty source,
relay id `nodeId 8`), marked with `actual_destination_is_relay_id`. -/
def relayedRequestForRelayId : Message :=
  { type? := some 100, request? := some true, direct? := some true,
    destination_id? := some (nodeId 1), relay_id? := some (nodeId 8),
    relay_connection_id? := some (nodeId 7), actual_destination_is_relay_id? := some true,
    data := [[113]], id? := some 7, hops_to_live? := some 10 }

/-- The value of a run of decimal digits, if the bytes are one to three digits. -/
def decimalValue (digits : Bytes) : Option Nat :=
  if digits.length = 0 ∨ 3 < digits.length then none
  else if digits.all (fun d => decide (48 ≤ d ∧ d ≤ 57)) then
    some (digits.foldl (fun n d => 10 * n + (d - 48)) 0)
  else none

/-- Whether the bytes are a dotted-decimal IPv4 address: four numbers up to 255 separated by
dots. -/
def isDottedQuad (ip : Bytes) : Bool :=
  let parts := ip.splitOn 46
  decide (parts.length = 4) &&
    parts.all (fun part =>
      match decimalValue part with
      | some value => decide (value ≤ 255)
      | none => false)

/-- The address `10.0.0.3`, as bytes. -/
def peerAddress : Bytes := [49, 48, 46, 48, 46, 48, 46, 51]

/-- A service on the node `nodeId 1` whose routing table holds the nine peers `nodeId 2` to
`nodeId 10` (in distance order for every target) and accepts no candidate. A ping payload is
the one byte 1, a find-nodes payload is the one byte giving the number of nodes requested, a
connect payload is a flag byte (1 for a client) followed by the 64 bytes of the candidate's
id and by the candidate's ip; a fresh `FindNodesRequest` reports 0 nodes requested. A node id
is valid when it has 64 bytes, and `from_string` accepts dotted-decimal IPv4 addresses. -/
def sampleService : Service.Env :=
  { identity := nodeId 1
    Size := 9
    GetClosestNodes := fun _ n => ([2, 3, 4, 5, 6, 7, 8, 9, 10].map nodeId).take n
    CheckNode := fun _ => false
    closest_nodes_size := 8
    GetAvailableEndpoint := { address := [49, 46, 50, 46, 51, 46, 52], port := 5000 }
    ParsePingRequest := fun data => decide (data = [1])
    ParseConnectRequest := fun data =>
      match data with
      | flag :: rest =>
        some { contact :=
                 { node_id := rest.take 64, endpoint := { ip := rest.drop 64, port := 6000 } },
               bootstrap := false, client := decide (flag = 1) }
      | [] => none
    ParseFindNodesRequest := fun data =>
      match data with
      | [n] => some { num_nodes_requested := (n : Int) }
      | _ => none
    default_num_nodes_requested := 0
    IsValidNodeId := fun id => decide (id.length = 64)
    address_from_string := isDottedQuad
    SerializePingResponse := fun response =>
      (if response.pong? = some true then 1 else 0) :: response.original_request?.getD []
    SerializeConnectResponse := fun response =>
      (if response.answer? = some true then 1 else 0) :: response.original_request?.getD []
    SerializeFindNodesResponse := fun response => response.nodes.flatten }

/-- A find-nodes request from `nodeId 3` for the target `nodeId 1` that asks for 8 nodes. -/
def findNodesRequest : Service.Message :=
  { type? := some 3, source_id? := some (nodeId 3), destination_id? := some (nodeId 1),
    data? := some [8], signature? := some [7] }

/-- A ping request from `nodeId 3` to `nodeId 1`. -/
def pingRequest : Service.Message :=
  { type? := some 1, source_id? := some (nodeId 3), destination_id? := some (nodeId 1),
    data? := some [1], signature? := some [7] }

/-- A connect request from the client `nodeId 3`, at `10.0.0.3`, to `nodeId 1`. -/
def clientConnectRequest : Service.Message :=
  { type? := some 2, source_id? := some (nodeId 3), destination_id? := some (nodeId 1),
    data? := some (1 :: (nodeId 3 ++ peerAddress)), signature? := some [7],
    client_node? := some true }

/-- A connect request from the vault `nodeId 3`, at `10.0.0.3`, to `nodeId 1`. -/
def vaultConnectRequest : Service.Message :=
  { type? := some 2, source_id? := some (nodeId 3), destination_id? := some (nodeId 1),
    data? := some (0 :: (nodeId 3 ++ peerAddress)), signature? := some [7] }

/-- A connect request from the client `nodeId 3` to `nodeId 1` whose contact carries an empty
ip. -/
def connectRequestWithoutIp : Service.Message :=
  { type? := some 2, source_id? := some (nodeId 3), destination_id? := some (nodeId 1),
    data? := some (1 :: nodeId 3), signature? := some [7], client_node? := some true }

/-- A vault like `isolatedNode n` for which message type 1 is `kPing` and whose service
objects decline every message, leaving it as it came. -/
def decliningNode (n : Nat) : Env :=
  { isolatedNode n with
    messageType := fun type => if type = 1 then some MessageType.kPing else none }

/-- A vault like `isolatedNode n` whose service objects write the local id as source into the
message they are given and leave every other field alone. -/
def relayNode (n : Nat) : Env :=
  { isolatedNode n with
    messageType := fun type => if type = 1 then some MessageType.kPing else none
    handler := fun _ message => { message with source_id? := some (nodeId n) } }

/-- The messages the calls hand to the network, in program order. -/
def sentMessages (effects : List Effect) : List Message :=
  effects.filterMap Effect.sent?


/-! ## utils.cc: ValidateThisNode

`ValidateThisNode` is written against `NetworkUtils`, `RoutingTable` and `NonRoutingTable`,
none of which is among the sources: the three objects are states of arbitrary types and the
members the function calls on them are taken as given. -/

namespace Validation

/-- The type `rudp::EndpointPair`, of which only `external` is read. -/
structure EndpointPair where
  external : Service.Endpoint
  deriving DecidableEq, Repr

/-- The fields of `NodeInfo` that `ValidateThisNode` fills in. -/
structure NodeInfo where
  node_id : Bytes
  public_key : Bytes
  endpoint : Service.Endpoint
  deriving DecidableEq, Repr

/-- The members of the three collaborators that `ValidateThisNode` calls: each takes the
state of its object and returns what the call returns, with the state afterwards when the
member is not `const`. -/
structure Env (Network RoutingTable NonRoutingTable : Type) where
  Add : Network → Service.Endpoint → Service.Endpoint → Bytes → Int × Network
  Remove : Network → Service.Endpoint → Network
  identity : RoutingTable → Bytes
  GetNthClosestNode : RoutingTable → Bytes → Nat → NodeInfo
  routing_table_AddNode : RoutingTable → NodeInfo → Bool × RoutingTable
  non_routing_table_AddNode : NonRoutingTable → NodeInfo → Bytes → Bool × NonRoutingTable
  closest_nodes_size : Nat

/-- The three objects passed by reference. -/
structure State (Network RoutingTable NonRoutingTable : Type) where
  network_ : Network
  routing_table : RoutingTable
  non_routing_table : NonRoutingTable
  deriving DecidableEq, Repr

/-- A call of a member that is not `const`, with its arguments. -/
inductive Call
  | network_Add (our their : Service.Endpoint) (node_id : Bytes)
  | non_routing_table_AddNode (node_info : NodeInfo) (furthest_close_node_id : Bytes)
  | routing_table_AddNode (node_info : NodeInfo)
  | network_Remove (their : Service.Endpoint)
  deriving DecidableEq, Repr

/-- The function `ValidateThisNode`: the three objects afterwards and the calls made, in
program order. -/
def ValidateThisNode {Network RoutingTable NonRoutingTable : Type}
    (env : Env Network RoutingTable NonRoutingTable)
    (state : State Network RoutingTable NonRoutingTable)
    (node_id public_key : Bytes) (their_endpoint our_endpoint : EndpointPair) (client : Bool) :
    State Network RoutingTable NonRoutingTable × List Call :=
  let node_info : NodeInfo :=
    { node_id := node_id, public_key := public_key, endpoint := their_endpoint.external }
  let result := env.Add state.network_ our_endpoint.external their_endpoint.external node_id
  let state := { state with network_ := result.2 }
  let calls := [Call.network_Add our_endpoint.external their_endpoint.external node_id]
  if result.1 ≠ 0 then (state, calls)
  else if client then
    let furthest_close_node_id :=
      (env.GetNthClosestNode state.routing_table (env.identity state.routing_table)
        env.closest_nodes_size).node_id
    let added := env.non_routing_table_AddNode state.non_routing_table node_info
      furthest_close_node_id
    let state := { state with non_routing_table := added.2 }
    let calls := calls ++ [Call.non_routing_table_AddNode node_info furthest_close_node_id]
    if !added.1 then
      ({ state with network_ := env.Remove state.network_ their_endpoint.external },
        calls ++ [Call.network_Remove their_endpoint.external])
    else (state, calls)
  else
    let added := env.routing_table_AddNode state.routing_table node_info
    let state := { state with routing_table := added.2 }
    let calls := calls ++ [Call.routing_table_AddNode node_info]
    if !added.1 then
      ({ state with network_ := env.Remove state.network_ their_endpoint.external },
        calls ++ [Call.network_Remove their_endpoint.external])
    else (state, calls)

/-- A transport that holds the list of connected endpoints and refuses port 0, a routing table
of at most two nodes and a client table of at most one node, both without duplicates of a node
id; a table that rejects a node is left as it was. -/
def sampleEnv : Env (List Service.Endpoint) (List NodeInfo) (List NodeInfo) :=
  { Add := fun network _ their _ =>
      if their.port = 0 then (-1, network) else (0, network ++ [their])
    Remove := fun network their => network.erase their
    identity := fun _ => [1]
    GetNthClosestNode := fun table _ n =>
      table.getD (n - 1) { node_id := [], public_key := [], endpoint := ⟨[], 0⟩ }
    routing_table_AddNode := fun table node =>
      if table.length < 2 ∧ table.all (fun i => decide (i.node_id ≠ node.node_id)) then
        (true, table ++ [node])
      else (false, table)
    non_routing_table_AddNode := fun table node _ =>
      if table.length < 1 ∧ table.all (fun i => decide (i.node_id ≠ node.node_id)) then
        (true, table ++ [node])
      else (false, table)
    closest_nodes_size := 2 }

/-- The endpoint pair whose external endpoint is `10.0.0.k` (written as bytes) at `port`. -/
def endpointPair (k port : Nat) : EndpointPair :=
  { external := { address := [49, 48, 46, 48, 46, 48, 46, 48 + k], port := port } }

/-- A state in which the routing table is full (two nodes) and the client table is empty. -/
def fullRoutingTable : State (List Service.Endpoint) (List NodeInfo) (List NodeInfo) :=
  { network_ := [(endpointPair 2 5000).external, (endpointPair 3 5000).external]
    routing_table :=
      [{ node_id := [2], public_key := [], endpoint := (endpointPair 2 5000).external },
       { node_id := [3], public_key := [], endpoint := (endpointPair 3 5000).external }]
    non_routing_table := [] }

end Validation

/-! ## The routing table behind the relay replication, and further concrete inputs -/

/-- Modelled from the spec: the contract of `RoutingTable::Contains` and
`RoutingTable::GetClosestNodes` (the routing table is not among the sources) for a table that
holds the node ids `table`, each once. `GetClosestNodes(target, n)` returns `min(n, size)`
different peers of the table, closest to `target` first; as `target` is at distance zero from
itself, it comes first when it is in the table. -/
def closestNodesInDistanceOrder (env : Env) (table : List Bytes) : Prop :=
  table.Nodup ∧
  (∀ id, env.Contains id = true ↔ id ∈ table) ∧
  (∀ target n, (env.GetClosestNodes target n).length = min n table.length) ∧
  (∀ target n, (env.GetClosestNodes target n).Nodup) ∧
  (∀ target n, ∀ id ∈ env.GetClosestNodes target n, id ∈ table) ∧
  (∀ target n, target ∈ table → 0 < n → (env.GetClosestNodes target n).head? = some target)

/-- The guards a relay group request passes before the replication step of
`HandleGroupRelayRequestMessageAsClosestNode`: it is not passed on as "not closest" and this
node is the group leader. -/
def reachesRelayReplicationStep (env : Env) (message : Message) : Bool :=
  !(!env.IsThisNodeClosestTo message.destination_id (!IsDirect message) &&
      !env.Contains message.destination_id) &&
  (env.IsThisNodeGroupLeader message.destination_id none).1

/-- The peers `nodeId 2`, `nodeId 3`, `nodeId 4` of `tableNode`. -/
def sampleTable : List Bytes := [nodeId 2, nodeId 3, nodeId 4]

/-- The vault `nodeId 1` with the routing table `sampleTable`: closest to every target and
group leader, with a record for each of its peers; `GetClosestNodes` puts the target first
when it is a peer. -/
def tableNode : Env :=
  { isolatedNode 1 with
    size := 3
    Contains := fun id => decide (id ∈ sampleTable)
    IsThisNodeClosestTo := fun _ _ => true
    GetClosestNodes := fun target n =>
      (if target ∈ sampleTable then target :: sampleTable.erase target else sampleTable).take n
    GetNodeInfo := fun id =>
      if id ∈ sampleTable then some { node_id := id, connection_id := id } else none }

/-- A relay group request (no source id) for the group id `nodeId 3`, which is also the id of
a peer, with the given replication. -/
def relayGroupRequest (replication : Int) : Message :=
  { type? := some 100, request? := some true, direct? := some false,
    destination_id? := some (nodeId 3), relay_id? := some (nodeId 8),
    relay_connection_id? := some (nodeId 7), replication? := some replication,
    data := [[113]], id? := some 7, hops_to_live? := some 10 }

/-- A vault like `isolatedNode n` that holds nine peers and is closest to every target as far
as its routing table goes, without being among the closest nodes of any target. -/
def largeTableNode (n : Nat) : Env :=
  { isolatedNode n with
    size := 9
    IsThisNodeClosestTo := fun _ _ => true }

/-- A vault like `isolatedNode n` that is closest to every target and is group leader exactly
for an empty route history. -/
def historyLeaderNode (n : Nat) : Env :=
  { isolatedNode n with
    IsThisNodeClosestTo := fun _ _ => true
    IsThisNodeGroupLeader := fun _ route_history =>
      (decide (route_history = some []), { node_id := nodeId 6, connection_id := nodeId 6 }) }

/-- A direct relay request (no source id) for `nodeId 2`. -/
def directRelayRequest : Message :=
  { type? := some 100, request? := some true, direct? := some true,
    destination_id? := some (nodeId 2), relay_id? := some (nodeId 8),
    relay_connection_id? := some (nodeId 7), data := [[113]], id? := some 7,
    hops_to_live? := some 10 }

/-- A queue of three entries, two of them with the same ack id 5 (a state no sequence of
calls reaches, as the queue keeps its ids distinct). -/
def queueWithDuplicateIds : Acknowledgement :=
  { ack_id_ := 9
    queue_ :=
      [{ ack_id := 5, message := ackedMessage,
         timer := { expires_from_now := 30, continuation := Continuation.handler 1 },
         attempts := 0 },
       { ack_id := 6, message := sampleRequest,
         timer := { expires_from_now := 30, continuation := Continuation.handler 1 },
         attempts := 2 },
       { ack_id := 5, message := ackedMessageAgain,
         timer := { expires_from_now := 30, continuation := Continuation.remove 5 },
         attempts := 3 }] }


/-! ## Acknowledgement engine: lemmas -/

theorem found_iff (ack_id : AckId) (queue : List Timers) :
    found ack_id queue = true ↔ ack_id ∈ queue.map (fun timer => timer.ack_id) := by
  induction queue with
  | nil => simp [found]
  | cons i rest ih =>
    simp only [found, List.any_cons, Bool.or_eq_true, decide_eq_true_eq, List.map_cons,
      List.mem_cons] at ih ⊢
    rw [ih]

theorem ids_updateFound (ack_id : AckId) (f : Timers → Timers)
    (hf : ∀ i, (f i).ack_id = i.ack_id) (queue : List Timers) :
    (updateFound ack_id f queue).map (fun timer => timer.ack_id)
      = queue.map (fun timer => timer.ack_id) := by
  induction queue with
  | nil => rfl
  | cons i rest ih =>
    unfold updateFound
    split
    · simp [hf]
    · simp [ih]

theorem eraseFound_sublist (ack_id : AckId) (queue : List Timers) :
    List.Sublist (eraseFound ack_id queue) queue := by
  induction queue with
  | nil => exact List.Sublist.refl _
  | cons i rest ih =>
    unfold eraseFound
    split
    · exact List.sublist_cons_self i rest
    · exact ih.cons₂ i

theorem rearm_ack_id (P : Parameters) (a : AckId) (h : Handler) (t : Int) (i : Timers) :
    (Acknowledgement.rearm P a h t i).ack_id = i.ack_id := rfl

theorem Add_nodup (P : Parameters) (self : Acknowledgement) (message : Message)
    (handler : Handler) (timeout : Int) (h : self.ids.Nodup) :
    (self.Add P message handler timeout).ids.Nodup := by
  unfold Acknowledgement.Add
  by_cases hf : found message.ack_id self.queue_ = true
  · simp only [hf, if_true, Acknowledgement.ids]
    rw [ids_updateFound _ _ (rearm_ack_id P _ _ _)]
    exact h
  · rw [found_iff] at hf
    have hn : found message.ack_id self.queue_ = false := by
      cases hq : found message.ack_id self.queue_ with
      | false => rfl
      | true => exact absurd ((found_iff _ _).1 hq) hf
    simp only [hn, Bool.false_eq_true, if_false, Acknowledgement.ids, List.map_append,
      List.map_cons, List.map_nil]
    refine List.Nodup.append h (List.nodup_singleton _) ?_
    intro x hx hx2
    simp only [List.mem_singleton] at hx2
    subst hx2
    exact hf hx

theorem Remove_nodup (self : Acknowledgement) (ack_id : AckId) (h : self.ids.Nodup) :
    (self.Remove ack_id).ids.Nodup := by
  unfold Acknowledgement.Remove
  split
  · exact List.Nodup.sublist ((eraseFound_sublist ack_id self.queue_).map _) h
  · exact h

theorem foldl_Remove_nodup (ack_ids : List AckId) (self : Acknowledgement)
    (h : self.ids.Nodup) : (ack_ids.foldl Acknowledgement.Remove self).ids.Nodup := by
  induction ack_ids generalizing self with
  | nil => exact h
  | cons a rest ih => exact ih _ (Remove_nodup self a h)

theorem apply_nodup (P : Parameters) (self : Acknowledgement) (c : AckCall)
    (h : self.ids.Nodup) : (c.apply P self).ids.Nodup := by
  cases c with
  | Add message handler timeout => exact Add_nodup P self message handler timeout h
  | Remove ack_id => exact Remove_nodup self ack_id h
  | HandleMessage ack_id => exact Remove_nodup self _ h
  | RemoveAll => exact foldl_Remove_nodup _ self h

theorem runCalls_nodup (P : Parameters) (calls : List AckCall) (self : Acknowledgement)
    (h : self.ids.Nodup) : (runCalls P self calls).ids.Nodup := by
  induction calls generalizing self with
  | nil => exact h
  | cons c rest ih => exact ih _ (apply_nodup P self c h)


theorem updateFound_split (a : AckId) (f : Timers → Timers) (queue : List Timers)
    (h : found a queue = true) :
    ∃ pre e post, queue = pre ++ e :: post ∧ e.ack_id = a ∧ (∀ x ∈ pre, x.ack_id ≠ a) ∧
      updateFound a f queue = pre ++ f e :: post := by
  induction queue with
  | nil => simp [found] at h
  | cons i rest ih =>
    by_cases hi : a = i.ack_id
    · refine ⟨[], i, rest, rfl, hi.symm, by simp, ?_⟩
      simp [updateFound, hi]
    · have hrest : found a rest = true := by
        simp only [found, List.any_cons, Bool.or_eq_true, decide_eq_true_eq] at h
        rcases h with h | h
        · exact absurd h hi
        · simpa [found] using h
      obtain ⟨pre, e, post, hq, he, hpre, hupd⟩ := ih hrest
      refine ⟨i :: pre, e, post, by simp [hq], he, ?_, ?_⟩
      · intro x hx
        simp only [List.mem_cons] at hx
        rcases hx with hx | hx
        · subst hx; exact fun hh => hi hh.symm
        · exact hpre x hx
      · simp [updateFound, hi, hupd]

theorem updateFound_at (a : AckId) (f : Timers → Timers) (pre post : List Timers) (e : Timers)
    (he : e.ack_id = a) (hpre : ∀ x ∈ pre, x.ack_id ≠ a) :
    updateFound a f (pre ++ e :: post) = pre ++ f e :: post := by
  induction pre with
  | nil => simp [updateFound, he]
  | cons i rest ih =>
    have hi : ¬ a = i.ack_id := fun hh => hpre i (List.mem_cons_self _ _) hh.symm
    have := ih (fun x hx => hpre x (List.mem_cons_of_mem _ hx))
    simp [updateFound, hi, this]

theorem found_at (a : AckId) (pre post : List Timers) (e : Timers) (he : e.ack_id = a) :
    found a (pre ++ e :: post) = true := by
  rw [found_iff]
  simp [he]

theorem pendingWait_at (a : AckId) (pre post : List Timers) (e : Timers)
    (he : e.ack_id = a) (hpre : ∀ x ∈ pre, x.ack_id ≠ a) :
    pendingWait a (pre ++ e :: post) =
      if e.timer.waiting = true then [e.timer.continuation] else [] := by
  induction pre with
  | nil => simp [pendingWait, he]
  | cons i rest ih =>
    have hi : ¬ a = i.ack_id := fun hh => hpre i (List.mem_cons_self _ _) hh.symm
    have := ih (fun x hx => hpre x (List.mem_cons_of_mem _ hx))
    simp [pendingWait, hi, this]

theorem Add_hit (P : Parameters) (self : Acknowledgement) (message : Message)
    (handler : Handler) (timeout : Int) (pre post : List Timers) (e : Timers)
    (hq : self.queue_ = pre ++ e :: post) (he : e.ack_id = message.ack_id)
    (hpre : ∀ x ∈ pre, x.ack_id ≠ message.ack_id) :
    self.Add P message handler timeout =
      { self with
        queue_ := pre ++ Acknowledgement.rearm P message.ack_id handler timeout e :: post
        io_service_ := self.io_service_ ++
          (if e.timer.waiting = true then [e.timer.continuation] else []) } := by
  unfold Acknowledgement.Add
  simp only [hq, found_at message.ack_id pre post e he, if_true,
    updateFound_at message.ack_id _ pre post e he hpre,
    pendingWait_at message.ack_id pre post e he hpre]

/-- Re-adding a list of (message, handler, timeout) triples with the ack id of an entry that
is in the queue only raises the attempt count of that entry, by the number of re-adds modulo
the width of the count, and hands the handlers of the cancelled waits to `io_service_`. -/
theorem reAdd_found (P : Parameters) (a : AckId) (re : List (Message × Handler × Int))
    (hre : ∀ r ∈ re, r.1.ack_id = a) (hne : re ≠ []) (self : Acknowledgement)
    (pre post : List Timers) (e : Timers) (hq : self.queue_ = pre ++ e :: post)
    (he : e.ack_id = a) (hpre : ∀ x ∈ pre, x.ack_id ≠ a) :
    ∃ timer posted, re.foldl (fun s r => s.Add P r.1 r.2.1 r.2.2) self =
      { self with
        queue_ := pre ++ { ack_id := e.ack_id, message := e.message, timer := timer,
                           attempts := (e.attempts + re.length) % attemptsModulus } :: post
        io_service_ := self.io_service_ ++ posted } ∧
      timer.waiting = true ∧
      (e.timer.waiting = true → posted.length = re.length) := by
  induction re generalizing self e with
  | nil => exact absurd rfl hne
  | cons r rest ih =>
    have hr : r.1.ack_id = a := hre r (List.mem_cons_self _ _)
    have hstep := Add_hit P self r.1 r.2.1 r.2.2 pre post e hq (hr ▸ he) (hr ▸ hpre)
    rw [hr] at hstep
    rw [List.foldl_cons, hstep]
    by_cases hrest : rest = []
    · subst hrest
      refine ⟨(Acknowledgement.rearm P a r.2.1 r.2.2 e).timer,
        (if e.timer.waiting = true then [e.timer.continuation] else []), rfl, rfl, ?_⟩
      intro hw
      simp [hw]
    · obtain ⟨timer, posted, ht, hw, hlen⟩ :=
        ih (fun x hx => hre x (List.mem_cons_of_mem _ hx)) hrest
          ({ self with
            queue_ := pre ++ Acknowledgement.rearm P a r.2.1 r.2.2 e :: post
            io_service_ := self.io_service_ ++
              (if e.timer.waiting = true then [e.timer.continuation] else []) })
          (Acknowledgement.rearm P a r.2.1 r.2.2 e) rfl he
      refine ⟨timer, (if e.timer.waiting = true then [e.timer.continuation] else []) ++ posted,
        ?_, hw, ?_⟩
      · rw [ht]
        have hmod : ((e.attempts + 1) % attemptsModulus + rest.length) % attemptsModulus =
            (e.attempts + (rest.length + 1)) % attemptsModulus := by
          rw [Nat.add_mod, Nat.mod_mod, ← Nat.add_mod]
          congr 1
          omega
        simp only [Acknowledgement.rearm, List.length_cons, hmod, List.append_assoc]
      · intro hwe
        have := hlen rfl
        simp [hwe, this]

/-- Claim C2: `Acknowledgement::NeedsAck` returns false if and only if the message is an
ack-carrier (`IsAck`), or a group update (`IsGroupUpdate`), or a response (`IsResponse` of
`utils.cc`) whose `destination_id()` equals its `relay_id()`, or has an empty `source_id()`;
in every other case it returns true. The node id argument plays no part. -/
theorem NeedsAck_false_iff (H : AckHelpers) (message : Message) (node_id : Bytes) :
    (Acknowledgement.NeedsAck H message node_id = false ↔
      (H.IsAck message = true ∨ H.IsGroupUpdate message = true ∨
        (IsResponse message = true ∧ message.destination_id = message.relay_id) ∨
        message.source_id = [])) ∧
    (¬ (H.IsAck message = true ∨ H.IsGroupUpdate message = true ∨
        (IsResponse message = true ∧ message.destination_id = message.relay_id) ∨
        message.source_id = []) →
      Acknowledgement.NeedsAck H message node_id = true) := by
  have key : Acknowledgement.NeedsAck H message node_id = false ↔
      (H.IsAck message = true ∨ H.IsGroupUpdate message = true ∨
        (IsResponse message = true ∧ message.destination_id = message.relay_id) ∨
        message.source_id = []) := by
    unfold Acknowledgement.NeedsAck
    cases h1 : H.IsAck message <;> cases h2 : H.IsGroupUpdate message <;>
      cases h3 : IsResponse message <;>
      by_cases h4 : message.destination_id = message.relay_id <;>
      cases h5 : message.source_id <;> simp [h4]
  refine ⟨key, fun hn => ?_⟩
  cases hv : Acknowledgement.NeedsAck H message node_id with
  | true => rfl
  | false => exact absurd (key.1 hv) hn

/-- Claim C9: in every state reached from the freshly constructed engine (empty queue) by a
sequence of `Add`, `Remove`, `HandleMessage` and `RemoveAll` calls that meet the asserted
preconditions (an `Add` carries a non-zero ack id), no ack id occurs twice in the queue. -/
theorem ack_queue_one_entry_per_id (P : Parameters) (seed : Nat) (calls : List AckCall)
    (_hcalls : ∀ c ∈ calls, c.asserted) :
    (runCalls P (Acknowledgement.init seed) calls).ids.Nodup :=
  runCalls_nodup P calls _ List.nodup_nil

/-- Claim C10, amended: when the queue holds an entry for the ack id of the message, `Add`
rewrites only the first such entry `e`: the queue keeps its length and order, the entries
before and after `e` are untouched, `e` keeps its ack id and its stored message snapshot
(whatever the re-added message is), its attempt count grows by exactly one modulo 2^8 and its
timer is re-armed (with the eviction lambda when the new count equals `max_ack_attempts`);
the id counter is unchanged, and the handler of the wait that was pending on the timer is
handed to `io_service_` for invocation with `operation_aborted`. Hence `k >= 1` re-adds, with
no other call and no cancelled handler run in between, leave the count at the old count plus
`k` modulo 2^8 (so at `k` for `k < 256` re-adds of an entry created with count 0), and hand
one handler per re-add to `io_service_`. -/
theorem Add_existing_increments_attempts (P : Parameters) (self : Acknowledgement)
    (message : Message) (handler : Handler) (timeout : Int)
    (h : found message.ack_id self.queue_ = true) :
    ∃ pre e post, self.queue_ = pre ++ e :: post ∧ e.ack_id = message.ack_id ∧
      (∀ x ∈ pre, x.ack_id ≠ message.ack_id) ∧
      self.Add P message handler timeout =
        { self with
          queue_ := pre ++
            { ack_id := e.ack_id, message := e.message,
              timer := { expires_from_now := timeout,
                         continuation :=
                           if (e.attempts + 1) % attemptsModulus = P.max_ack_attempts
                           then Continuation.remove message.ack_id
                           else Continuation.handler handler },
              attempts := (e.attempts + 1) % attemptsModulus } :: post
          io_service_ := self.io_service_ ++
            (if e.timer.waiting = true then [e.timer.continuation] else []) } ∧
      (e.attempts + 1 < attemptsModulus →
        (e.attempts + 1) % attemptsModulus = e.attempts + 1) ∧
      ∀ re : List (Message × Handler × Int), (∀ r ∈ re, r.1.ack_id = message.ack_id) →
        re ≠ [] →
        ∃ timer posted, re.foldl (fun s r => s.Add P r.1 r.2.1 r.2.2) self =
          { self with
            queue_ := pre ++
              { ack_id := e.ack_id, message := e.message, timer := timer,
                attempts := (e.attempts + re.length) % attemptsModulus } :: post
            io_service_ := self.io_service_ ++ posted } ∧
          timer.waiting = true ∧
          (e.timer.waiting = true → posted.length = re.length) := by
  obtain ⟨pre, e, post, hq, he, hpre, _⟩ :=
    updateFound_split message.ack_id
      (Acknowledgement.rearm P message.ack_id handler timeout) self.queue_ h
  refine ⟨pre, e, post, hq, he, hpre, ?_, Nat.mod_eq_of_lt, ?_⟩
  · rw [Add_hit P self message handler timeout pre post e hq he hpre]
    simp only [Acknowledgement.rearm]
  · intro re hre hne
    exact reAdd_found P message.ack_id re hre hne self pre post e hq he hpre


/-- Witness for claim C9: two messages sharing ack id 5 and one with ack id 6 are added and an
unknown ack is handled; the queue holds the ids 5 and 6 once each. -/
theorem ack_queue_one_entry_per_id_witness :
    (∀ c ∈ [AckCall.Add ackedMessage 1 30, AckCall.Add otherAckedMessage 1 30,
            AckCall.Add ackedMessageAgain 1 30, AckCall.HandleMessage 9], c.asserted) ∧
    (runCalls typicalParameters (Acknowledgement.init 0)
      [AckCall.Add ackedMessage 1 30, AckCall.Add otherAckedMessage 1 30,
       AckCall.Add ackedMessageAgain 1 30, AckCall.HandleMessage 9]).ids.Nodup ∧
    (runCalls typicalParameters (Acknowledgement.init 0)
      [AckCall.Add ackedMessage 1 30, AckCall.Add otherAckedMessage 1 30,
       AckCall.Add ackedMessageAgain 1 30, AckCall.HandleMessage 9]).ids = [5, 6] :=
  have h : ∀ c ∈ [AckCall.Add ackedMessage 1 30, AckCall.Add otherAckedMessage 1 30,
            AckCall.Add ackedMessageAgain 1 30, AckCall.HandleMessage 9], c.asserted := by
    intro c hc
    simp only [List.mem_cons, List.mem_singleton, List.not_mem_nil, or_false] at hc
    rcases hc with rfl | rfl | rfl | rfl <;> simp [AckCall.asserted] <;> decide
  ⟨h, ack_queue_one_entry_per_id typicalParameters 0 _ h, by decide⟩

/-- Counterexample to claim C10: with `max_ack_attempts = 3`, an `Add` for the ack id of an
entry whose count is 255 leaves the count at 0, not at 256; and after one initial `Add` and
four re-adds of ack id 5 the entry has count 4 and `io_service_` holds the handlers of the
four cancelled waits, the last of them the eviction lambda, so that once `io_service_` has
invoked them (the retransmit handler returning at once on `operation_aborted`) the queue
holds no entry for ack id 5 at all. -/
theorem add_increment_claim_counterexample :
    (engineAtLastCount.queue_.map (fun e => (e.ack_id, e.attempts)) = [(5, 255)] ∧
      (engineAtLastCount.Add typicalParameters ackedMessage 1 30).queue_.map
        (fun e => (e.ack_id, e.attempts)) = [(5, 0)]) ∧
    ((runCalls typicalParameters (Acknowledgement.init 0)
        [AckCall.Add ackedMessage 1 30, AckCall.Add ackedMessage 1 30,
         AckCall.Add ackedMessage 1 30, AckCall.Add ackedMessage 1 30,
         AckCall.Add ackedMessage 1 30]).queue_.map (fun e => (e.ack_id, e.attempts))
        = [(5, 4)] ∧
      (runCalls typicalParameters (Acknowledgement.init 0)
        [AckCall.Add ackedMessage 1 30, AckCall.Add ackedMessage 1 30,
         AckCall.Add ackedMessage 1 30, AckCall.Add ackedMessage 1 30,
         AckCall.Add ackedMessage 1 30]).io_service_ =
        [Continuation.handler 1, Continuation.handler 1, Continuation.handler 1,
         Continuation.remove 5] ∧
      ((Acknowledgement.runAborted (fun _ engine => engine))^[4]
        (runCalls typicalParameters (Acknowledgement.init 0)
          [AckCall.Add ackedMessage 1 30, AckCall.Add ackedMessage 1 30,
           AckCall.Add ackedMessage 1 30, AckCall.Add ackedMessage 1 30,
           AckCall.Add ackedMessage 1 30])).queue_ = []) := by
  decide

/-- Witness for claim C10: re-adding a different message with ack id 5 to the engine that holds
`ackedMessage` under that id; two re-adds leave one entry with the original snapshot and
attempt count 2, and hand the two cancelled retransmit handlers to `io_service_`. -/
theorem Add_existing_increments_attempts_witness :
    found ackedMessageAgain.ack_id engineAfterFirstAdd.queue_ = true ∧
    (∃ pre e post, engineAfterFirstAdd.queue_ = pre ++ e :: post ∧
      e.ack_id = ackedMessageAgain.ack_id ∧
      (∀ x ∈ pre, x.ack_id ≠ ackedMessageAgain.ack_id) ∧
      engineAfterFirstAdd.Add typicalParameters ackedMessageAgain 2 30 =
        { engineAfterFirstAdd with
          queue_ := pre ++
            { ack_id := e.ack_id, message := e.message,
              timer := { expires_from_now := 30,
                         continuation :=
                           if (e.attempts + 1) % attemptsModulus =
                             typicalParameters.max_ack_attempts
                           then Continuation.remove ackedMessageAgain.ack_id
                           else Continuation.handler 2 },
              attempts := (e.attempts + 1) % attemptsModulus } :: post
          io_service_ := engineAfterFirstAdd.io_service_ ++
            (if e.timer.waiting = true then [e.timer.continuation] else []) } ∧
      (e.attempts + 1 < attemptsModulus →
        (e.attempts + 1) % attemptsModulus = e.attempts + 1) ∧
      ∀ re : List (Message × Handler × Int), (∀ r ∈ re, r.1.ack_id = ackedMessageAgain.ack_id) →
        re ≠ [] →
        ∃ timer posted, re.foldl (fun s r => s.Add typicalParameters r.1 r.2.1 r.2.2)
            engineAfterFirstAdd =
          { engineAfterFirstAdd with
            queue_ := pre ++
              { ack_id := e.ack_id, message := e.message, timer := timer,
                attempts := (e.attempts + re.length) % attemptsModulus } :: post
            io_service_ := engineAfterFirstAdd.io_service_ ++ posted } ∧
          timer.waiting = true ∧
          (e.timer.waiting = true → posted.length = re.length)) ∧
    (engineAfterFirstAdd.Add typicalParameters ackedMessageAgain 2 30).Add typicalParameters
        ackedMessageAgain 2 30 =
      { ack_id_ := 0
        queue_ :=
          [{ ack_id := 5, message := ackedMessage,
             timer := { expires_from_now := 30, continuation := Continuation.handler 2 },
             attempts := 2 }]
        io_service_ := [Continuation.handler 1, Continuation.handler 2] } :=
  ⟨by decide,
   Add_existing_increments_attempts typicalParameters engineAfterFirstAdd ackedMessageAgain 2 30
     (by decide),
   by decide⟩
/-! ## Message handler: lemmas -/

open MessageHandler

theorem HandleMessage_eq_specHandle (env : Env) (message : Message)
    (h : env.ValidateMessage message = true) :
    HandleMessage env message = specHandle env message := by
  unfold HandleMessage specHandle
  simp only [h, Bool.not_true, Bool.false_eq_true, if_false]
  generalize decrementHops message = m
  cases hget : IsValidCacheableGet env m
  case true =>
    simp [specClassify, specClauses, specPipeline, HandleCacheLookup, hget, List.find?]
  case false =>
    have hself : IsGroupMessageRequestToSelfId env m =
        (decide (m.source_id = env.kNodeId ∧ m.destination_id = env.kNodeId) &&
          m.request && !m.direct) := by
      unfold IsGroupMessageRequestToSelfId
      by_cases h1 : m.source_id = env.kNodeId <;> by_cases h2 : m.destination_id = env.kNodeId <;>
        simp [h1, h2]
    have hrelay : IsRelayResponseForThisNode env m =
        (IsRoutingMessage m && decide (m.relay_id? = some env.kNodeId)) := by
      unfold IsRelayResponseForThisNode Message.has_relay_id Message.relay_id
      cases m.relay_id? <;> simp
    have hempty : m.source_id.isEmpty = decide (m.source_id = []) := by
      cases m.source_id <;> simp
    have hdest : ∀ (a b : List Effect), (if m.destination_id = env.kNodeId then a else b) =
        (if decide (m.destination_id = env.kNodeId) = true then a else b) := by
      intro a b; by_cases hd : m.destination_id = env.kNodeId <;> simp [hd]
    simp only [specClassify, specClauses, List.find?, hself, hrelay, hget, hempty, hdest, IsDirect]
    clear hself hrelay hempty hdest hget h
    rcases Bool.eq_false_or_eq_true (IsValidCacheablePut env m) with h0 | h0 <;>
    rcases Bool.eq_false_or_eq_true (decide (m.source_id = env.kNodeId ∧
      m.destination_id = env.kNodeId) && m.request && !m.direct) with h1 | h1 <;>
    rcases Bool.eq_false_or_eq_true env.client_mode with h2 | h2 <;>
    rcases Bool.eq_false_or_eq_true (decide (m.source_id = [])) with h3 | h3 <;>
    rcases Bool.eq_false_or_eq_true (IsZero m.source_id) with h4 | h4 <;>
    rcases Bool.eq_false_or_eq_true (decide (m.destination_id = env.kNodeId)) with h5 | h5 <;>
    rcases Bool.eq_false_or_eq_true (IsRoutingMessage m &&
      decide (m.relay_id? = some env.kNodeId)) with h6 | h6 <;>
    rcases Bool.eq_false_or_eq_true (env.client_Contains m.destination_id && m.direct)
      with h7 | h7 <;>
    rcases Bool.eq_false_or_eq_true (env.IsThisNodeInRange m.destination_id env.P.group_size ||
      (env.IsThisNodeClosestTo m.destination_id (!m.direct) && m.visited)) with h8 | h8 <;>
    simp only [h0, h1, h2, h3, h4, h5, h6, h7, h8, specPipeline, StoreCacheCopy,
      HandleGroupMessageToSelfId, Bool.false_eq_true,
      if_false, if_true, Bool.not_false, Bool.and_true, Bool.and_false, Bool.true_and,
      Bool.false_and, List.nil_append, List.singleton_append, List.cons_append]

theorem addResponses_append (a b : List Effect) :
    addResponses (a ++ b) = addResponses a ++ addResponses b := by
  simp [addResponses]


theorem routingSwitch_addResponses (env : Env) (m : Message) (r : Message × List Effect)
    (h : routingSwitch env m = some r) : addResponses r.2 = [] := by
  unfold routingSwitch at h
  split at h
  case h_7 =>
    by_cases hz : (env.ClosestNodesUpdate m).1 = kZeroId <;>
      split at h <;> cases h <;>
      simp [call, addResponses, Effect.isAddResponse, hz]
  all_goals first
    | (cases h; done)
    | (cases h; simp [call, addResponses, Effect.isAddResponse])

theorem HandleRoutingMessage_addResponses (env : Env) (m : Message) :
    addResponses (HandleRoutingMessage env m) = [] := by
  unfold HandleRoutingMessage
  cases hs : routingSwitch env m with
  | none => rfl
  | some r =>
    have := routingSwitch_addResponses env m r hs
    simp only
    split
    · exact this
    · split <;> rw [addResponses_append, this] <;> rfl

theorem InvokeTyped_addResponses (env : Env) (m : Message) :
    addResponses (InvokeTypedMessageReceivedFunctor env m) = [] := by
  unfold InvokeTypedMessageReceivedFunctor
  simp only
  repeat' split
  all_goals simp [addResponses, Effect.isAddResponse]

theorem HandleNodeLevel_addResponses (env : Env) (m : Message) (h : IsRequest m = true) :
    addResponses (HandleNodeLevelMessageForThisNode env m) = [] := by
  unfold HandleNodeLevelMessageForThisNode
  split
  · split
    · simp [addResponses, Effect.isAddResponse]
    · exact InvokeTyped_addResponses env m
  · simp [IsResponse, h, addResponses]

theorem deliverLocally_addResponses (env : Env) (m : Message) (h : IsRequest m = true) :
    addResponses (deliverLocally env m) = [] := by
  unfold deliverLocally
  split
  · exact HandleRoutingMessage_addResponses env m
  · exact HandleNodeLevel_addResponses env m h

theorem replicateToGroup_addResponses (env : Env) (l : List NodeInfo) (m : Message) :
    addResponses (replicateToGroup env m l).2 = [] ∧ (replicateToGroup env m l).1.type? = m.type? := by
  induction l generalizing m with
  | nil => exact ⟨rfl, rfl⟩
  | cons i rest ih =>
    have := ih { m with destination_id? := some i.node_id }
    unfold replicateToGroup
    refine ⟨?_, this.2⟩
    simp only [addResponses] at this ⊢
    rw [List.filter_cons]
    cases env.GetNodeInfo i.node_id <;> simp [Effect.isAddResponse, this.1]

theorem relayReplicate_addResponses (env : Env) (l : List Bytes) (m : Message) :
    addResponses (relayReplicate env m l).2 = [] ∧ (relayReplicate env m l).1.type? = m.type? := by
  induction l generalizing m with
  | nil => exact ⟨rfl, rfl⟩
  | cons i rest ih =>
    have := ih { m with destination_id? := some i }
    unfold relayReplicate
    cases env.GetNodeInfo i
    · exact this
    · refine ⟨?_, this.2⟩
      simp only [addResponses] at this ⊢
      rw [List.filter_cons]
      simp [Effect.isAddResponse, this.1]

theorem IsRequest_of_type (m m2 : Message) (h : m2.type? = m.type?) : IsRequest m2 = IsRequest m := by
  simp [IsRequest, Message.type, h]

theorem addResponses_send (m : Message) : addResponses [Effect.SendToClosestNode m] = [] := rfl

theorem HandleDirectMessageAsClosestNode_addResponses (env : Env) (m : Message) :
    addResponses (HandleDirectMessageAsClosestNode env m) = [] := by
  unfold HandleDirectMessageAsClosestNode
  simp only
  repeat' split
  all_goals rfl

theorem HandleGroupMessageAsClosestNode_addResponses (env : Env) (m : Message)
    (h : IsRequest m = true) :
    addResponses (HandleGroupMessageAsClosestNode env m) = [] := by
  unfold HandleGroupMessageAsClosestNode
  simp only
  split
  · rfl
  · split
    · rfl
    · split
      · rfl
      · split
        · rfl
        · rw [addResponses_append, (replicateToGroup_addResponses env _ _).1,
            deliverLocally_addResponses]
          · rfl
          · rw [IsRequest_of_type m _ ?_]
            · exact h
            · exact (replicateToGroup_addResponses env _ _).2

theorem HandleMessageForThisNode_addResponses (env : Env) (m : Message)
    (h : IsRequest m = true) :
    addResponses (HandleMessageForThisNode env m) = [] := by
  unfold HandleMessageForThisNode RelayDirectMessageIfNeeded
  simp only
  split
  · simp [h, deliverLocally_addResponses, addResponses_append]
    split
    · exact HandleRoutingMessage_addResponses env m
    · exact HandleNodeLevel_addResponses env m h
  · split
    · simp [addResponses, Effect.isAddResponse]
    · split
      · simp [addResponses, Effect.isAddResponse]
      · simp only [Bool.false_eq_true, if_false, List.nil_append]
        split
        · exact HandleRoutingMessage_addResponses env m
        · exact HandleNodeLevel_addResponses env m h

theorem HandleDirectRelay_addResponses (env : Env) (m : Message) :
    addResponses (HandleDirectRelayRequestMessageAsClosestNode env m) = [] := by
  unfold HandleDirectRelayRequestMessageAsClosestNode
  simp only
  repeat' split
  all_goals rfl

theorem HandleGroupRelay_addResponses (env : Env) (m : Message) (h : IsRequest m = true) :
    addResponses (HandleGroupRelayRequestMessageAsClosestNode env m) = [] := by
  unfold HandleGroupRelayRequestMessageAsClosestNode
  simp only
  repeat' split
  all_goals first
    | rfl
    | (rw [addResponses_append, (relayReplicate_addResponses env _ _).1,
        deliverLocally_addResponses]
       · rfl
       · simp only [IsRequest, Message.type, (relayReplicate_addResponses env _ _).2]
         exact h)

theorem HandleRelayRequest_addResponses (env : Env) (m : Message) (h : IsRequest m = true) :
    addResponses (HandleRelayRequest env m) = [] := by
  unfold HandleRelayRequest
  split
  · split
    · rfl
    · exact HandleMessageForThisNode_addResponses env m h
  · split
    · split
      · exact HandleDirectRelay_addResponses env m
      · exact HandleGroupRelay_addResponses env m h
    · rfl

theorem HandleClientMessage_addResponses (env : Env) (m : Message) (h : IsRequest m = true) :
    addResponses (HandleClientMessage env m) = [] := by
  unfold HandleClientMessage
  split
  · rfl
  · split
    · exact HandleRoutingMessage_addResponses env m
    · split
      · exact HandleNodeLevel_addResponses env m h
      · rfl

theorem HandleMessage_addResponses (env : Env) (m : Message) (h : IsRequest m = true) :
    addResponses (HandleMessage env m) = [] := by
  have hd : IsRequest (decrementHops m) = true := h
  unfold HandleMessage
  generalize decrementHops m = m2 at hd
  simp only
  split
  · rfl
  · split
    · rfl
    · rw [addResponses_append]
      have hput : addResponses (if IsValidCacheablePut env m2 = true then StoreCacheCopy env m2
          else []) = [] := by
        split <;> rfl
      rw [hput, List.nil_append]
      split
      · rfl
      · split
        · exact HandleClientMessage_addResponses env m2 hd
        · split
          · exact HandleRelayRequest_addResponses env m2 hd
          · split
            · rfl
            · split
              · exact HandleMessageForThisNode_addResponses env m2 hd
              · split
                · exact HandleRoutingMessage_addResponses env m2
                · split
                  · unfold HandleMessageForNonRoutingNodes
                    split <;> rfl
                  · split
                    · unfold HandleMessageAsClosestNode
                      split
                      · exact HandleDirectMessageAsClosestNode_addResponses env m2
                      · exact HandleGroupMessageAsClosestNode_addResponses env m2 hd
                    · unfold HandleMessageAsFarNode
                      rfl

theorem message_out_type (env : Env) (m : Message) (p : Bytes) :
    (message_out env m p).type? = some m.type := by
  unfold message_out
  simp only
  repeat' split
  all_goals rfl

theorem IsRequest_message_out (env : Env) (m : Message) (p : Bytes) :
    IsRequest (message_out env m p) = IsRequest m := by
  simp only [IsRequest, Message.type, message_out_type, Option.getD_some]

theorem popBackLoop_eq_take (replication : Nat) (fuel : Nat) (l : List NodeInfo)
    (h : l.length ≤ replication + fuel) : popBackLoop replication fuel l = l.take replication := by
  induction fuel generalizing l with
  | zero =>
    unfold popBackLoop
    exact (List.take_of_length_le (by omega)).symm
  | succ fuel ih =>
    unfold popBackLoop
    split
    · rename_i hlen
      rw [ih l.dropLast (by rw [List.length_dropLast]; omega)]
      rw [List.dropLast_eq_take, List.take_take]
      congr 1
      omega
    · exact (List.take_of_length_le (by omega)).symm

theorem popBackWhileLonger_eq_take (replication : Nat) (l : List NodeInfo) :
    popBackWhileLonger replication l = l.take replication :=
  popBackLoop_eq_take replication l.length l (by omega)

theorem replicateToGroup_sends (env : Env) (l : List NodeInfo) (m : Message) :
    (replicateToGroup env m l).2 =
      l.map (fun i =>
        match env.GetNodeInfo i.node_id with
        | some node => Effect.SendToDirect { m with destination_id? := some i.node_id }
            node.node_id node.connection_id
        | none => Effect.SendToClosestNode { m with destination_id? := some i.node_id }) ∧
    ∀ d, { (replicateToGroup env m l).1 with destination_id? := d } =
      { m with destination_id? := d } := by
  induction l generalizing m with
  | nil => exact ⟨rfl, fun _ => rfl⟩
  | cons i rest ih =>
    have := ih { m with destination_id? := some i.node_id }
    unfold replicateToGroup
    refine ⟨?_, fun d => ?_⟩
    · simp only [List.map_cons, this.1]
    · exact this.2 d

theorem HandleGroup_at_replication (env : Env) (m : Message)
    (h : reachesReplicationStep env m = true) :
    HandleGroupMessageAsClosestNode env m =
      if replicationOf m < 1 ∨ replicationOf m > env.P.group_size then []
      else
        (replicationTargets env m).map (sendReplica env m) ++
          deliverLocally env (replicaFor m env.kNodeId) := by
  unfold reachesReplicationStep at h
  simp only [Bool.and_eq_true, Bool.not_eq_true'] at h
  obtain ⟨⟨h1, h2⟩, h3⟩ := h
  unfold HandleGroupMessageAsClosestNode
  simp only [h1, h2, h3, Bool.false_eq_true, if_false, Bool.not_true]
  by_cases hr : replicationOf m < 1 ∨ replicationOf m > env.P.group_size
  · have : (decide (replicationOf m < 1) || decide (replicationOf m > env.P.group_size)) = true := by
      simpa using hr
    simp only [this, if_true, hr]
  · have : (decide (replicationOf m < 1) || decide (replicationOf m > env.P.group_size)) = false := by
      simpa using hr
    simp only [this, hr, Bool.false_eq_true, if_false]
    have hs := replicateToGroup_sends env (replicationTargets env m)
      { m with direct? := some true, route_history := [] }
    rw [hs.1, hs.2]
    rfl
/-! ## Message handler: claims -/

/-- Claim C1: for every message that passes validation, `HandleMessage` decrements the hop
count and then does exactly what the specification's ordered decision tree does: a valid
cacheable GET goes to the cache lookup and returns; a valid cacheable PUT is copied into the
cache and classification continues; then the pipeline of the earliest matching clause runs, in
the order group request to self id, client mode, empty source id (relay pipeline), zero source
id (drop), destination is the local id (for-this-node), routing message whose relay id is the
local id (routing handler), destination in the client routing table and message direct,
closest-node regime, and far-node forwarding otherwise. No later clause contributes. -/
theorem HandleMessage_takes_earliest_clause (env : Env) (message : Message)
    (h : env.ValidateMessage message = true) :
    HandleMessage env message = specHandle env message :=
  HandleMessage_eq_specHandle env message h

/-- Witness for claim C1: the isolated vault `nodeId 2` receives a request addressed to it; the
earliest matching clause is for-this-node and the request reaches the application. -/
theorem HandleMessage_takes_earliest_clause_witness :
    (isolatedNode 2).ValidateMessage sampleRequest = true ∧
    HandleMessage (isolatedNode 2) sampleRequest = specHandle (isolatedNode 2) sampleRequest ∧
    specClassify (isolatedNode 2) (decrementHops sampleRequest) = Pipeline.forThisNode ∧
    HandleMessage (isolatedNode 2) sampleRequest =
      [Effect.message_received (some [113]) (decrementHops sampleRequest)] :=
  ⟨by decide, HandleMessage_takes_earliest_clause (isolatedNode 2) sampleRequest (by decide),
   by decide, by decide⟩

/-- Claim C3 as stated fails: the isolated vault `nodeId 1` receives `lastHopMessage`, which
passes validation with `hops_to_live == 1` and falls through to far-node forwarding; a send is
issued, and the message handed to the network has `hops_to_live == 0`. -/
theorem last_hop_claim_counterexample :
    ¬ ((isolatedNode 1).ValidateMessage lastHopMessage = true →
        lastHopMessage.hops_to_live = 1 →
        specClassify (isolatedNode 1) (decrementHops lastHopMessage) = Pipeline.farNode →
        (∀ e ∈ HandleMessage (isolatedNode 1) lastHopMessage, e.isSend = false) ∧
        (∀ e ∈ HandleMessage (isolatedNode 1) lastHopMessage,
          ∀ sent, e.sent? = some sent → sent.hops_to_live ≠ 0)) := by
  decide

/-- Claim C3, amended: a validated message that arrives with `hops_to_live == 1` and falls
through to far-node forwarding is processed once and forwarded once: apart from the cache copy
of a valid cacheable PUT, the only call of `HandleMessage` is one `SendToClosestNode`, and the
message it hands to the network has `hops_to_live == 0`. `HandleMessage` has no drop on the
decremented hop count. -/
theorem last_hop_message_is_forwarded (env : Env) (message : Message)
    (hv : env.ValidateMessage message = true) (hh : message.hops_to_live = 1)
    (hfar : specClassify env (decrementHops message) = Pipeline.farNode) :
    ∃ sent : Message, sent.hops_to_live? = some 0 ∧
      HandleMessage env message =
        (if IsValidCacheablePut env (decrementHops message) = true
          then [Effect.AddToCache (decrementHops message)] else []) ++
        [Effect.SendToClosestNode sent] := by
  have hget : IsValidCacheableGet env (decrementHops message) = false := by
    cases hg : IsValidCacheableGet env (decrementHops message) with
    | false => rfl
    | true =>
      simp only [specClassify, specClauses, List.find?, hg] at hfar
      cases hfar
  have hh2 : message.hops_to_live?.getD 0 = 1 := hh
  rw [HandleMessage_eq_specHandle env message hv]
  unfold specHandle
  simp only [hfar, hget, specPipeline, HandleMessageAsFarNode, Bool.not_false, Bool.true_and]
  refine ⟨_, ?_, rfl⟩
  split <;> simp [decrementHops, Message.hops_to_live, hh2]

/-- Witness for claim C3: the isolated vault `nodeId 1` receives `lastHopMessage`, whose hop
count is 1; its only call is a `SendToClosestNode` of the message with hop count 0. -/
theorem last_hop_message_is_forwarded_witness :
    (isolatedNode 1).ValidateMessage lastHopMessage = true ∧
    lastHopMessage.hops_to_live = 1 ∧
    specClassify (isolatedNode 1) (decrementHops lastHopMessage) = Pipeline.farNode ∧
    (∃ sent : Message, sent.hops_to_live? = some 0 ∧
      HandleMessage (isolatedNode 1) lastHopMessage =
        (if IsValidCacheablePut (isolatedNode 1) (decrementHops lastHopMessage) = true
          then [Effect.AddToCache (decrementHops lastHopMessage)] else []) ++
        [Effect.SendToClosestNode sent]) ∧
    HandleMessage (isolatedNode 1) lastHopMessage =
      [Effect.SendToClosestNode { lastHopMessage with hops_to_live? := some 0 }] :=
  ⟨by decide, by decide, by decide,
   last_hop_message_is_forwarded (isolatedNode 1) lastHopMessage (by decide) (by decide)
     (by decide),
   by decide⟩

/-- Claim C4: for the request captured by the reply functor and every non-empty reply payload
`p`, the functor builds one response frame and either sends it to the closest node or (when it
is addressed to this vault itself) passes it to `HandleMessage`; that frame has
`request = false`, `destination_id` = the request's `source_id`, `source_id` = the local node
id, `type` = the request's type, the request's `id`, `relay_id` and `relay_connection_id`
whenever the request carries them, `direct = true`, `hops_to_live = Parameters::hops_to_live`
and the single data frame `p`. -/
theorem response_frame_fields (env : Env) (message : Message) (p : Bytes) (hp : p ≠ []) :
    ∃ out : Message,
      (response_functor env message p = [Effect.SendToClosestNode out] ∨
        response_functor env message p = HandleMessage env out) ∧
      out.request? = some false ∧
      out.destination_id? = some message.source_id ∧
      out.source_id? = some env.kNodeId ∧
      out.type? = some message.type ∧
      (∀ i, message.id? = some i → out.id? = some i) ∧
      (∀ r, message.relay_id? = some r → out.relay_id? = some r) ∧
      (∀ c, message.relay_connection_id? = some c → out.relay_connection_id? = some c) ∧
      out.direct? = some true ∧
      out.hops_to_live? = some env.P.hops_to_live ∧
      out.data = [p] := by
  refine ⟨message_out env message p, ?_, ?_⟩
  · unfold response_functor
    have : p.isEmpty = false := by cases p <;> simp_all
    simp only [this, Bool.false_eq_true, if_false]
    split
    · exact Or.inl rfl
    · split
      · exact Or.inl rfl
      · exact Or.inr rfl
  · unfold message_out Message.has_id Message.has_relay_id Message.has_relay_connection_id
      Message.id Message.relay_id Message.relay_connection_id
    cases message.id? <;> cases message.relay_id? <;> cases message.relay_connection_id? <;>
      simp

/-- Witness for claim C4: the vault `nodeId 2` answers `sampleRequest` (as delivered, hop count
9) with the payload `[114]`; the frame goes to the closest node. -/
theorem response_frame_fields_witness :
    ([114] : Bytes) ≠ [] ∧
    (∃ out : Message,
      (response_functor (isolatedNode 2) (decrementHops sampleRequest) [114] =
          [Effect.SendToClosestNode out] ∨
        response_functor (isolatedNode 2) (decrementHops sampleRequest) [114] =
          HandleMessage (isolatedNode 2) out) ∧
      out.request? = some false ∧
      out.destination_id? = some (decrementHops sampleRequest).source_id ∧
      out.source_id? = some (isolatedNode 2).kNodeId ∧
      out.type? = some (decrementHops sampleRequest).type ∧
      (∀ i, (decrementHops sampleRequest).id? = some i → out.id? = some i) ∧
      (∀ r, (decrementHops sampleRequest).relay_id? = some r → out.relay_id? = some r) ∧
      (∀ c, (decrementHops sampleRequest).relay_connection_id? = some c →
        out.relay_connection_id? = some c) ∧
      out.direct? = some true ∧
      out.hops_to_live? = some (isolatedNode 2).P.hops_to_live ∧
      out.data = [[114]]) ∧
    response_functor (isolatedNode 2) (decrementHops sampleRequest) [114] =
      [Effect.SendToClosestNode
        { type? := some 100, request? := some false, direct? := some true,
          source_id? := some (nodeId 2), destination_id? := some (nodeId 1),
          data := [[114]], id? := some 7, hops_to_live? := some 10,
          client_node? := some false, routing_message? := some false,
          last_id? := some (nodeId 2) }] :=
  ⟨by decide,
   response_frame_fields (isolatedNode 2) (decrementHops sampleRequest) [114] (by decide),
   by decide⟩

/-- Claim C5 (evaluated on the code): the response frame that the destination builds for a
request it delivered to the application (`IsRequest` holds, so its type is positive) keeps that
positive type; whatever node handles the frame, and whatever its tables hold, `HandleMessage`
makes no `AddResponse` call on the correlation timer for it. -/
theorem response_frame_never_reaches_timer (envD envO : Env) (request : Message) (p : Bytes)
    (hreq : IsRequest request = true) :
    ∀ e ∈ HandleMessage envO (message_out envD request p), e.isAddResponse = false := by
  have h := HandleMessage_addResponses envO (message_out envD request p)
    (by rw [IsRequest_message_out]; exact hreq)
  intro e he
  cases hc : e.isAddResponse with
  | false => rfl
  | true =>
    have : e ∈ addResponses (HandleMessage envO (message_out envD request p)) :=
      List.mem_filter.2 ⟨he, hc⟩
    rw [h] at this
    cases this

/-- Witness for claim C5: `nodeId 1` sends `sampleRequest` (id 7) to `nodeId 2`, which delivers
it and answers `[114]`; back at `nodeId 1` the frame is handed to the application as a request
and the timer is not called. -/
theorem response_frame_never_reaches_timer_witness :
    IsRequest (decrementHops sampleRequest) = true ∧
    HandleMessage (isolatedNode 2) sampleRequest =
      [Effect.message_received (some [113]) (decrementHops sampleRequest)] ∧
    response_functor (isolatedNode 2) (decrementHops sampleRequest) [114] =
      [Effect.SendToClosestNode
        (message_out (isolatedNode 2) (decrementHops sampleRequest) [114])] ∧
    (∀ e ∈ HandleMessage (isolatedNode 1)
        (message_out (isolatedNode 2) (decrementHops sampleRequest) [114]),
      e.isAddResponse = false) ∧
    HandleMessage (isolatedNode 1)
        (message_out (isolatedNode 2) (decrementHops sampleRequest) [114]) =
      [Effect.message_received (some [114])
        (decrementHops (message_out (isolatedNode 2) (decrementHops sampleRequest) [114]))] :=
  ⟨by decide, by decide, by decide,
   response_frame_never_reaches_timer (isolatedNode 2) (isolatedNode 1)
     (decrementHops sampleRequest) [114] (by decide),
   by decide⟩

/-- Claim C6: when a group message reaches the replication step (this node is group leader) and
`1 <= replication <= GROUP_SIZE` for the handler's 16-bit `replication`, then with
`r = replication - 1` the copies are sent, in order, to exactly the first `r` entries of
`GetClosestMatrixNodes(destination, r + 2)` with the destination id and the local id removed,
one send per peer, followed only by the local delivery; so at most `r` copies are sent, each
addressed to its peer, and no peer is the destination id or the local node. For a
`replication` field within 0..65535 the 16-bit value is the field itself. -/
theorem replication_peers (env : Env) (message : Message)
    (hstep : reachesReplicationStep env message = true)
    (h1 : 1 ≤ replicationOf message) (h2 : replicationOf message ≤ env.P.group_size) :
    let r := replicationOf message - 1
    let peers :=
      (((env.GetClosestMatrixNodes message.destination_id (r + 2)).filter
          (fun node_info => decide (node_info.node_id ≠ message.destination_id))).filter
          (fun node_info => decide (node_info.node_id ≠ env.kNodeId))).take r
    HandleGroupMessageAsClosestNode env message =
        peers.map (sendReplica env message) ++
          deliverLocally env (replicaFor message env.kNodeId) ∧
      peers.length ≤ r ∧
      (∀ peer ∈ peers, peer.node_id ≠ message.destination_id ∧ peer.node_id ≠ env.kNodeId ∧
        (sendReplica env message peer).sent? = some (replicaFor message peer.node_id) ∧
        (replicaFor message peer.node_id).destination_id = peer.node_id) ∧
      (0 ≤ message.replication → message.replication < 65536 →
        (replicationOf message : Int) = message.replication) := by
  intro r peers
  have hpeers : replicationTargets env message = peers := by
    unfold replicationTargets
    simp only [popBackWhileLonger_eq_take, peers, r, decide_not]
  refine ⟨?_, ?_, ?_, ?_⟩
  · rw [HandleGroup_at_replication env message hstep, hpeers]
    have : ¬ (replicationOf message < 1 ∨ replicationOf message > env.P.group_size) := by omega
    simp only [this, if_false]
  · exact (List.length_take_le _ _)
  · intro peer hpeer
    have hmem := List.mem_of_mem_take hpeer
    simp only [List.mem_filter, decide_eq_true_eq] at hmem
    refine ⟨hmem.1.2, hmem.2, ?_, rfl⟩
    unfold sendReplica
    cases env.GetNodeInfo peer.node_id <;> rfl
  · intro h0 h3
    unfold replicationOf
    rw [Int.emod_eq_of_lt h0 h3]
    exact Int.toNat_of_nonneg h0

/-- Witness for claim C6: the group leader `nodeId 1` handles a group request for `nodeId 9`
with replication 3; of the four closest matrix peers 9, 1, 2, 3 the copies go to 2 (direct)
and 3 (closest node), then the request is delivered locally. -/
theorem replication_peers_witness :
    reachesReplicationStep groupLeaderNode (groupRequest 3) = true ∧
    1 ≤ replicationOf (groupRequest 3) ∧
    replicationOf (groupRequest 3) ≤ groupLeaderNode.P.group_size ∧
    (let r := replicationOf (groupRequest 3) - 1
     let peers :=
      (((groupLeaderNode.GetClosestMatrixNodes (groupRequest 3).destination_id (r + 2)).filter
          (fun node_info => decide (node_info.node_id ≠ (groupRequest 3).destination_id))).filter
          (fun node_info => decide (node_info.node_id ≠ groupLeaderNode.kNodeId))).take r
     HandleGroupMessageAsClosestNode groupLeaderNode (groupRequest 3) =
        peers.map (sendReplica groupLeaderNode (groupRequest 3)) ++
          deliverLocally groupLeaderNode (replicaFor (groupRequest 3) groupLeaderNode.kNodeId) ∧
      peers.length ≤ r ∧
      (∀ peer ∈ peers, peer.node_id ≠ (groupRequest 3).destination_id ∧
        peer.node_id ≠ groupLeaderNode.kNodeId ∧
        (sendReplica groupLeaderNode (groupRequest 3) peer).sent? =
          some (replicaFor (groupRequest 3) peer.node_id) ∧
        (replicaFor (groupRequest 3) peer.node_id).destination_id = peer.node_id) ∧
      (0 ≤ (groupRequest 3).replication → (groupRequest 3).replication < 65536 →
        (replicationOf (groupRequest 3) : Int) = (groupRequest 3).replication)) ∧
    HandleGroupMessageAsClosestNode groupLeaderNode (groupRequest 3) =
      [Effect.SendToDirect (replicaFor (groupRequest 3) (nodeId 2)) (nodeId 2) (nodeId 2),
       Effect.SendToClosestNode (replicaFor (groupRequest 3) (nodeId 3)),
       Effect.message_received (some [113]) (replicaFor (groupRequest 3) (nodeId 1))] :=
  ⟨by decide, by decide, by decide,
   replication_peers groupLeaderNode (groupRequest 3) (by decide) (by decide) (by decide),
   by decide⟩

/-- Counterexample to claim C7: at the group leader `nodeId 1` (group size 4), a group request
whose `replication` field is 65537, above the group size, is not dropped but delivered
locally, and one whose field is -65533, below 1, is replicated to two peers and delivered
locally: the handler reads the field as the 16-bit values 1 and 3. -/
theorem replication_field_claim_counterexample :
    reachesReplicationStep groupLeaderNode (groupRequest 65537) = true ∧
    (groupRequest 65537).replication > (groupLeaderNode.P.group_size : Int) ∧
    HandleGroupMessageAsClosestNode groupLeaderNode (groupRequest 65537) =
      [Effect.message_received (some [113]) (replicaFor (groupRequest 65537) (nodeId 1))] ∧
    reachesReplicationStep groupLeaderNode (groupRequest (-65533)) = true ∧
    (groupRequest (-65533)).replication < 1 ∧
    HandleGroupMessageAsClosestNode groupLeaderNode (groupRequest (-65533)) =
      [Effect.SendToDirect (replicaFor (groupRequest (-65533)) (nodeId 2)) (nodeId 2)
         (nodeId 2),
       Effect.SendToClosestNode (replicaFor (groupRequest (-65533)) (nodeId 3)),
       Effect.message_received (some [113])
         (replicaFor (groupRequest (-65533)) (nodeId 1))] := by
  decide

/-- Claim C7, amended: for a group message that reaches the replication step, with
`replication` the value the handler tests, `static_cast<uint16_t>(message.replication())`,
which is the field itself for a field within 0..65535: if `replication > GROUP_SIZE` or
`replication < 1` the handler makes no call at all (nothing sent, nothing delivered); if
`replication == 1` (and `GROUP_SIZE` is at least 1) no copy is sent to a peer and the
handler's calls are exactly those of the local delivery of the message readdressed to this
node. -/
theorem replication_bounds (env : Env) (message : Message)
    (hstep : reachesReplicationStep env message = true) :
    ((replicationOf message > env.P.group_size ∨ replicationOf message < 1) →
      HandleGroupMessageAsClosestNode env message = []) ∧
    (replicationOf message = 1 → 1 ≤ env.P.group_size →
      HandleGroupMessageAsClosestNode env message =
        deliverLocally env (replicaFor message env.kNodeId)) ∧
    (0 ≤ message.replication → message.replication < 65536 →
      (replicationOf message : Int) = message.replication) ∧
    (replicationOf message : Int) = message.replication % 65536 := by
  have hcast : (replicationOf message : Int) = message.replication % 65536 := by
    unfold replicationOf
    exact Int.toNat_of_nonneg (Int.emod_nonneg _ (by decide))
  rw [HandleGroup_at_replication env message hstep]
  refine ⟨fun h => ?_, fun h1 hg => ?_, fun h0 h3 => ?_, hcast⟩
  · have : replicationOf message < 1 ∨ replicationOf message > env.P.group_size := by omega
    simp only [this, if_true]
  · have : ¬ (replicationOf message < 1 ∨ replicationOf message > env.P.group_size) := by omega
    simp only [this, if_false]
    unfold replicationTargets
    simp only [popBackWhileLonger_eq_take, h1, Nat.sub_self, List.take_zero, List.map_nil,
      List.nil_append]
  · rw [hcast, Int.emod_eq_of_lt h0 h3]

/-- Witness for claim C7: at the group leader `nodeId 1` a group request with replication 5
(above the group size 4) and one with replication 0 cause no call; one with replication 1 is
only delivered locally. -/
theorem replication_bounds_witness :
    reachesReplicationStep groupLeaderNode (groupRequest 5) = true ∧
    HandleGroupMessageAsClosestNode groupLeaderNode (groupRequest 5) = [] ∧
    HandleGroupMessageAsClosestNode groupLeaderNode (groupRequest 0) = [] ∧
    HandleGroupMessageAsClosestNode groupLeaderNode (groupRequest 1) =
      deliverLocally groupLeaderNode (replicaFor (groupRequest 1) groupLeaderNode.kNodeId) ∧
    HandleGroupMessageAsClosestNode groupLeaderNode (groupRequest 1) =
      [Effect.message_received (some [113]) (replicaFor (groupRequest 1) (nodeId 1))] :=
  ⟨by decide,
   (replication_bounds groupLeaderNode (groupRequest 5) (by decide)).1 (Or.inl (by decide)),
   (replication_bounds groupLeaderNode (groupRequest 0) (by decide)).1 (Or.inr (by decide)),
   (replication_bounds groupLeaderNode (groupRequest 1) (by decide)).2.1 (by decide)
     (by decide),
   by decide⟩

/-- Claim C8 as stated fails: at a node that is not closest to the destination once the group
matrix is counted, a direct message that already has `visited = true` and whose destination is
in neither table is not dropped but forwarded. -/
theorem direct_closest_claim_counterexample :
    ¬ (∀ (env : Env) (message : Message), message.direct = true →
        HandleDirectMessageAsClosestNode env message =
          if env.Contains message.destination_id ∨ env.client_Contains message.destination_id
          then [Effect.SendToClosestNode message]
          else if message.has_visited = false ∨ message.visited = false
          then [Effect.SendToClosestNode { message with visited? := some true }]
          else []) := by
  intro h
  have h1 := h nodeWithCloserMatrixPeer visitedDirectMessage (by decide)
  revert h1
  decide

/-- Claim C8, amended: `HandleDirectMessageAsClosestNode` first asks whether this node is
closest to the destination including the group matrix. If it is: a destination found in the
routing table or the client routing table gets the message forwarded unchanged; otherwise a
message whose `visited` is unset or false is forwarded with `visited = true`; otherwise
nothing is sent. If it is not, the message is forwarded unchanged. -/
theorem HandleDirectMessageAsClosestNode_cases (env : Env) (message : Message) :
    HandleDirectMessageAsClosestNode env message =
      if env.IsThisNodeClosestToIncludingMatrix message.destination_id = true then
        if env.Contains message.destination_id ∨ env.client_Contains message.destination_id
        then [Effect.SendToClosestNode message]
        else if message.has_visited = false ∨ message.visited = false
        then [Effect.SendToClosestNode { message with visited? := some true }]
        else []
      else [Effect.SendToClosestNode message] := by
  unfold HandleDirectMessageAsClosestNode
  rcases Bool.eq_false_or_eq_true (env.IsThisNodeClosestToIncludingMatrix
      message.destination_id) with h1 | h1 <;>
    rcases Bool.eq_false_or_eq_true (env.Contains message.destination_id) with h2 | h2 <;>
    rcases Bool.eq_false_or_eq_true (env.client_Contains message.destination_id)
      with h3 | h3 <;>
    rcases Bool.eq_false_or_eq_true message.has_visited with h4 | h4 <;>
    rcases Bool.eq_false_or_eq_true message.visited with h5 | h5 <;>
    simp [h1, h2, h3, h4, h5]

/-! ## Acknowledgement engine: further lemmas -/

theorem found_eq_false_iff (ack_id : AckId) (queue : List Timers) :
    found ack_id queue = false ↔ ∀ x ∈ queue, x.ack_id ≠ ack_id := by
  induction queue with
  | nil => simp [found]
  | cons i rest ih =>
    simp only [found, List.any_cons, Bool.or_eq_false_iff, decide_eq_false_iff_not,
      List.mem_cons, forall_eq_or_imp] at ih ⊢
    rw [ih]
    constructor
    · rintro ⟨h1, h2⟩
      exact ⟨fun h => h1 h.symm, h2⟩
    · rintro ⟨h1, h2⟩
      exact ⟨fun h => h1 h.symm, h2⟩

theorem eraseFound_of_not_found (a : AckId) (queue : List Timers)
    (h : ∀ x ∈ queue, x.ack_id ≠ a) : eraseFound a queue = queue := by
  induction queue with
  | nil => rfl
  | cons i rest ih =>
    have hi : ¬ a = i.ack_id := fun hh => h i (List.mem_cons_self _ _) hh.symm
    simp [eraseFound, hi, ih (fun x hx => h x (List.mem_cons_of_mem _ hx))]

theorem eraseFound_at (a : AckId) (pre post : List Timers) (e : Timers)
    (he : e.ack_id = a) (hpre : ∀ x ∈ pre, x.ack_id ≠ a) :
    eraseFound a (pre ++ e :: post) = pre ++ post := by
  induction pre with
  | nil => simp [eraseFound, he]
  | cons i rest ih =>
    have hi : ¬ a = i.ack_id := fun hh => hpre i (List.mem_cons_self _ _) hh.symm
    have := ih (fun x hx => hpre x (List.mem_cons_of_mem _ hx))
    simp [eraseFound, hi, this]

theorem eraseFound_eq_filter (a : AckId) (queue : List Timers)
    (hn : (queue.map (fun timer => timer.ack_id)).Nodup) :
    eraseFound a queue = queue.filter (fun timer => decide (timer.ack_id ≠ a)) := by
  induction queue with
  | nil => rfl
  | cons i rest ih =>
    simp only [List.map_cons, List.nodup_cons] at hn
    by_cases hi : a = i.ack_id
    · have hrest : ∀ x ∈ rest, x.ack_id ≠ a := by
        intro x hx hxa
        exact hn.1 (List.mem_map.2 ⟨x, hx, by rw [hxa, hi]⟩)
      have hfilter : rest.filter (fun timer => decide (timer.ack_id ≠ a)) = rest :=
        List.filter_eq_self.2 (fun x hx => by simpa using hrest x hx)
      simp only [eraseFound, hi, if_true, List.filter_cons, ne_eq, not_true_eq_false,
        decide_False, Bool.false_eq_true, if_false]
      rw [← hi]
      exact hfilter.symm
    · have hi2 : ¬ i.ack_id = a := fun hh => hi hh.symm
      simp [eraseFound, hi, hi2, List.filter_cons, ih hn.2]

theorem lookup_split (a : AckId) (queue : List Timers) (e : Timers)
    (h : lookup a queue = some e) :
    ∃ pre post, queue = pre ++ e :: post ∧ e.ack_id = a ∧ ∀ x ∈ pre, x.ack_id ≠ a := by
  induction queue with
  | nil => simp [lookup] at h
  | cons i rest ih =>
    by_cases hi : a = i.ack_id
    · simp only [lookup, List.find?_cons, hi, decide_True, Option.some.injEq] at h
      subst h
      exact ⟨[], rest, rfl, hi.symm, by simp⟩
    · have hrest : lookup a rest = some e := by
        simpa [lookup, List.find?_cons, hi] using h
      obtain ⟨pre, post, hq, he, hpre⟩ := ih hrest
      refine ⟨i :: pre, post, by simp [hq], he, ?_⟩
      intro x hx
      rcases List.mem_cons.1 hx with hx | hx
      · subst hx; exact fun hh => hi hh.symm
      · exact hpre x hx

theorem lookup_eq_none (a : AckId) (queue : List Timers) (h : lookup a queue = none) :
    ∀ x ∈ queue, x.ack_id ≠ a := by
  intro x hx hxa
  have := List.find?_eq_none.1 h x hx
  simp [hxa] at this

theorem toUint32_toInt32 (a : Nat) (h : a < 2 ^ 32) :
    Acknowledgement.toUint32 (Acknowledgement.toInt32 a) = a := by
  unfold Acknowledgement.toUint32 Acknowledgement.toInt32
  have hp : (2 : Nat) ^ 32 = 4294967296 := by norm_num
  have hp2 : (2 : Nat) ^ 31 = 2147483648 := by norm_num
  have hpi : (2 : Int) ^ 32 = 4294967296 := by norm_num
  rw [hp] at h
  simp only [hp, hp2, hpi]
  have hmod : a % 4294967296 = a := Nat.mod_eq_of_lt h
  rw [hmod]
  split
  · omega
  · omega

theorem afterGetIds_counter (seed : Nat) (k : Nat) :
    ((Acknowledgement.init seed).afterGetIds k).ack_id_ = (seed + k) % 2 ^ 32 := by
  induction k with
  | zero => rfl
  | succ k ih =>
    have hp : (2 : Nat) ^ 32 = 4294967296 := by norm_num
    simp only [Acknowledgement.afterGetIds, Acknowledgement.GetId, ih, hp]
    have key : ((seed + k) % 4294967296 + 1) % 4294967296 = (seed + (k + 1)) % 4294967296 := by
      omega
    exact key

theorem nthId_formula (seed : Nat) (k : Nat) (hk : 1 ≤ k) :
    (Acknowledgement.init seed).nthId k = (seed + k) % 2 ^ 32 := by
  unfold Acknowledgement.nthId
  have hp : (2 : Nat) ^ 32 = 4294967296 := by norm_num
  simp only [Acknowledgement.GetId, afterGetIds_counter, hp]
  obtain ⟨j, rfl⟩ : ∃ j, k = j + 1 := ⟨k - 1, by omega⟩
  simp only [Nat.add_sub_cancel]
  have key : ((seed + j) % 4294967296 + 1) % 4294967296 = (seed + (j + 1)) % 4294967296 := by
    omega
  exact key

theorem Add_counter (P : Parameters) (self : Acknowledgement) (message : Message)
    (handler : Handler) (timeout : Int) :
    (self.Add P message handler timeout).ack_id_ = self.ack_id_ := by
  unfold Acknowledgement.Add
  simp only
  split <;> rfl

theorem Remove_counter (self : Acknowledgement) (a : AckId) :
    (self.Remove a).ack_id_ = self.ack_id_ := by
  unfold Acknowledgement.Remove
  split <;> rfl
theorem lookup_at (a : AckId) (pre post : List Timers) (e : Timers) (he : e.ack_id = a)
    (hpre : ∀ x ∈ pre, x.ack_id ≠ a) : lookup a (pre ++ e :: post) = some e := by
  induction pre with
  | nil => simp [lookup, he]
  | cons i rest ih =>
    have hi : ¬ a = i.ack_id := fun hh => hpre i (List.mem_cons_self _ _) hh.symm
    have := ih (fun x hx => hpre x (List.mem_cons_of_mem _ hx))
    simpa [lookup, List.find?_cons, hi] using this

theorem Add_fresh (P : Parameters) (self : Acknowledgement) (message : Message)
    (handler : Handler) (timeout : Int) (h : found message.ack_id self.queue_ = false) :
    self.Add P message handler timeout =
      { self with queue_ := self.queue_ ++
          [{ ack_id := message.ack_id, message := message,
             timer := { expires_from_now := timeout,
                        continuation := Continuation.handler handler },
             attempts := 0 }] } := by
  unfold Acknowledgement.Add
  simp only [h, Bool.false_eq_true, if_false]

theorem Remove_at (self : Acknowledgement) (a : AckId) (pre post : List Timers) (e : Timers)
    (hq : self.queue_ = pre ++ e :: post) (he : e.ack_id = a)
    (hpre : ∀ x ∈ pre, x.ack_id ≠ a) :
    self.Remove a =
      { self with
        queue_ := pre ++ post
        io_service_ := self.io_service_ ++
          (if e.timer.waiting = true then [e.timer.continuation] else []) } := by
  unfold Acknowledgement.Remove
  simp only [hq, found_at a pre post e he, if_true, eraseFound_at a pre post e he hpre,
    pendingWait_at a pre post e he hpre]

/-- Expiry of the timer of a queued entry whose retransmit handler is armed: the entry is
re-armed with the next count, and nothing is handed to `io_service_`, as the wait has
completed. -/
theorem expire_handler_at (P : Parameters) (self : Acknowledgement) (a : AckId)
    (pre post : List Timers) (e : Timers) (h : Handler)
    (hq : self.queue_ = pre ++ e :: post) (he : e.ack_id = a)
    (hpre : ∀ x ∈ pre, x.ack_id ≠ a) (hw : e.timer.waiting = true)
    (hc : e.timer.continuation = Continuation.handler h) (hm : e.message.ack_id = a) :
    self.expire P a =
      { self with
        queue_ := pre ++ Acknowledgement.rearm P a h e.timer.expires_from_now e :: post } := by
  unfold Acknowledgement.expire
  rw [hq, lookup_at a pre post e he hpre]
  simp only [hw, if_true, hc, updateFound_at a completeWait pre post e he hpre]
  have hstep := Add_hit P
    { self with queue_ := pre ++ completeWait e :: post } e.message h e.timer.expires_from_now
    pre post (completeWait e) rfl (he.trans hm.symm) (hm ▸ hpre)
  rw [hstep, hm]
  simp [completeWait, Acknowledgement.rearm]

/-- Expiry of the timer of a queued entry whose eviction lambda is armed: the entry is erased,
and nothing is handed to `io_service_`. -/
theorem expire_remove_at (P : Parameters) (self : Acknowledgement) (a : AckId)
    (pre post : List Timers) (e : Timers)
    (hq : self.queue_ = pre ++ e :: post) (he : e.ack_id = a)
    (hpre : ∀ x ∈ pre, x.ack_id ≠ a) (hw : e.timer.waiting = true)
    (hc : e.timer.continuation = Continuation.remove a) :
    self.expire P a = { self with queue_ := pre ++ post } := by
  unfold Acknowledgement.expire
  rw [hq, lookup_at a pre post e he hpre]
  simp only [hw, if_true, hc, updateFound_at a completeWait pre post e he hpre]
  have hstep := Remove_at { self with queue_ := pre ++ completeWait e :: post } a pre post
    (completeWait e) rfl he hpre
  rw [hstep]
  simp [completeWait]

theorem expireTimes_fresh (P : Parameters) (self : Acknowledgement) (message : Message)
    (handler : Handler) (timeout : Int) (hmax : 1 ≤ P.max_ack_attempts)
    (hwidth : P.max_ack_attempts < attemptsModulus)
    (hnot : found message.ack_id self.queue_ = false) (k : Nat)
    (hk : k ≤ P.max_ack_attempts) :
    Acknowledgement.expireTimes P (self.Add P message handler timeout) message.ack_id k =
      { self with queue_ := self.queue_ ++
          [{ ack_id := message.ack_id, message := message,
             timer := { expires_from_now := timeout,
                        continuation := if k = P.max_ack_attempts
                          then Continuation.remove message.ack_id
                          else Continuation.handler handler },
             attempts := k }] } := by
  have hpre := (found_eq_false_iff _ _).1 hnot
  induction k with
  | zero =>
    have h0 : ¬ 0 = P.max_ack_attempts := by omega
    simp only [Acknowledgement.expireTimes, Add_fresh P self message handler timeout hnot, h0,
      if_false]
  | succ k ih =>
    have hk1 : ¬ k = P.max_ack_attempts := by omega
    have ih := ih (by omega)
    simp only [hk1, if_false] at ih
    simp only [Acknowledgement.expireTimes, ih]
    rw [expire_handler_at P _ message.ack_id self.queue_ [] _ handler rfl rfl hpre rfl rfl rfl]
    have hmod : (k + 1) % attemptsModulus = k + 1 := Nat.mod_eq_of_lt (by omega)
    simp only [Acknowledgement.rearm, hmod]

theorem expireTimes_evicts (P : Parameters) (self : Acknowledgement) (message : Message)
    (handler : Handler) (timeout : Int) (hmax : 1 ≤ P.max_ack_attempts)
    (hwidth : P.max_ack_attempts < attemptsModulus)
    (hnot : found message.ack_id self.queue_ = false) :
    Acknowledgement.expireTimes P (self.Add P message handler timeout) message.ack_id
      (P.max_ack_attempts + 1) = self := by
  have hpre := (found_eq_false_iff _ _).1 hnot
  have h := expireTimes_fresh P self message handler timeout hmax hwidth hnot
    P.max_ack_attempts (le_refl _)
  simp only [if_true] at h
  simp only [Acknowledgement.expireTimes, h]
  rw [expire_remove_at P _ message.ack_id self.queue_ [] _ rfl rfl hpre rfl rfl]
  simp

/-- With `max_ack_attempts` beyond the range of the 8-bit count, the count never equals it:
every expiry re-arms the retransmit handler and the entry is never evicted. -/
theorem expireTimes_wraps (P : Parameters) (self : Acknowledgement) (message : Message)
    (handler : Handler) (timeout : Int) (hwidth : attemptsModulus ≤ P.max_ack_attempts)
    (hnot : found message.ack_id self.queue_ = false) (k : Nat) :
    Acknowledgement.expireTimes P (self.Add P message handler timeout) message.ack_id k =
      { self with queue_ := self.queue_ ++
          [{ ack_id := message.ack_id, message := message,
             timer := { expires_from_now := timeout,
                        continuation := Continuation.handler handler },
             attempts := k % attemptsModulus }] } := by
  have hpre := (found_eq_false_iff _ _).1 hnot
  induction k with
  | zero =>
    simp only [Acknowledgement.expireTimes, Add_fresh P self message handler timeout hnot]
    rfl
  | succ k ih =>
    simp only [Acknowledgement.expireTimes, ih]
    rw [expire_handler_at P _ message.ack_id self.queue_ [] _ handler rfl rfl hpre rfl rfl rfl]
    have hlt : (k % attemptsModulus + 1) % attemptsModulus < attemptsModulus :=
      Nat.mod_lt _ (by decide)
    have hmod : (k % attemptsModulus + 1) % attemptsModulus = (k + 1) % attemptsModulus := by
      rw [Nat.add_mod, Nat.mod_mod, ← Nat.add_mod]
    have hne : ¬ (k + 1) % attemptsModulus = P.max_ack_attempts := by omega
    simp only [Acknowledgement.rearm, hmod, hne, if_false]

theorem timerInvariant_Add_fresh (P : Parameters) (self : Acknowledgement) (message : Message)
    (handler : Handler) (timeout : Int) (hmax : 1 ≤ P.max_ack_attempts)
    (hnot : found message.ack_id self.queue_ = false)
    (hinv : ∀ e ∈ self.queue_, timerInvariant P e) :
    ∀ e ∈ (self.Add P message handler timeout).queue_, timerInvariant P e := by
  rw [Add_fresh P self message handler timeout hnot]
  intro e he
  rcases List.mem_append.1 he with h | h
  · exact hinv e h
  · simp only [List.mem_singleton] at h
    subst h
    refine ⟨rfl, Nat.zero_le _, fun h0 => ?_, fun _ => ⟨handler, rfl⟩⟩
    simp only at h0
    omega

theorem timerInvariant_Remove (P : Parameters) (self : Acknowledgement) (a : AckId)
    (hinv : ∀ e ∈ self.queue_, timerInvariant P e) :
    ∀ e ∈ (self.Remove a).queue_, timerInvariant P e := by
  unfold Acknowledgement.Remove
  split
  · intro e he
    exact hinv e ((eraseFound_sublist a self.queue_).subset he)
  · exact hinv

theorem timerInvariant_foldl_Remove (P : Parameters) (ack_ids : List AckId)
    (self : Acknowledgement) (hinv : ∀ e ∈ self.queue_, timerInvariant P e) :
    ∀ e ∈ (ack_ids.foldl Acknowledgement.Remove self).queue_, timerInvariant P e := by
  induction ack_ids generalizing self with
  | nil => exact hinv
  | cons a rest ih => exact ih _ (timerInvariant_Remove P self a hinv)

theorem timerInvariant_updateFound (P : Parameters) (a : AckId) (f : Timers → Timers)
    (queue : List Timers) (hf : ∀ e, timerInvariant P e → timerInvariant P (f e))
    (hinv : ∀ e ∈ queue, timerInvariant P e) :
    ∀ e ∈ updateFound a f queue, timerInvariant P e := by
  induction queue with
  | nil => exact hinv
  | cons i rest ih =>
    unfold updateFound
    split
    · intro e he
      simp only [List.mem_cons] at he
      rcases he with he | he
      · rw [he]
        exact hf i (hinv i (List.mem_cons_self _ _))
      · exact hinv e (List.mem_cons_of_mem _ he)
    · intro e he
      simp only [List.mem_cons] at he
      rcases he with he | he
      · rw [he]
        exact hinv i (List.mem_cons_self _ _)
      · exact ih (fun x hx => hinv x (List.mem_cons_of_mem _ hx)) e he

theorem timerInvariant_expire (P : Parameters) (self : Acknowledgement) (a : AckId)
    (hinv : ∀ e ∈ self.queue_, timerInvariant P e) :
    ∀ e ∈ (self.expire P a).queue_, timerInvariant P e := by
  cases hl : lookup a self.queue_ with
  | none =>
    unfold Acknowledgement.expire
    simp only [hl]
    exact hinv
  | some i =>
    obtain ⟨pre, post, hq, hi, hpre⟩ := lookup_split a self.queue_ i hl
    have hii : timerInvariant P i := hinv i (by rw [hq]; simp)
    obtain ⟨hmsg, hle, hat, hbelow⟩ := hii
    have hmem : ∀ x, x ∈ pre ∨ x ∈ post → timerInvariant P x := by
      intro x hx
      apply hinv x
      rw [hq]
      simp only [List.mem_append, List.mem_cons]
      rcases hx with hx | hx
      · exact Or.inl hx
      · exact Or.inr (Or.inr hx)
    rcases Bool.eq_false_or_eq_true i.timer.waiting with hw | hw
    · cases hc : i.timer.continuation with
      | remove id =>
        unfold Acknowledgement.expire
        simp only [hl, hw, if_true, hc]
        apply timerInvariant_Remove
        exact timerInvariant_updateFound P a completeWait self.queue_
          (fun e he => he) hinv
      | handler h =>
        have hlt : i.attempts < P.max_ack_attempts := by
          rcases Nat.lt_or_ge i.attempts P.max_ack_attempts with hlt | hge
          · exact hlt
          · have := hat (le_antisymm hle hge)
            rw [hc] at this
            cases this
        have hma : i.message.ack_id = a := hmsg.trans hi
        rw [expire_handler_at P self a pre post i h hq hi hpre hw hc hma]
        have hmodle : (i.attempts + 1) % attemptsModulus ≤ i.attempts + 1 :=
          Nat.mod_le _ _
        intro e he
        simp only [List.mem_append, List.mem_cons] at he
        rcases he with he | he | he
        · exact hmem e (Or.inl he)
        · subst he
          refine ⟨hmsg, ?_, ?_, ?_⟩
          · simp only [Acknowledgement.rearm]
            omega
          · intro heq
            simp only [Acknowledgement.rearm] at heq ⊢
            simp only [heq, if_true, hi]
          · intro hlt2
            simp only [Acknowledgement.rearm] at hlt2 ⊢
            have : ¬ (i.attempts + 1) % attemptsModulus = P.max_ack_attempts := by omega
            exact ⟨h, by simp only [this, if_false]⟩
        · exact hmem e (Or.inr he)
    · unfold Acknowledgement.expire
      simp only [hl, hw, Bool.false_eq_true, if_false]
      exact hinv

theorem timerInvariant_run (P : Parameters) (hmax : 1 ≤ P.max_ack_attempts)
    (events : List AckEvent) (self s : Acknowledgement)
    (hinv : ∀ e ∈ self.queue_, timerInvariant P e)
    (hrun : runEvents P self events = some s) :
    ∀ e ∈ s.queue_, timerInvariant P e := by
  induction events generalizing self with
  | nil =>
    simp only [runEvents, Option.some.injEq] at hrun
    subst hrun
    exact hinv
  | cons event rest ih =>
    simp only [runEvents] at hrun
    split at hrun
    · rename_i hallowed
      refine ih _ ?_ hrun
      cases event with
      | Add message handler timeout =>
        have hnot : found message.ack_id self.queue_ = false := by
          simpa [AckEvent.allowed] using hallowed
        exact timerInvariant_Add_fresh P self message handler timeout hmax hnot hinv
      | expire a => exact timerInvariant_expire P self a hinv
      | Remove a => exact timerInvariant_Remove P self a hinv
      | HandleMessage a => exact timerInvariant_Remove P self _ hinv
      | RemoveAll => exact timerInvariant_foldl_Remove P _ self hinv
    · cases hrun
/-! ## Acknowledgement engine: further claims -/

/-- Claim C11: when the queue holds no entry for the ack id of the message, `Add` appends
exactly one entry at the back: it holds that ack id, a snapshot equal to the message and
attempt count 0, and its timer is armed with the supplied timeout and handler; every entry
that was queued is unchanged and keeps its position, and the id counter is unchanged. -/
theorem Add_new_appends_entry (P : Parameters) (self : Acknowledgement) (message : Message)
    (handler : Handler) (timeout : Int) (h : found message.ack_id self.queue_ = false) :
    self.Add P message handler timeout =
      { self with queue_ := self.queue_ ++
          [{ ack_id := message.ack_id, message := message,
             timer := { expires_from_now := timeout,
                        continuation := Continuation.handler handler },
             attempts := 0 }] } ∧
    (self.Add P message handler timeout).queue_.length = self.queue_.length + 1 := by
  rw [Add_fresh P self message handler timeout h]
  exact ⟨rfl, by simp⟩

/-- Witness for claim C11: `otherAckedMessage` (ack id 6) is added to the engine that holds
only ack id 5. -/
theorem Add_new_appends_entry_witness :
    found otherAckedMessage.ack_id engineAfterFirstAdd.queue_ = false ∧
    (engineAfterFirstAdd.Add typicalParameters otherAckedMessage 2 30 =
      { engineAfterFirstAdd with queue_ := engineAfterFirstAdd.queue_ ++
          [{ ack_id := otherAckedMessage.ack_id, message := otherAckedMessage,
             timer := { expires_from_now := 30, continuation := Continuation.handler 2 },
             attempts := 0 }] } ∧
     (engineAfterFirstAdd.Add typicalParameters otherAckedMessage 2 30).queue_.length =
       engineAfterFirstAdd.queue_.length + 1) ∧
    (engineAfterFirstAdd.Add typicalParameters otherAckedMessage 2 30).ids = [5, 6] :=
  ⟨by decide,
   Add_new_appends_entry typicalParameters engineAfterFirstAdd otherAckedMessage 2 30
     (by decide),
   by decide⟩

/-- Claim C12 as stated fails: with `max_ack_attempts = 3`, five `Add` calls for the same ack
id leave an entry whose attempt count is 4. -/
theorem attempts_bound_claim_counterexample :
    ¬ (∀ e ∈ (runCalls typicalParameters (Acknowledgement.init 0)
          [AckCall.Add ackedMessage 1 30, AckCall.Add ackedMessage 1 30,
           AckCall.Add ackedMessage 1 30, AckCall.Add ackedMessage 1 30,
           AckCall.Add ackedMessage 1 30]).queue_,
        e.attempts ≤ typicalParameters.max_ack_attempts) := by
  decide

/-- Claim C12, amended: in every state reached from the empty queue by a timer-driven run,
that is by first `Add`s of ids that are not queued, timer expiries (each running the
continuation armed for the entry: the retransmit handler re-adds the stored message, the
eviction lambda calls `Remove`), `Remove`, `HandleMessage` and `RemoveAll`, every entry
satisfies `attempts <= max_ack_attempts`, provided `max_ack_attempts` is at least 1. -/
theorem attempts_bounded_in_timer_driven_runs (P : Parameters) (hmax : 1 ≤ P.max_ack_attempts)
    (seed : Nat) (events : List AckEvent) (s : Acknowledgement)
    (hrun : runEvents P (Acknowledgement.init seed) events = some s) :
    ∀ e ∈ s.queue_, e.attempts ≤ P.max_ack_attempts := by
  intro e he
  have hinit : ∀ x ∈ (Acknowledgement.init seed).queue_, timerInvariant P x := by
    intro x hx
    cases hx
  exact (timerInvariant_run P hmax events _ s hinit hrun e he).2.1

/-- Witness for claim C12: ack id 5 is added and its timer expires three times while ack id 6
is added in between; the entries end with attempt counts 3 and 0. -/
theorem attempts_bounded_in_timer_driven_runs_witness :
    1 ≤ typicalParameters.max_ack_attempts ∧
    runEvents typicalParameters (Acknowledgement.init 0)
        [AckEvent.Add ackedMessage 1 30, AckEvent.expire 5, AckEvent.expire 5,
         AckEvent.Add otherAckedMessage 1 30, AckEvent.expire 5] =
      some (Acknowledgement.expireTimes typicalParameters
        ((Acknowledgement.expireTimes typicalParameters engineAfterFirstAdd 5 2).Add
          typicalParameters otherAckedMessage 1 30) 5 1) ∧
    (∀ e ∈ (Acknowledgement.expireTimes typicalParameters
        ((Acknowledgement.expireTimes typicalParameters engineAfterFirstAdd 5 2).Add
          typicalParameters otherAckedMessage 1 30) 5 1).queue_,
      e.attempts ≤ typicalParameters.max_ack_attempts) ∧
    (Acknowledgement.expireTimes typicalParameters
        ((Acknowledgement.expireTimes typicalParameters engineAfterFirstAdd 5 2).Add
          typicalParameters otherAckedMessage 1 30) 5 1).queue_.map
      (fun e => (e.ack_id, e.attempts)) = [(5, 3), (6, 0)] :=
  ⟨by decide, by decide,
   attempts_bounded_in_timer_driven_runs typicalParameters (by decide) 0
     [AckEvent.Add ackedMessage 1 30, AckEvent.expire 5, AckEvent.expire 5,
      AckEvent.Add otherAckedMessage 1 30, AckEvent.expire 5] _ (by decide),
   by decide⟩

/-- Claim C13 as stated fails: with `max_ack_attempts = 3`, after a fresh `Add` of ack id 5
and three timer expiries without an ack the queue still holds the entry for 5. And with
`max_ack_attempts = 256`, which the 8-bit attempt count never reaches, the entry is still
queued after 257 expiries. -/
theorem eviction_after_max_expiries_counterexample :
    ¬ (found ackedMessage.ack_id
        (Acknowledgement.expireTimes typicalParameters
          ((Acknowledgement.init 0).Add typicalParameters ackedMessage 1 30)
          ackedMessage.ack_id typicalParameters.max_ack_attempts).queue_ = false) ∧
    found ackedMessage.ack_id
        (Acknowledgement.expireTimes wideParameters
          ((Acknowledgement.init 0).Add wideParameters ackedMessage 1 30)
          ackedMessage.ack_id (wideParameters.max_ack_attempts + 1)).queue_ = true := by
  refine ⟨by decide, ?_⟩
  rw [expireTimes_wraps wideParameters (Acknowledgement.init 0) ackedMessage 1 30 (by decide)
    (by decide)]
  exact found_at ackedMessage.ack_id [] [] _ rfl

/-- Claim C13, amended: with each timer expiry running the continuation armed by the most
recent `Add` for that id, start from a fresh `Add` of a message with ack id `a` and let no ack
arrive. For `1 <= max_ack_attempts < 2^8` (the attempt count is 8 bits wide): after
`max_ack_attempts` expiries the entry for `a` is still queued, with
`attempts == max_ack_attempts`, the original snapshot and the eviction lambda armed; after
`max_ack_attempts + 1` expiries the engine is back in the state before the `Add`, so the queue
holds no entry for `a`. -/
theorem unacked_entry_evicted_after_one_more_expiry (P : Parameters) (self : Acknowledgement)
    (message : Message) (handler : Handler) (timeout : Int)
    (hmax : 1 ≤ P.max_ack_attempts) (hwidth : P.max_ack_attempts < attemptsModulus)
    (hnot : found message.ack_id self.queue_ = false) :
    Acknowledgement.expireTimes P (self.Add P message handler timeout) message.ack_id
        P.max_ack_attempts =
      { self with queue_ := self.queue_ ++
          [{ ack_id := message.ack_id, message := message,
             timer := { expires_from_now := timeout,
                        continuation := Continuation.remove message.ack_id },
             attempts := P.max_ack_attempts }] } ∧
    found message.ack_id
      (Acknowledgement.expireTimes P (self.Add P message handler timeout) message.ack_id
        P.max_ack_attempts).queue_ = true ∧
    Acknowledgement.expireTimes P (self.Add P message handler timeout) message.ack_id
        (P.max_ack_attempts + 1) = self ∧
    found message.ack_id
      (Acknowledgement.expireTimes P (self.Add P message handler timeout) message.ack_id
        (P.max_ack_attempts + 1)).queue_ = false := by
  have h := expireTimes_fresh P self message handler timeout hmax hwidth hnot
    P.max_ack_attempts (le_refl _)
  simp only [if_true] at h
  refine ⟨h, ?_, expireTimes_evicts P self message handler timeout hmax hwidth hnot, ?_⟩
  · rw [h]
    exact found_at message.ack_id self.queue_ [] _ rfl
  · rw [expireTimes_evicts P self message handler timeout hmax hwidth hnot]
    exact hnot

/-- Witness for claim C13: ack id 5 in the otherwise empty engine with `max_ack_attempts = 3`:
queued with attempt count 3 after three expiries, gone after the fourth. -/
theorem unacked_entry_evicted_after_one_more_expiry_witness :
    1 ≤ typicalParameters.max_ack_attempts ∧
    typicalParameters.max_ack_attempts < attemptsModulus ∧
    found ackedMessage.ack_id (Acknowledgement.init 0).queue_ = false ∧
    (Acknowledgement.expireTimes typicalParameters
        ((Acknowledgement.init 0).Add typicalParameters ackedMessage 1 30) ackedMessage.ack_id
        typicalParameters.max_ack_attempts =
      { Acknowledgement.init 0 with queue_ := (Acknowledgement.init 0).queue_ ++
          [{ ack_id := ackedMessage.ack_id, message := ackedMessage,
             timer := { expires_from_now := 30,
                        continuation := Continuation.remove ackedMessage.ack_id },
             attempts := typicalParameters.max_ack_attempts }] } ∧
    found ackedMessage.ack_id
      (Acknowledgement.expireTimes typicalParameters
        ((Acknowledgement.init 0).Add typicalParameters ackedMessage 1 30) ackedMessage.ack_id
        typicalParameters.max_ack_attempts).queue_ = true ∧
    Acknowledgement.expireTimes typicalParameters
        ((Acknowledgement.init 0).Add typicalParameters ackedMessage 1 30) ackedMessage.ack_id
        (typicalParameters.max_ack_attempts + 1) = Acknowledgement.init 0 ∧
    found ackedMessage.ack_id
      (Acknowledgement.expireTimes typicalParameters
        ((Acknowledgement.init 0).Add typicalParameters ackedMessage 1 30) ackedMessage.ack_id
        (typicalParameters.max_ack_attempts + 1)).queue_ = false) :=
  ⟨by decide, by decide, by decide,
   unacked_entry_evicted_after_one_more_expiry typicalParameters (Acknowledgement.init 0)
     ackedMessage 1 30 (by decide) (by decide) (by decide)⟩

/-- Claim C14: for a queue that holds at most one entry per ack id (every reachable queue),
after `Remove(a)` the queue is the old queue without its entry for `a`: no entry for `a` is
left and all other entries are unchanged and in the same order; the id counter is unchanged;
if `a` was not queued, `Remove(a)` returns the engine exactly as it was. `Remove` has no
failure path. -/
theorem Remove_erases_entry (self : Acknowledgement) (a : AckId) (hn : self.ids.Nodup) :
    (self.Remove a).queue_ = self.queue_.filter (fun timer => decide (timer.ack_id ≠ a)) ∧
    found a (self.Remove a).queue_ = false ∧
    (self.Remove a).ack_id_ = self.ack_id_ ∧
    (found a self.queue_ = false → self.Remove a = self) := by
  have hq : (self.Remove a).queue_ =
      self.queue_.filter (fun timer => decide (timer.ack_id ≠ a)) := by
    unfold Acknowledgement.Remove
    split
    · exact eraseFound_eq_filter a self.queue_ hn
    · rename_i hf
      have hf2 : found a self.queue_ = false := by
        cases hv : found a self.queue_ with
        | false => rfl
        | true => exact absurd hv hf
      exact (List.filter_eq_self.2 (fun x hx => by
        simpa using (found_eq_false_iff a self.queue_).1 hf2 x hx)).symm
  refine ⟨hq, ?_, Remove_counter self a, fun hf => ?_⟩
  · rw [found_eq_false_iff, hq]
    intro x hx
    simpa using (List.mem_filter.1 hx).2
  · unfold Acknowledgement.Remove
    simp only [hf, Bool.false_eq_true, if_false]

/-- Witness for claim C14: removing ack id 5 from the engine that holds 5 and 6 leaves the
entry for 6; removing the unknown id 9 changes nothing. -/
theorem Remove_erases_entry_witness :
    (engineAfterFirstAdd.Add typicalParameters otherAckedMessage 2 30).ids.Nodup ∧
    (((engineAfterFirstAdd.Add typicalParameters otherAckedMessage 2 30).Remove 5).queue_ =
        (engineAfterFirstAdd.Add typicalParameters otherAckedMessage 2 30).queue_.filter
          (fun timer => decide (timer.ack_id ≠ 5)) ∧
      found 5 ((engineAfterFirstAdd.Add typicalParameters otherAckedMessage 2 30).Remove
        5).queue_ = false ∧
      ((engineAfterFirstAdd.Add typicalParameters otherAckedMessage 2 30).Remove 5).ack_id_ =
        (engineAfterFirstAdd.Add typicalParameters otherAckedMessage 2 30).ack_id_ ∧
      (found 5 (engineAfterFirstAdd.Add typicalParameters otherAckedMessage 2 30).queue_ =
          false →
        (engineAfterFirstAdd.Add typicalParameters otherAckedMessage 2 30).Remove 5 =
          engineAfterFirstAdd.Add typicalParameters otherAckedMessage 2 30)) ∧
    ((engineAfterFirstAdd.Add typicalParameters otherAckedMessage 2 30).Remove 5).ids = [6] ∧
    (engineAfterFirstAdd.Add typicalParameters otherAckedMessage 2 30).Remove 9 =
      engineAfterFirstAdd.Add typicalParameters otherAckedMessage 2 30 :=
  ⟨by decide,
   Remove_erases_entry (engineAfterFirstAdd.Add typicalParameters otherAckedMessage 2 30) 5
     (by decide),
   by decide, by decide⟩

/-- Claim C15: for every engine state and every non-zero 32-bit ack id `a`, also one at or
above `2^31`, passing `a` through the `int32_t` parameter of `HandleMessage` gives a non-zero
argument, and `HandleMessage` leaves the engine in exactly the state `Remove(a)` does. -/
theorem HandleMessage_is_Remove (self : Acknowledgement) (a : AckId) (h32 : a < 2 ^ 32)
    (h0 : a ≠ 0) :
    self.HandleMessage (Acknowledgement.toInt32 a) = self.Remove a ∧
    Acknowledgement.toInt32 a ≠ 0 := by
  refine ⟨?_, ?_⟩
  · unfold Acknowledgement.HandleMessage
    rw [toUint32_toInt32 a h32]
  · intro hz
    have := toUint32_toInt32 a h32
    rw [hz] at this
    exact h0 (by simpa [Acknowledgement.toUint32] using this.symm)

/-- Witness for claim C15: the ack id `2^31 + 5` reaches `HandleMessage` as the negative
argument `-2147483643`, and the entry for it is removed. -/
theorem HandleMessage_is_Remove_witness :
    (2147483653 : Nat) < 2 ^ 32 ∧ (2147483653 : Nat) ≠ 0 ∧
    (((Acknowledgement.init 0).Add typicalParameters highAckedMessage 1 30).HandleMessage
        (Acknowledgement.toInt32 2147483653) =
      ((Acknowledgement.init 0).Add typicalParameters highAckedMessage 1 30).Remove 2147483653 ∧
     Acknowledgement.toInt32 2147483653 ≠ 0) ∧
    Acknowledgement.toInt32 2147483653 = -2147483643 ∧
    (((Acknowledgement.init 0).Add typicalParameters highAckedMessage 1 30).HandleMessage
        (Acknowledgement.toInt32 2147483653)).queue_ = [] :=
  ⟨by decide, by decide,
   HandleMessage_is_Remove ((Acknowledgement.init 0).Add typicalParameters highAckedMessage 1 30)
     2147483653 (by decide) (by decide),
   by decide, by decide⟩

/-- Claim C16 (evaluated on the code): `GetId` does return 0. For every seed the call number
`2^32 - seed mod 2^32` after construction returns 0; with the seed `2^32 - 1` the very first
call does. -/
theorem GetId_returns_zero (seed : Nat) :
    1 ≤ 2 ^ 32 - seed % 2 ^ 32 ∧
    (Acknowledgement.init seed).nthId (2 ^ 32 - seed % 2 ^ 32) = 0 ∧
    (Acknowledgement.init (2 ^ 32 - 1)).GetId.2 = 0 := by
  have hp : (2 : Nat) ^ 32 = 4294967296 := by norm_num
  have h1 : 1 ≤ 2 ^ 32 - seed % 2 ^ 32 := by
    rw [hp]; omega
  refine ⟨h1, ?_, by decide⟩
  rw [nthId_formula seed _ h1, hp]
  have key : (seed + (4294967296 - seed % 4294967296)) % 4294967296 = 0 := by omega
  exact key

/-- Claim C17: `GetId` is a counter modulo `2^32`: call number `k` after construction with
seed `s` returns `(s + k) mod 2^32`; each call returns one more than the call before, modulo
`2^32`; the ids of any `2^32` consecutive calls are pairwise different; and `Add`, `Remove` and
`HandleMessage` leave the counter as it is. -/
theorem GetId_is_counter (seed : Nat) :
    (∀ k, 1 ≤ k → (Acknowledgement.init seed).nthId k = (seed + k) % 2 ^ 32) ∧
    (∀ k, 1 ≤ k → (Acknowledgement.init seed).nthId (k + 1) =
      ((Acknowledgement.init seed).nthId k + 1) % 2 ^ 32) ∧
    (∀ i j, 1 ≤ i → i < j → j < i + 2 ^ 32 →
      (Acknowledgement.init seed).nthId i ≠ (Acknowledgement.init seed).nthId j) ∧
    (∀ (P : Parameters) (self : Acknowledgement) (message : Message) (handler : Handler)
        (timeout : Int), (self.Add P message handler timeout).ack_id_ = self.ack_id_) ∧
    (∀ (self : Acknowledgement) (a : AckId), (self.Remove a).ack_id_ = self.ack_id_) ∧
    (∀ (self : Acknowledgement) (a : Int), (self.HandleMessage a).ack_id_ = self.ack_id_) := by
  have hp : (2 : Nat) ^ 32 = 4294967296 := by norm_num
  refine ⟨fun k hk => nthId_formula seed k hk, fun k hk => ?_, fun i j hi hij hj => ?_,
    Add_counter, Remove_counter, fun self a => Remove_counter self _⟩
  · rw [nthId_formula seed (k + 1) (by omega), nthId_formula seed k hk, hp]
    have key : (seed + (k + 1)) % 4294967296 = ((seed + k) % 4294967296 + 1) % 4294967296 := by
      omega
    exact key
  · rw [nthId_formula seed i hi, nthId_formula seed j (by omega), hp]
    rw [hp] at hj
    have key : (seed + i) % 4294967296 ≠ (seed + j) % 4294967296 := by omega
    exact key
/-! ## Message handler: further claims -/

/-- Claim C18: `RelayDirectMessageIfNeeded` returns true if and only if the message carries a
relay id, its `destination_id()` differs from its `relay_id()`, and it is either a response
(`IsResponse`) or a request (`IsRequest`) that carries the `actual_destination_is_relay_id`
field. When it returns true exactly one message is handed to the network, with the
destination id cleared and the relay id and relay connection id unchanged; when it returns
false the message is unchanged and nothing is sent. -/
theorem RelayDirectMessageIfNeeded_cases (message : Message) :
    ((RelayDirectMessageIfNeeded message).1 = true ↔
      (message.has_relay_id = true ∧ message.destination_id ≠ message.relay_id ∧
        (IsResponse message = true ∨
          (IsRequest message = true ∧
            message.has_actual_destination_is_relay_id = true)))) ∧
    ((RelayDirectMessageIfNeeded message).1 = true →
      ∃ out : Message,
        (RelayDirectMessageIfNeeded message).2.2 = [Effect.SendToClosestNode out] ∧
        (RelayDirectMessageIfNeeded message).2.1 = out ∧
        out.destination_id? = none ∧
        out.relay_id? = message.relay_id? ∧
        out.relay_connection_id? = message.relay_connection_id?) ∧
    ((RelayDirectMessageIfNeeded message).1 = false →
      (RelayDirectMessageIfNeeded message).2.1 = message ∧
      (RelayDirectMessageIfNeeded message).2.2 = []) := by
  unfold RelayDirectMessageIfNeeded IsResponse
  rcases Bool.eq_false_or_eq_true message.has_relay_id with h1 | h1 <;>
    rcases Bool.eq_false_or_eq_true (IsRequest message) with h2 | h2 <;>
    rcases Bool.eq_false_or_eq_true message.has_actual_destination_is_relay_id
      with h3 | h3 <;>
    by_cases h4 : message.destination_id = message.relay_id <;>
    simp [h1, h2, h3, h4]

/-- Witness for claim C18: a relayed response (relay id `nodeId 8`, destination `nodeId 1`) is
relayed: one send, destination cleared, relay ids kept; the same message without a relay id is
left alone. -/
theorem RelayDirectMessageIfNeeded_cases_witness :
    ((RelayDirectMessageIfNeeded relayedResponse).1 = true ↔
      (relayedResponse.has_relay_id = true ∧
        relayedResponse.destination_id ≠ relayedResponse.relay_id ∧
        (IsResponse relayedResponse = true ∨
          (IsRequest relayedResponse = true ∧
            relayedResponse.has_actual_destination_is_relay_id = true)))) ∧
    RelayDirectMessageIfNeeded relayedResponse =
      (true, { relayedResponse with destination_id? := none },
        [Effect.SendToClosestNode { relayedResponse with destination_id? := none }]) ∧
    RelayDirectMessageIfNeeded { relayedResponse with relay_id? := none } =
      (false, { relayedResponse with relay_id? := none }, []) :=
  ⟨(RelayDirectMessageIfNeeded_cases relayedResponse).1, by decide, by decide⟩

/-- Claim C19: for a node-level response (`IsResponse`) handled for this node: if the message
has an id and exactly one data frame, the correlation timer receives exactly one call,
`AddResponse(id, data(0))`, it is the handler's first call, and the only possible further call
is the statistics update; otherwise (no id, or a number of data frames other than one) the
handler makes no call at all: the timer is not called, the statistics are not updated,
nothing is sent, and the error raised inside is caught. -/
theorem node_level_response_feeds_timer (env : Env) (message : Message)
    (hresp : IsResponse message = true) :
    (message.has_id = true → message.data_size = 1 →
      ∃ d, message.data0 = some d ∧
        addResponses (HandleNodeLevelMessageForThisNode env message) =
          [Effect.AddResponse message.id d] ∧
        HandleNodeLevelMessageForThisNode env message =
          Effect.AddResponse message.id d ::
            (if env.AddResponse_throws message.id d = true then []
             else if message.has_average_distace = true then
               [Effect.UpdateNetworkAverageDistance message.average_distace]
             else [])) ∧
    (¬ (message.has_id = true ∧ message.data_size = 1) →
      HandleNodeLevelMessageForThisNode env message = []) := by
  have hreq : IsRequest message = false := by
    simpa [IsResponse] using hresp
  refine ⟨fun hid hsize => ?_, fun hn => ?_⟩
  · have hdata : ∃ d, message.data = [d] := by
      unfold Message.data_size at hsize
      match hd : message.data, hsize with
      | [d], _ => exact ⟨d, rfl⟩
    obtain ⟨d, hd⟩ := hdata
    have hd0 : message.data0 = some d := by simp [Message.data0, hd]
    have hsz : message.data_size = 1 := hsize
    refine ⟨d, hd0, ?_, ?_⟩
    · unfold HandleNodeLevelMessageForThisNode
      simp only [hreq, hresp, hid, hsz, hd0, Bool.false_and, Bool.false_eq_true, if_false,
        if_true, Bool.not_true, Bool.false_or, ne_eq, not_true_eq_false, decide_False]
      rcases Bool.eq_false_or_eq_true (env.AddResponse_throws message.id d) with ht | ht <;>
        rcases Bool.eq_false_or_eq_true message.has_average_distace with ha | ha <;>
        simp [ht, ha, addResponses, Effect.isAddResponse]
    · unfold HandleNodeLevelMessageForThisNode
      simp only [hreq, hresp, hid, hsz, hd0, Bool.false_and, Bool.false_eq_true, if_false,
        if_true, Bool.not_true, Bool.false_or, ne_eq, not_true_eq_false, decide_False]
  · unfold HandleNodeLevelMessageForThisNode
    simp only [hreq, hresp, Bool.false_and, Bool.false_eq_true, if_false, if_true]
    rcases Bool.eq_false_or_eq_true message.has_id with hid | hid
    · by_cases hsz : message.data_size = 1
      · exact absurd ⟨hid, hsz⟩ hn
      · simp [hid, hsz]
    · simp [hid]

/-- Witness for claim C19: at the isolated vault `nodeId 1` a response with id 7 and the single
frame `[114]` gives one `AddResponse(7, [114])`; the same response without its id gives no
call. -/
theorem node_level_response_feeds_timer_witness :
    IsResponse clientToClientResponse = true ∧
    ((clientToClientResponse.has_id = true → clientToClientResponse.data_size = 1 →
      ∃ d, clientToClientResponse.data0 = some d ∧
        addResponses (HandleNodeLevelMessageForThisNode (isolatedNode 1)
            clientToClientResponse) =
          [Effect.AddResponse clientToClientResponse.id d] ∧
        HandleNodeLevelMessageForThisNode (isolatedNode 1) clientToClientResponse =
          Effect.AddResponse clientToClientResponse.id d ::
            (if (isolatedNode 1).AddResponse_throws clientToClientResponse.id d = true then []
             else if clientToClientResponse.has_average_distace = true then
               [Effect.UpdateNetworkAverageDistance clientToClientResponse.average_distace]
             else [])) ∧
     (¬ (clientToClientResponse.has_id = true ∧ clientToClientResponse.data_size = 1) →
      HandleNodeLevelMessageForThisNode (isolatedNode 1) clientToClientResponse = [])) ∧
    HandleNodeLevelMessageForThisNode (isolatedNode 1) clientToClientResponse =
      [Effect.AddResponse 7 [114]] ∧
    HandleNodeLevelMessageForThisNode (isolatedNode 1)
      { clientToClientResponse with id? := none } = [] ∧
    HandleNodeLevelMessageForThisNode (isolatedNode 1)
      { clientToClientResponse with data := [[114], [115]] } = [] :=
  ⟨by decide,
   node_level_response_feeds_timer (isolatedNode 1) clientToClientResponse (by decide),
   by decide, by decide, by decide⟩

/-- Claim C20 as stated fails: at the client `nodeId 1` a node-level response from the client
`nodeId 3` is a client-to-client message with mismatched node ids, and
`HandleNodeLevelMessageForThisNode` feeds it to the correlation timer. -/
theorem client_to_client_claim_counterexample :
    ¬ (∀ (env : Env) (message : Message),
        env.IsClientToClientMessageWithDifferentNodeIds message env.client_mode = true →
        ∀ e ∈ HandleNodeLevelMessageForThisNode env message,
          e.isDelivery = false ∧ e.isAddResponse = false ∧ e.isSend = false) := by
  intro h
  have h1 := h (clientNode 1) clientToClientResponse (by decide)
  revert h1
  decide

/-- Claim C20, amended: for a client-to-client message with mismatched node ids,
`HandleMessageForNonRoutingNodes` makes no call (nothing is delivered, fed to the timer or
sent), and `HandleNodeLevelMessageForThisNode` makes no call when the message is a request
(`IsRequest`). A message for which `IsResponse` holds is handled as a response without
consulting the client-to-client test: with an id and one data frame it is fed to the timer. -/
theorem client_to_client_request_dropped (env : Env) (message : Message) :
    (env.IsClientToClientMessageWithDifferentNodeIds message true = true →
      HandleMessageForNonRoutingNodes env message = []) ∧
    (env.IsClientToClientMessageWithDifferentNodeIds message env.client_mode = true →
      IsRequest message = true →
      HandleNodeLevelMessageForThisNode env message = []) ∧
    (IsResponse message = true → message.has_id = true → ∀ d, message.data = [d] →
      Effect.AddResponse message.id d ∈ HandleNodeLevelMessageForThisNode env message) := by
  refine ⟨fun h => ?_, fun h hreq => ?_, fun hresp hid d hd => ?_⟩
  · unfold HandleMessageForNonRoutingNodes
    simp only [h, if_true]
  · unfold HandleNodeLevelMessageForThisNode
    simp [h, hreq, IsResponse]
  · have hreq : IsRequest message = false := by
      simpa [IsResponse] using hresp
    unfold HandleNodeLevelMessageForThisNode
    simp [hreq, hresp, hid, Message.data_size, Message.data0, hd]

/-! ## Routing dispatch, client path and typed dispatch -/

theorem routingSwitch_sentMessages (env : Env) (m : Message) (r : Message × List Effect)
    (h : routingSwitch env m = some r) : sentMessages r.2 = [] := by
  unfold routingSwitch at h
  split at h
  case h_7 =>
    by_cases hz : (env.ClosestNodesUpdate m).1 = kZeroId <;>
      split at h <;> cases h <;>
      simp [call, sentMessages, Effect.sent?, hz]
  all_goals first
    | (cases h; done)
    | (cases h; simp [call, sentMessages, Effect.sent?])

theorem routingSwitch_eq_none_iff (env : Env) (m : Message) :
    routingSwitch env m = none ↔ env.messageType m.type = none := by
  unfold routingSwitch
  cases env.messageType m.type with
  | none => simp
  | some t =>
    cases t <;> simp
    split <;> simp

theorem sentMessages_append (a b : List Effect) :
    sentMessages (a ++ b) = sentMessages a ++ sentMessages b := by
  simp [sentMessages, List.filterMap_append]

theorem HandleRoutingMessage_eq (env : Env) (message : Message) (r : Message × List Effect)
    (hr : routingSwitch env message = some r) :
    HandleRoutingMessage env message =
      r.2 ++
        (if message.request = true ∧ env.IsInitialized r.1 = true then
          [if env.size = 0 then
            Effect.SendToDirect r.1 env.bootstrap_connection_id env.bootstrap_connection_id
           else Effect.SendToClosestNode r.1]
         else []) := by
  unfold HandleRoutingMessage
  simp only [hr]
  rcases Bool.eq_false_or_eq_true message.request with h1 | h1 <;>
    rcases Bool.eq_false_or_eq_true (env.IsInitialized r.1) with h2 | h2 <;>
    by_cases h3 : env.size = 0 <;>
    simp [h1, h2, h3]

theorem HandleRoutingMessage_sentMessages (env : Env) (message : Message)
    (r : Message × List Effect) (hr : routingSwitch env message = some r) :
    sentMessages (HandleRoutingMessage env message) =
      (if message.request = true ∧ env.IsInitialized r.1 = true then [r.1] else []) := by
  rw [HandleRoutingMessage_eq env message r hr, sentMessages_append,
    routingSwitch_sentMessages env message r hr]
  by_cases h3 : env.size = 0 <;>
    by_cases h4 : (message.request = true ∧ env.IsInitialized r.1 = true) <;>
    simp [h3, h4, sentMessages, Effect.sent?]

theorem HandleRoutingMessage_unknown (env : Env) (message : Message)
    (h : routingSwitch env message = none) : HandleRoutingMessage env message = [] := by
  unfold HandleRoutingMessage
  rw [h]

/-- Claim C21: `HandleRoutingMessage` hands a message to the network if and only if the type
is one of the routing types of its `switch`, the message was a request on entry, and the
message as the called handler left it is initialised. It is then one send, of the
handler-rewritten message, made after the handler calls: `SendToDirect` to the bootstrap
connection when the routing table is empty, `SendToClosestNode` otherwise. For a response
nothing is sent, and for an unknown type nothing at all happens. -/
theorem HandleRoutingMessage_sends (env : Env) (message : Message) :
    (env.messageType message.type = none → HandleRoutingMessage env message = []) ∧
    (routingSwitch env message = none ↔ env.messageType message.type = none) ∧
    (message.request = false → sentMessages (HandleRoutingMessage env message) = []) ∧
    (∀ r, routingSwitch env message = some r →
      sentMessages r.2 = [] ∧
      HandleRoutingMessage env message =
        r.2 ++
          (if message.request = true ∧ env.IsInitialized r.1 = true then
            [if env.size = 0 then
              Effect.SendToDirect r.1 env.bootstrap_connection_id env.bootstrap_connection_id
             else Effect.SendToClosestNode r.1]
           else []) ∧
      sentMessages (HandleRoutingMessage env message) =
        (if message.request = true ∧ env.IsInitialized r.1 = true then [r.1] else [])) := by
  refine ⟨fun h => ?_, routingSwitch_eq_none_iff env message, fun h => ?_, fun r hr => ?_⟩
  · exact HandleRoutingMessage_unknown env message ((routingSwitch_eq_none_iff env message).2 h)
  · cases hs : routingSwitch env message with
    | none =>
      rw [HandleRoutingMessage_unknown env message hs]
      rfl
    | some r =>
      rw [HandleRoutingMessage_sentMessages env message r hs]
      simp [h]
  · exact ⟨routingSwitch_sentMessages env message r hr, HandleRoutingMessage_eq env message r hr,
      HandleRoutingMessage_sentMessages env message r hr⟩

/-- Counterexample to claim C22: on a client, a ping request whose `source_id` is empty is a
routing-protocol message, and `HandleRoutingMessage` would call the ping service and send the
result, but `HandleClientMessage` makes no call at all. -/
theorem client_routing_claim_counterexample :
    (clientWithPing 1).client_mode = true ∧
    IsRoutingMessage relayedPing = true ∧
    HandleClientMessage (clientWithPing 1) relayedPing = [] ∧
    HandleRoutingMessage (clientWithPing 1) relayedPing =
      [Effect.routing RoutingCall.service_Ping relayedPing,
       Effect.SendToDirect relayedPing (nodeId 0) (nodeId 0)] := by
  decide

/-- Claim C22, amended: `HandleClientMessage` first drops every message whose `source_id` is
empty, without any call. Of the messages with a non-empty `source_id` it hands every
routing-protocol message to `HandleRoutingMessage` and every node-level message whose
`destination_id` is the local id to `HandleNodeLevelMessageForThisNode`, and drops every other
message without any call. -/
theorem HandleClientMessage_cases (env : Env) (message : Message) :
    (message.source_id = [] → HandleClientMessage env message = []) ∧
    (message.source_id ≠ [] → IsRoutingMessage message = true →
      HandleClientMessage env message = HandleRoutingMessage env message) ∧
    (message.source_id ≠ [] → IsNodeLevelMessage message = true →
      message.destination_id = env.kNodeId →
      HandleClientMessage env message = HandleNodeLevelMessageForThisNode env message) ∧
    (message.source_id ≠ [] → IsNodeLevelMessage message = true →
      message.destination_id ≠ env.kNodeId →
      HandleClientMessage env message = []) := by
  unfold HandleClientMessage IsNodeLevelMessage
  refine ⟨fun h => ?_, fun h hr => ?_, fun h hn hd => ?_, fun h hn hd => ?_⟩
  · simp [h]
  · have : message.source_id.isEmpty = false := by
      cases hs : message.source_id with
      | nil => exact absurd hs h
      | cons a l => rfl
    simp [this, hr]
  · have : message.source_id.isEmpty = false := by
      cases hs : message.source_id with
      | nil => exact absurd hs h
      | cons a l => rfl
    have hr : IsRoutingMessage message = false := by simpa using hn
    simp [this, hr, hd]
  · have : message.source_id.isEmpty = false := by
      cases hs : message.source_id with
      | nil => exact absurd hs h
      | cons a l => rfl
    have hr : IsRoutingMessage message = false := by simpa using hn
    simp [this, hr, hd]

theorem HandleMessage_group_to_self (env : Env) (message : Message)
    (hvalid : env.ValidateMessage message = true)
    (hself : IsGroupMessageRequestToSelfId env (decrementHops message) = true)
    (hget : IsValidCacheableGet env (decrementHops message) = false) :
    HandleMessage env message =
      (if IsValidCacheablePut env (decrementHops message) = true then
        [Effect.AddToCache (decrementHops message)] else []) ++
      [Effect.SendToClosestNode (decrementHops message)] := by
  unfold HandleMessage
  simp [hvalid, hself, hget, StoreCacheCopy, HandleGroupMessageToSelfId]

/-- Counterexample to claim C23: on a vault with caching, a message with the `request` flag
set and type -100 from the vault to its own id, non-direct, that is a valid cacheable PUT and
not a valid cacheable GET, is first copied into the cache and then sent on: two calls. -/
theorem group_to_self_claim_counterexample :
    cachingNode.ValidateMessage flaggedPutToSelf = true ∧
    flaggedPutToSelf.source_id = cachingNode.kNodeId ∧
    flaggedPutToSelf.destination_id = cachingNode.kNodeId ∧
    flaggedPutToSelf.request = true ∧ flaggedPutToSelf.direct = false ∧
    IsValidCacheableGet cachingNode (decrementHops flaggedPutToSelf) = false ∧
    HandleMessage cachingNode flaggedPutToSelf =
      [Effect.AddToCache { flaggedPutToSelf with hops_to_live? := some 9 },
       Effect.SendToClosestNode { flaggedPutToSelf with hops_to_live? := some 9 }] := by
  decide

/-- Claim C23, amended: for a validated message whose `source_id` and `destination_id` are
both the local id and that is a non-direct request (the `request` flag is set) and not a valid
cacheable GET, `HandleMessage` makes exactly one `SendToClosestNode` of the message with
`hops_to_live` decremented by one and every other field unchanged, preceded by one cache
store (`AddToCache`) of that message exactly when it is a valid cacheable PUT, and makes no
other call. Nothing is assumed about the client mode of the node; on a client, and for a
message for which `IsRequest` holds, there is no cache store. -/
theorem group_request_to_self_forwarded (env : Env) (message : Message)
    (hvalid : env.ValidateMessage message = true)
    (hsource : message.source_id = env.kNodeId)
    (hdestination : message.destination_id = env.kNodeId)
    (hflag : message.request = true)
    (hdirect : message.direct = false)
    (hget : IsValidCacheableGet env (decrementHops message) = false) :
    HandleMessage env message =
      (if IsValidCacheablePut env
          { message with hops_to_live? := some (message.hops_to_live - 1) } = true
        then [Effect.AddToCache
          { message with hops_to_live? := some (message.hops_to_live - 1) }]
        else []) ++
      [Effect.SendToClosestNode
        { message with hops_to_live? := some (message.hops_to_live - 1) }] ∧
    sentMessages (HandleMessage env message) =
      [{ message with hops_to_live? := some (message.hops_to_live - 1) }] ∧
    ((env.client_mode = true ∨ IsRequest message = true) →
      HandleMessage env message =
        [Effect.SendToClosestNode
          { message with hops_to_live? := some (message.hops_to_live - 1) }]) := by
  have hself : IsGroupMessageRequestToSelfId env (decrementHops message) = true := by
    have h1 : (decrementHops message).source_id = env.kNodeId := hsource
    have h2 : (decrementHops message).destination_id = env.kNodeId := hdestination
    have h3 : (decrementHops message).request = true := hflag
    have h4 : (decrementHops message).direct = false := hdirect
    simp [IsGroupMessageRequestToSelfId, h1, h2, h3, h4]
  have hmain := HandleMessage_group_to_self env message hvalid hself hget
  refine ⟨hmain, ?_, fun h => ?_⟩
  · rw [hmain, sentMessages_append]
    split <;> rfl
  · have hput : IsValidCacheablePut env (decrementHops message) = false := by
      rcases h with h | h
      · simp [IsValidCacheablePut, h]
      · have h5 : IsRequest (decrementHops message) = true := h
        simp [IsValidCacheablePut, h5]
    rw [hmain, hput]
    rfl

/-- Witness for claim C23: the vault `nodeId 1` and the client `nodeId 1` each forward a group
request to their own id with one `SendToClosestNode`, the hop count going from 10 to 9. -/
theorem group_request_to_self_forwarded_witness :
    HandleMessage (isolatedNode 1) groupRequestToSelf =
      [Effect.SendToClosestNode { groupRequestToSelf with hops_to_live? := some 9 }] ∧
    HandleMessage (clientNode 1) groupRequestToSelf =
      [Effect.SendToClosestNode { groupRequestToSelf with hops_to_live? := some 9 }] :=
  ⟨(group_request_to_self_forwarded (isolatedNode 1) groupRequestToSelf (by decide) (by decide)
    (by decide) (by decide) (by decide) (by decide)).2.2 (Or.inr (by decide)),
   (group_request_to_self_forwarded (clientNode 1) groupRequestToSelf (by decide) (by decide)
    (by decide) (by decide) (by decide) (by decide)).2.2 (Or.inl (by decide))⟩

/-- Claim C25: when the five typed functors are all set, `InvokeTypedMessageReceivedFunctor`
makes exactly one call, of a typed functor, and the typed message it passes is chosen by the
pair (has `group_source`, has `group_destination`): neither gives the single-to-single
message, only `group_source` the group-to-single message, both the group-to-group message, and
only `group_destination` the single-to-group-relay message when `relay_id` and
`relay_connection_id` are both present and the single-to-group message otherwise. -/
theorem typed_dispatch_with_all_functors (env : Env) (proto_message : Message)
    (hall : env.typed_message_received_functors_ =
      { single_to_single := true, single_to_group := true, group_to_single := true,
        group_to_group := true, single_to_group_relay := true }) :
    InvokeTypedMessageReceivedFunctor env proto_message =
      [Effect.typed_message_received
        (match proto_message.has_group_source, proto_message.has_group_destination with
         | false, false => CreateSingleToSingleMessage proto_message
         | true, false => CreateGroupToSingleMessage proto_message
         | true, true => CreateGroupToGroupMessage proto_message
         | false, true =>
           if proto_message.has_relay_id = true ∧ proto_message.has_relay_connection_id = true
           then CreateSingleToGroupRelayMessage proto_message
           else CreateSingleToGroupMessage proto_message)] := by
  unfold InvokeTypedMessageReceivedFunctor
  rw [hall]
  rcases Bool.eq_false_or_eq_true proto_message.has_group_source with h1 | h1 <;>
    rcases Bool.eq_false_or_eq_true proto_message.has_group_destination with h2 | h2 <;>
    rcases Bool.eq_false_or_eq_true proto_message.has_relay_id with h3 | h3 <;>
    rcases Bool.eq_false_or_eq_true proto_message.has_relay_connection_id with h4 | h4 <;>
    simp [h1, h2, h3, h4]

/-- Witness for claim C25: on a vault with the five typed functors, a single-to-group request
that carries both relay ids goes to the single-to-group-relay functor, and the same request
without them to the single-to-group functor. -/
theorem typed_dispatch_with_all_functors_witness :
    InvokeTypedMessageReceivedFunctor (typedNode 1) relayedGroupRequest =
      [Effect.typed_message_received (CreateSingleToGroupRelayMessage relayedGroupRequest)] ∧
    InvokeTypedMessageReceivedFunctor (typedNode 1)
        { relayedGroupRequest with relay_id? := none } =
      [Effect.typed_message_received
        (CreateSingleToGroupMessage { relayedGroupRequest with relay_id? := none })] :=
  ⟨typed_dispatch_with_all_functors (typedNode 1) relayedGroupRequest rfl,
   typed_dispatch_with_all_functors (typedNode 1) { relayedGroupRequest with relay_id? := none }
     rfl⟩

/-- Counterexample to claim C26: on a node without typed functors the typed dispatch of a
request ends in `assert(false)`; on a node with only the `single_to_group` functor the typed
dispatch of a single-to-group request that carries both relay ids calls the empty
`single_to_group_relay` functor. -/
theorem typed_drop_claim_counterexample :
    selectedFunctorIsSet (isolatedNode 1).typed_message_received_functors_ sampleRequest
      = false ∧
    InvokeTypedMessageReceivedFunctor (isolatedNode 1) sampleRequest = [Effect.assert_false] ∧
    InvokeTypedMessageReceivedFunctor (singleToGroupOnlyNode 1) relayedGroupRequest =
      [Effect.bad_function_call] := by
  decide

/-- Claim C26, amended: for a message such that the functor selected by the pair (has
`group_source`, has `group_destination`) is not set, `InvokeTypedMessageReceivedFunctor`
invokes no handler and reaches its final `assert(false)`, which is its only step. -/
theorem typed_dispatch_without_functor (env : Env) (proto_message : Message)
    (hunset : selectedFunctorIsSet env.typed_message_received_functors_ proto_message = false) :
    InvokeTypedMessageReceivedFunctor env proto_message = [Effect.assert_false] ∧
    (InvokeTypedMessageReceivedFunctor env proto_message).filter Effect.isDelivery = [] := by
  have h : InvokeTypedMessageReceivedFunctor env proto_message = [Effect.assert_false] := by
    unfold InvokeTypedMessageReceivedFunctor
    unfold selectedFunctorIsSet at hunset
    rcases Bool.eq_false_or_eq_true proto_message.has_group_source with h1 | h1 <;>
      rcases Bool.eq_false_or_eq_true proto_message.has_group_destination with h2 | h2 <;>
      simp only [h1, h2] at hunset <;>
      simp [h1, h2, hunset]
  rw [h]
  exact ⟨rfl, rfl⟩

/-- Witness for claim C26: the node without typed functors, at a single-to-single request. -/
theorem typed_dispatch_without_functor_witness :
    InvokeTypedMessageReceivedFunctor (isolatedNode 1) sampleRequest = [Effect.assert_false] ∧
    (InvokeTypedMessageReceivedFunctor (isolatedNode 1) sampleRequest).filter
      Effect.isDelivery = [] :=
  typed_dispatch_without_functor (isolatedNode 1) sampleRequest (by decide)

/-- Claim C27: `IsRoutingMessage` holds exactly when the type lies strictly between -100 and
100, that is when its absolute value is below 100; `IsNodeLevelMessage` holds exactly when the
absolute value of the type is at least 100; each predicate is the negation of the other. So a
message of type 99 or -99 is routing-level and a message of type 100 or -100 is node-level. -/
theorem routing_and_node_level_types (message : Message) :
    (IsRoutingMessage message = true ↔ -100 < message.type ∧ message.type < 100) ∧
    (IsRoutingMessage message = true ↔ |message.type| < 100) ∧
    (IsNodeLevelMessage message = true ↔ 100 ≤ |message.type|) ∧
    IsNodeLevelMessage message = !IsRoutingMessage message ∧
    IsRoutingMessage message = !IsNodeLevelMessage message ∧
    ((message.type = 99 ∨ message.type = -99) →
      IsRoutingMessage message = true ∧ IsNodeLevelMessage message = false) ∧
    ((message.type = 100 ∨ message.type = -100) →
      IsRoutingMessage message = false ∧ IsNodeLevelMessage message = true) := by
  have h1 : IsRoutingMessage message = true ↔ -100 < message.type ∧ message.type < 100 := by
    simp [IsRoutingMessage, and_comm]
  have h2 : IsRoutingMessage message = true ↔ |message.type| < 100 := by
    rw [h1, abs_lt]
  have h3 : IsNodeLevelMessage message = true ↔ 100 ≤ |message.type| := by
    unfold IsNodeLevelMessage
    rw [Bool.not_eq_true', ← Bool.not_eq_true, h2, not_lt]
  refine ⟨h1, h2, h3, rfl, ?_, ?_, ?_⟩
  · simp [IsNodeLevelMessage]
  · intro h
    have : IsRoutingMessage message = true := by
      rw [h1]; rcases h with h | h <;> rw [h] <;> decide
    simp [IsNodeLevelMessage, this]
  · intro h
    have : IsRoutingMessage message = false := by
      rw [← Bool.not_eq_true, h1]; rcases h with h | h <;> rw [h] <;> decide
    simp [IsNodeLevelMessage, this]
/-! ## Services -/

/-- Claim C28, as the code has it: the node list of the reply of `Service::FindNodes` is
`GetClosestNodes(target, n)` for the target `destination_id` of the request, followed by the
local identity exactly when the table holds fewer than `closest_nodes_size` peers, but `n` is
the count of a freshly constructed `FindNodesRequest` and not the count in the payload, which
is never parsed: two requests that differ only in their payload get the same node list. On
the sample service a request for 8 nodes is answered with no node at all, though the table
would supply 8. -/
theorem FindNodes_ignores_requested_count (env : Service.Env) (message : Service.Message) :
    (Service.FindNodes env message).2 = [Service.Effect.SendOn (Service.FindNodes env message).1]
    ∧ (Service.FindNodes env message).1.data =
      env.SerializeFindNodesResponse (Service.found_nodes env message) ∧
    (Service.found_nodes env message).nodes =
      env.GetClosestNodes message.destination_id
          ((env.default_num_nodes_requested % 65536).toNat) ++
        (if env.Size < env.closest_nodes_size then [env.identity] else []) ∧
    (∀ payload : Bytes,
      (Service.found_nodes env { message with data? := some payload }).nodes =
        (Service.found_nodes env message).nodes) ∧
    sampleService.ParseFindNodesRequest findNodesRequest.data =
      some { num_nodes_requested := 8 } ∧
    (Service.found_nodes sampleService findNodesRequest).nodes = [] ∧
    sampleService.GetClosestNodes findNodesRequest.destination_id 8 =
      [nodeId 2, nodeId 3, nodeId 4, nodeId 5, nodeId 6, nodeId 7, nodeId 8, nodeId 9] := by
  refine ⟨rfl, rfl, ?_, fun payload => rfl, by decide, by decide, by decide⟩
  unfold Service.found_nodes Service.find_nodes_count
  by_cases h : env.Size < env.closest_nodes_size <;> simp [h]

/-- Counterexample to claim C29: a connect request from a client, whose node the routing
table does not accept, is answered with `answer = true` and the node-validation functor is
invoked. And a parseable connect request that is addressed to this node and not marked
`bootstrap`, but whose contact carries an empty ip, gets no response at all: `from_string`
throws before anything is sent. -/
theorem connect_claim_counterexample :
    sampleService.ParseConnectRequest clientConnectRequest.data =
      some { contact := { node_id := nodeId 3, endpoint := { ip := peerAddress, port := 6000 } },
             bootstrap := false, client := true } ∧
    sampleService.CheckNode (nodeId 3) = false ∧
    (Service.Connect sampleService clientConnectRequest).1.data =
      sampleService.SerializeConnectResponse
        (Service.connect_response sampleService clientConnectRequest true) ∧
    (Service.Connect sampleService clientConnectRequest).2 =
      [Service.Effect.node_validation_functor_ (nodeId 1)
         { address := Service.defaultAddress, port := 6000 } true
         { address := [49, 46, 50, 46, 51, 46, 52], port := 5000 },
       Service.Effect.SendOn (Service.Connect sampleService clientConnectRequest).1] ∧
    sampleService.ParseConnectRequest connectRequestWithoutIp.data =
      some { contact := { node_id := nodeId 3, endpoint := { ip := [], port := 6000 } },
             bootstrap := false, client := true } ∧
    connectRequestWithoutIp.destination_id = sampleService.identity ∧
    Service.Connect sampleService connectRequestWithoutIp =
      (connectRequestWithoutIp, [Service.Effect.from_string_throws]) := by
  decide

theorem Connect_accepted (env : Service.Env) (message : Service.Message)
    (connect_request : Service.ConnectRequest)
    (haddressed : message.destination_id = env.identity)
    (hparse : env.ParseConnectRequest message.data = some connect_request)
    (hbootstrap : connect_request.bootstrap = false)
    (hnode : env.IsValidNodeId connect_request.contact.node_id = true)
    (hip : env.address_from_string connect_request.contact.endpoint.ip = true) :
    (Service.Connect env message).1.data =
      env.SerializeConnectResponse
        (Service.connect_response env message (Service.connect_answer env connect_request)) ∧
    (Service.Connect env message).2 =
      (if Service.connect_answer env connect_request = true then
        [Service.Effect.node_validation_functor_ env.identity
          { address := Service.defaultAddress,
            port := (connect_request.contact.endpoint.port % 65536).toNat }
          message.client_node env.GetAvailableEndpoint]
       else []) ++ [Service.Effect.SendOn (Service.Connect env message).1] := by
  constructor
  · unfold Service.Connect
    simp only [haddressed, hparse, hbootstrap, hnode, Service.their_endpoint, hip, ne_eq,
      not_true_eq_false, if_false, Bool.false_eq_true, Bool.not_true, if_true]
    rfl
  · unfold Service.Connect Service.connect_answer
    simp only [haddressed, hparse, hbootstrap, hnode, Service.their_endpoint, hip, ne_eq,
      not_true_eq_false, if_false, Bool.false_eq_true, Bool.not_true, if_true]
    rcases Bool.eq_false_or_eq_true connect_request.client with h1 | h1 <;>
      rcases Bool.eq_false_or_eq_true (env.CheckNode connect_request.contact.node_id)
        with h2 | h2 <;>
      simp [h1, h2]

/-- Claim C29, amended: for a connect request addressed to this node whose payload parses and
is not marked `bootstrap`. If the candidate's id is not a valid node id, or the contact's ip
is not an address, the `NodeId` constructor, or else `from_string`, throws: nothing is sent,
the functor is not invoked and the message is left as it was. Otherwise `Service::Connect`
sends one reply whose payload is a `connect_response` that contains this node's available
endpoint and identity and whose answer is true if and only if the request is from a client or
`RoutingTable::CheckNode` accepts the candidate node; the node-validation functor is invoked,
once and before the reply is sent, exactly when the answer is true. -/
theorem Connect_answer (env : Service.Env) (message : Service.Message)
    (connect_request : Service.ConnectRequest)
    (haddressed : message.destination_id = env.identity)
    (hparse : env.ParseConnectRequest message.data = some connect_request)
    (hbootstrap : connect_request.bootstrap = false) :
    (env.IsValidNodeId connect_request.contact.node_id = false →
      Service.Connect env message = (message, [Service.Effect.NodeId_throws])) ∧
    (env.IsValidNodeId connect_request.contact.node_id = true →
      env.address_from_string connect_request.contact.endpoint.ip = false →
      Service.Connect env message = (message, [Service.Effect.from_string_throws])) ∧
    (env.IsValidNodeId connect_request.contact.node_id = true →
      env.address_from_string connect_request.contact.endpoint.ip = true →
      ∃ answer : Bool,
        (answer = true ↔
          (connect_request.client = true ∨
            env.CheckNode connect_request.contact.node_id = true)) ∧
        (Service.Connect env message).1.data =
          env.SerializeConnectResponse
            { answer? := some answer
              contact? := some
                { node_id := env.identity
                  endpoint := { ip := env.GetAvailableEndpoint.address,
                                port := (env.GetAvailableEndpoint.port : Int) } }
              original_request? := some message.data
              original_signature? := some message.signature } ∧
        (Service.Connect env message).2 =
          (if answer = true then
            [Service.Effect.node_validation_functor_ env.identity
              { address := Service.defaultAddress,
                port := (connect_request.contact.endpoint.port % 65536).toNat }
              message.client_node env.GetAvailableEndpoint]
           else []) ++ [Service.Effect.SendOn (Service.Connect env message).1]) := by
  refine ⟨fun hnode => ?_, fun hnode hip => ?_, fun hnode hip => ?_⟩
  · unfold Service.Connect
    simp only [haddressed, hparse, hnode, ne_eq, not_true_eq_false, if_false, Bool.not_false,
      if_true]
  · unfold Service.Connect
    simp only [haddressed, hparse, hbootstrap, hnode, Service.their_endpoint, hip, ne_eq,
      not_true_eq_false, if_false, Bool.false_eq_true, Bool.not_true]
  · have h := Connect_accepted env message connect_request haddressed hparse hbootstrap hnode hip
    refine ⟨Service.connect_answer env connect_request, ?_, h.1, h.2⟩
    unfold Service.connect_answer
    rcases Bool.eq_false_or_eq_true connect_request.client with h1 | h1 <;>
      rcases Bool.eq_false_or_eq_true (env.CheckNode connect_request.contact.node_id)
        with h2 | h2 <;>
      simp [h1, h2]

/-- Witness for claim C29: the sample service, which accepts no candidate, at a connect
request of a vault at `10.0.0.3`: the answer is false and only the reply is sent. -/
theorem Connect_answer_witness :
    (Service.Connect sampleService vaultConnectRequest).1.data =
      sampleService.SerializeConnectResponse
        { answer? := some false
          contact? := some
            { node_id := nodeId 1
              endpoint := { ip := [49, 46, 50, 46, 51, 46, 52], port := 5000 } }
          original_request? := some (0 :: (nodeId 3 ++ peerAddress))
          original_signature? := some [7] } ∧
    (Service.Connect sampleService vaultConnectRequest).2 =
      [Service.Effect.SendOn (Service.Connect sampleService vaultConnectRequest).1] :=
  match (Connect_answer sampleService vaultConnectRequest
      { contact := { node_id := nodeId 3, endpoint := { ip := peerAddress, port := 6000 } },
        bootstrap := false, client := false } (by decide) (by decide) rfl).2.2
      (by decide) (by decide) with
  | ⟨false, _, hdata, hcalls⟩ => ⟨hdata, hcalls⟩
  | ⟨true, hanswer, _, _⟩ => by
    have h := hanswer.1 rfl
    revert h
    decide

theorem Ping_addressed (env : Service.Env) (message : Service.Message)
    (h1 : message.destination_id = env.identity)
    (h2 : env.ParsePingRequest message.data = true) :
    Service.Ping env message =
      ({ message with
          data? := some (env.SerializePingResponse
            { pong? := some true, original_request? := some message.data,
              original_signature? := some message.signature })
          destination_id? := some message.source_id
          source_id? := some env.identity },
       [Service.Effect.SendOn
        { message with
          data? := some (env.SerializePingResponse
            { pong? := some true, original_request? := some message.data,
              original_signature? := some message.signature })
          destination_id? := some message.source_id
          source_id? := some env.identity }]) := by
  unfold Service.Ping
  simp only [h1, h2, ne_eq, not_true_eq_false, if_false, Bool.not_true, Bool.false_eq_true]
  rfl

theorem Ping_not_addressed (env : Service.Env) (message : Service.Message)
    (h : ¬ (message.destination_id = env.identity ∧ env.ParsePingRequest message.data = true)) :
    Service.Ping env message = (message, []) := by
  unfold Service.Ping
  by_cases h1 : message.destination_id = env.identity
  · have h2 : env.ParsePingRequest message.data = false := by
      rcases Bool.eq_false_or_eq_true (env.ParsePingRequest message.data) with h2 | h2
      · exact absurd ⟨h1, h2⟩ h
      · exact h2
    simp only [h1, h2, ne_eq, not_true_eq_false, if_false, Bool.not_false, if_true]
  · simp only [ne_eq, h1, not_false_eq_true, if_true]

/-- Claim C30: `Service::Ping` replies exactly when the message is addressed to this node
and its payload parses as a ping request. The reply is the message with its payload replaced
by a ping response that carries `pong = true` and the original request payload (and
signature), its `destination_id` set to the request's `source_id` and its `source_id` set to
the local identity, every other field being kept; it is sent once, with `SendOn`, and nothing
else is done. For any other message nothing is sent and the message is left unchanged. -/
theorem Ping_replies (env : Service.Env) (message : Service.Message) :
    ((Service.Ping env message).2 ≠ [] ↔
      (message.destination_id = env.identity ∧ env.ParsePingRequest message.data = true)) ∧
    (message.destination_id = env.identity → env.ParsePingRequest message.data = true →
      (Service.Ping env message).2 = [Service.Effect.SendOn (Service.Ping env message).1] ∧
      (Service.Ping env message).1 =
        { message with
          data? := some (env.SerializePingResponse
            { pong? := some true, original_request? := some message.data,
              original_signature? := some message.signature })
          destination_id? := some message.source_id
          source_id? := some env.identity } ∧
      (Service.Ping env message).1.destination_id = message.source_id ∧
      (Service.Ping env message).1.source_id = env.identity) ∧
    (¬ (message.destination_id = env.identity ∧ env.ParsePingRequest message.data = true) →
      Service.Ping env message = (message, [])) := by
  refine ⟨?_, fun h1 h2 => ?_, Ping_not_addressed env message⟩
  · constructor
    · intro hne
      by_contra hna
      rw [Ping_not_addressed env message hna] at hne
      exact hne rfl
    · intro h
      rw [Ping_addressed env message h.1 h.2]
      simp
  · rw [Ping_addressed env message h1 h2]
    exact ⟨rfl, rfl, rfl, rfl⟩
/-! ## The relay pipeline -/

theorem keepsRelayRoute_set_source (env : Env) (m : Message) :
    keepsRelayRoute env m { m with source_id? := some env.kNodeId } :=
  ⟨rfl, rfl, rfl⟩

theorem HandleRoutingMessage_written (env : Env) (m : Message) :
    ∀ sent ∈ sentMessages (HandleRoutingMessage env m), writtenByRoutingHandler env m sent := by
  intro sent hs
  cases hr : routingSwitch env m with
  | none =>
    rw [HandleRoutingMessage_unknown env m hr] at hs
    cases hs
  | some r =>
    rw [HandleRoutingMessage_sentMessages env m r hr] at hs
    split at hs
    · rw [List.mem_singleton] at hs
      exact ⟨r, hr, hs⟩
    · cases hs

theorem InvokeTyped_sentMessages (env : Env) (m : Message) :
    sentMessages (InvokeTypedMessageReceivedFunctor env m) = [] := by
  unfold InvokeTypedMessageReceivedFunctor
  simp only
  repeat' split
  all_goals rfl

theorem HandleNodeLevel_sentMessages (env : Env) (m : Message) :
    sentMessages (HandleNodeLevelMessageForThisNode env m) = [] := by
  unfold HandleNodeLevelMessageForThisNode
  repeat' split
  all_goals first
    | rfl
    | exact InvokeTyped_sentMessages env m

theorem deliverLocally_written (env : Env) (m : Message) :
    ∀ sent ∈ sentMessages (deliverLocally env m),
      IsRoutingMessage m = true ∧ writtenByRoutingHandler env m sent := by
  unfold deliverLocally
  split
  · rename_i h
    exact fun sent hs => ⟨h, HandleRoutingMessage_written env m sent hs⟩
  · rw [HandleNodeLevel_sentMessages]
    intro sent hs
    cases hs

theorem relayReplicate_sends (env : Env) (l : List Bytes) (m : Message) :
    (relayReplicate env m l).2 =
      l.filterMap (fun i =>
        (env.GetNodeInfo i).map (fun node =>
          Effect.SendToDirect { m with destination_id? := some i } node.node_id
            node.connection_id)) ∧
    ∀ d, { (relayReplicate env m l).1 with destination_id? := d } =
      { m with destination_id? := d } := by
  induction l generalizing m with
  | nil => exact ⟨rfl, fun _ => rfl⟩
  | cons i rest ih =>
    have := ih { m with destination_id? := some i }
    unfold relayReplicate
    cases hi : env.GetNodeInfo i with
    | none =>
      refine ⟨?_, fun d => this.2 d⟩
      simp only [List.filterMap_cons, hi, Option.map_none']
      exact this.1
    | some node =>
      refine ⟨?_, fun d => this.2 d⟩
      simp only [List.filterMap_cons, hi, Option.map_some']
      rw [this.1]

theorem relayReplicate_route (env : Env) (l : List Bytes) (m : Message) :
    ∀ sent ∈ sentMessages (relayReplicate env m l).2,
      sent.source_id? = m.source_id? ∧ sent.relay_id? = m.relay_id? ∧
        sent.relay_connection_id? = m.relay_connection_id? := by
  rw [(relayReplicate_sends env l m).1]
  intro sent hs
  simp only [sentMessages, List.mem_filterMap] at hs
  obtain ⟨e, ⟨i, _, hi⟩, he⟩ := hs
  cases hg : env.GetNodeInfo i with
  | none => simp [hg] at hi
  | some node =>
    simp only [hg, Option.map_some', Option.some.injEq] at hi
    rw [← hi] at he
    simp only [Effect.sent?, Option.some.injEq] at he
    rw [← he]
    exact ⟨rfl, rfl, rfl⟩

theorem relayReplicate_then_deliver (env : Env) (m : Message) (close : List Bytes)
    (hsource : m.source_id? = some env.kNodeId) :
    ∀ sent ∈ sentMessages ((relayReplicate env m close).2 ++
        deliverLocally env
          { (relayReplicate env m close).1 with destination_id? := some env.kNodeId }),
      keepsRelayRoute env m sent ∨
      (IsRoutingMessage m = true ∧
        writtenByRoutingHandler env { m with destination_id? := some env.kNodeId } sent) := by
  intro sent hs
  rw [sentMessages_append, List.mem_append] at hs
  rcases hs with hs | hs
  · have h := relayReplicate_route env close m sent hs
    refine Or.inl ⟨?_, h.2.1, h.2.2⟩
    simp only [Message.source_id, h.1, hsource]
    rfl
  · rw [(relayReplicate_sends env close m).2] at hs
    exact Or.inr (deliverLocally_written env _ sent hs)

theorem HandleGroupRelay_route (env : Env) (m : Message) :
    ∀ sent ∈ sentMessages (HandleGroupRelayRequestMessageAsClosestNode env m),
      keepsRelayRoute env m sent ∨
      (IsRoutingMessage m = true ∧
        writtenByRoutingHandler env
          { m with
            direct? := some true, source_id? := some env.kNodeId,
            destination_id? := some env.kNodeId } sent) := by
  unfold HandleGroupRelayRequestMessageAsClosestNode
  simp only
  repeat' split
  all_goals intro sent hs
  all_goals first
    | (cases hs; done)
    | (simp only [sentMessages, List.filterMap_cons, Effect.sent?, List.filterMap_nil,
        List.mem_singleton] at hs
       rw [hs]
       exact Or.inl (keepsRelayRoute_set_source env m))
    | (simp only [sentMessages, List.filterMap_cons, Effect.sent?, List.filterMap_nil,
        List.not_mem_nil] at hs
       done)
    | (have h := relayReplicate_then_deliver env _ _ rfl sent hs
       rcases h with h | h
       · exact Or.inl ⟨h.1, h.2.1, h.2.2⟩
       · exact Or.inr h)

theorem HandleDirectRelay_keepsRelayRoute (env : Env) (m : Message)
    (hclosest : env.IsThisNodeClosestTo m.destination_id false = true) :
    ∀ sent ∈ sentMessages (HandleDirectRelayRequestMessageAsClosestNode env m),
      keepsRelayRoute env m sent := by
  unfold HandleDirectRelayRequestMessageAsClosestNode
  simp only [hclosest, if_true]
  split
  · intro sent hs
    simp only [sentMessages, List.filterMap_cons, Effect.sent?, List.filterMap_nil,
      List.mem_singleton] at hs
    rw [hs]
    exact keepsRelayRoute_set_source env m
  · intro sent hs
    cases hs

theorem RelayDirectMessageIfNeeded_request (m : Message) (hrequest : IsRequest m = true) :
    RelayDirectMessageIfNeeded m =
      (if m.has_relay_id = true ∧ m.has_actual_destination_is_relay_id = true ∧
          m.destination_id ≠ m.relay_id then
        (true, { m with destination_id? := none, actual_destination_is_relay_id? := none },
          [Effect.SendToClosestNode
            { m with destination_id? := none, actual_destination_is_relay_id? := none }])
       else (false, m, [])) := by
  unfold RelayDirectMessageIfNeeded IsResponse
  rcases Bool.eq_false_or_eq_true m.has_relay_id with h1 | h1 <;>
    rcases Bool.eq_false_or_eq_true m.has_actual_destination_is_relay_id with h3 | h3 <;>
    by_cases h4 : m.destination_id = m.relay_id <;>
    simp [h1, hrequest, h3, h4]

theorem HandleMessageForThisNode_route (env : Env) (m : Message)
    (hrequest : IsRequest m = true) :
    ∀ sent ∈ sentMessages (HandleMessageForThisNode env m),
      ((RelayDirectMessageIfNeeded m).1 = true ∧
        sent = { m with destination_id? := none, actual_destination_is_relay_id? := none }) ∨
      (IsRoutingMessage m = true ∧ writtenByRoutingHandler env m sent) := by
  unfold HandleMessageForThisNode
  rw [RelayDirectMessageIfNeeded_request m hrequest]
  by_cases h : m.has_relay_id = true ∧ m.has_actual_destination_is_relay_id = true ∧
      m.destination_id ≠ m.relay_id
  · simp only [h, and_self, if_true, ne_eq, not_false_eq_true]
    intro sent hs
    simp only [sentMessages, List.filterMap_cons, Effect.sent?, List.filterMap_nil,
      List.mem_singleton] at hs
    exact Or.inl ⟨trivial, hs⟩
  · simp only [h, if_false, Bool.false_eq_true, List.nil_append]
    intro sent hs
    right
    split at hs
    · rename_i hr
      exact ⟨hr, HandleRoutingMessage_written env m sent hs⟩
    · rw [HandleNodeLevel_sentMessages] at hs
      cases hs

theorem HandleRelayRequest_route (env : Env) (m : Message) :
    ∀ sent ∈ sentMessages (HandleRelayRequest env m),
      keepsRelayRoute env m sent ∨
      (m.destination_id = env.kNodeId ∧ IsRequest m = true ∧
        (RelayDirectMessageIfNeeded m).1 = true ∧
        sent = { m with destination_id? := none, actual_destination_is_relay_id? := none }) ∨
      (m.destination_id = env.kNodeId ∧ IsRequest m = true ∧ IsRoutingMessage m = true ∧
        writtenByRoutingHandler env m sent) ∨
      (IsRoutingMessage m = true ∧
        writtenByRoutingHandler env
          { m with
            direct? := some true, source_id? := some env.kNodeId,
            destination_id? := some env.kNodeId } sent) := by
  unfold HandleRelayRequest
  split
  · rename_i h1
    have hd : m.destination_id = env.kNodeId := by
      simp only [Bool.and_eq_true, decide_eq_true_eq] at h1
      exact h1.1
    have hq : IsRequest m = true := by
      simp only [Bool.and_eq_true, decide_eq_true_eq] at h1
      exact h1.2
    split
    · intro sent hs
      simp only [HandleGroupMessageToSelfId, sentMessages, List.filterMap_cons, Effect.sent?,
        List.filterMap_nil, List.mem_singleton] at hs
      rw [hs]
      exact Or.inl (keepsRelayRoute_set_source env m)
    · intro sent hs
      rcases HandleMessageForThisNode_route env m hq sent hs with h | h
      · exact Or.inr (Or.inl ⟨hd, hq, h.1, h.2⟩)
      · exact Or.inr (Or.inr (Or.inl ⟨hd, hq, h.1, h.2⟩))
  · split
    · rename_i h2
      have hc : env.IsThisNodeClosestTo m.destination_id false = true := by
        simp only [Bool.and_eq_true] at h2
        exact h2.2
      split
      · exact fun sent hs => Or.inl (HandleDirectRelay_keepsRelayRoute env m hc sent hs)
      · intro sent hs
        rcases HandleGroupRelay_route env m sent hs with h | h
        · exact Or.inl h
        · exact Or.inr (Or.inr (Or.inr h))
    · intro sent hs
      simp only [sentMessages, List.filterMap_cons, Effect.sent?, List.filterMap_nil,
        List.mem_singleton] at hs
      rw [hs]
      exact Or.inl (keepsRelayRoute_set_source env m)

/-- Counterexample to claim C24: the vault `nodeId 1` receives, from a peer without an id, a
direct request for itself that is marked `actual_destination_is_relay_id`. The relay pipeline
takes the for-this-node path, where `RelayDirectMessageIfNeeded` hands the request to the
network with the destination cleared and the source still empty, not the local id. And a ping
request from a peer without an id, on a vault whose ping service declines it, is handed to
the network by `HandleRoutingMessage` as it came, with an empty source. -/
theorem relay_route_claim_counterexample :
    HandleMessage (isolatedNode 1) relayedRequestForRelayId =
      HandleRelayRequest (isolatedNode 1) (decrementHops relayedRequestForRelayId) ∧
    HandleRelayRequest (isolatedNode 1) (decrementHops relayedRequestForRelayId) =
      [Effect.SendToClosestNode
        { relayedRequestForRelayId with
          hops_to_live? := some 9, destination_id? := none,
          actual_destination_is_relay_id? := none }] ∧
    ({ relayedRequestForRelayId with
        hops_to_live? := some 9, destination_id? := none,
        actual_destination_is_relay_id? := none } : Message).source_id = [] ∧
    (isolatedNode 1).kNodeId ≠ [] ∧
    HandleMessage (decliningNode 1) relayedPing =
      HandleRelayRequest (decliningNode 1) (decrementHops relayedPing) ∧
    HandleRelayRequest (decliningNode 1) (decrementHops relayedPing) =
      [Effect.routing RoutingCall.service_Ping (decrementHops relayedPing),
       Effect.SendToDirect (decrementHops relayedPing) (nodeId 0) (nodeId 0)] ∧
    (decrementHops relayedPing).source_id = [] := by
  decide

/-- Claim C24, amended: every message that the forwarding and replication steps of the relay
pipeline (`HandleRelayRequest` and the handlers it calls) pass to the network has `source_id`
equal to the local node id and `relay_id` and `relay_connection_id` equal to those of the
incoming message. The delivery paths are the exceptions. On the for-this-node path a request
that `RelayDirectMessageIfNeeded` relays to its relay id is passed on with the `source_id`,
`relay_id` and `relay_connection_id` of the incoming message and with `destination_id` and
`actual_destination_is_relay_id` cleared. And a message that `HandleRoutingMessage` sends
after its dispatch, on the for-this-node path or at the end of the group replication (where
the message handed to the handler has the local id as source), is the message as the routing
handler left it, whatever source and relay ids the handler wrote. -/
theorem relay_pipeline_keeps_route (env : Env) (message : Message) :
    ∀ sent ∈ sentMessages (HandleRelayRequest env message),
      (sent.source_id = env.kNodeId ∧ sent.relay_id? = message.relay_id? ∧
        sent.relay_connection_id? = message.relay_connection_id?) ∨
      (message.destination_id = env.kNodeId ∧ IsRequest message = true ∧
        (RelayDirectMessageIfNeeded message).1 = true ∧
        sent = { message with
          destination_id? := none, actual_destination_is_relay_id? := none } ∧
        sent.source_id? = message.source_id? ∧ sent.relay_id? = message.relay_id? ∧
        sent.relay_connection_id? = message.relay_connection_id?) ∨
      (message.destination_id = env.kNodeId ∧ IsRequest message = true ∧
        IsRoutingMessage message = true ∧
        ∃ r, routingSwitch env message = some r ∧ sent = r.1) ∨
      (IsRoutingMessage message = true ∧
        ∃ r, routingSwitch env
            { message with
              direct? := some true, source_id? := some env.kNodeId,
              destination_id? := some env.kNodeId } = some r ∧ sent = r.1) := by
  intro sent hs
  rcases HandleRelayRequest_route env message sent hs with h | h | h | h
  · exact Or.inl h
  · refine Or.inr (Or.inl ⟨h.1, h.2.1, h.2.2.1, h.2.2.2, ?_, ?_, ?_⟩) <;>
      rw [h.2.2.2]
  · exact Or.inr (Or.inr (Or.inl h))
  · exact Or.inr (Or.inr (Or.inr h))

/-- Witness for claim C24: on the vault `nodeId 1`, whose ping service writes the local id as
source, a ping request from a peer without an id goes through the relay pipeline to the ping
service, and the reply, the message as the service left it, is the only message passed to the
network. -/
theorem relay_pipeline_keeps_route_witness :
    sentMessages (HandleRelayRequest (relayNode 1) relayedPing) =
      [{ relayedPing with source_id? := some (nodeId 1) }] ∧
    routingSwitch (relayNode 1) relayedPing =
      some ({ relayedPing with source_id? := some (nodeId 1) },
        [Effect.routing RoutingCall.service_Ping relayedPing]) ∧
    ∀ sent ∈ sentMessages (HandleRelayRequest (relayNode 1) relayedPing),
      (sent.source_id = (relayNode 1).kNodeId ∧ sent.relay_id? = relayedPing.relay_id? ∧
        sent.relay_connection_id? = relayedPing.relay_connection_id?) ∨
      (relayedPing.destination_id = (relayNode 1).kNodeId ∧ IsRequest relayedPing = true ∧
        (RelayDirectMessageIfNeeded relayedPing).1 = true ∧
        sent = { relayedPing with
          destination_id? := none, actual_destination_is_relay_id? := none } ∧
        sent.source_id? = relayedPing.source_id? ∧ sent.relay_id? = relayedPing.relay_id? ∧
        sent.relay_connection_id? = relayedPing.relay_connection_id?) ∨
      (relayedPing.destination_id = (relayNode 1).kNodeId ∧ IsRequest relayedPing = true ∧
        IsRoutingMessage relayedPing = true ∧
        ∃ r, routingSwitch (relayNode 1) relayedPing = some r ∧ sent = r.1) ∨
      (IsRoutingMessage relayedPing = true ∧
        ∃ r, routingSwitch (relayNode 1)
            { relayedPing with
              direct? := some true, source_id? := some (relayNode 1).kNodeId,
              destination_id? := some (relayNode 1).kNodeId } = some r ∧ sent = r.1) :=
  ⟨by decide, by decide, relay_pipeline_keeps_route (relayNode 1) relayedPing⟩

/-! ## Group messages at the closest node: route history, visited pre-pass, copies, delivery -/

theorem HandleGroup_to_leader_query (env : Env) (m : Message)
    (hclosest : (!env.IsThisNodeClosestTo m.destination_id (!IsDirect m) &&
      !env.Contains m.destination_id) = false)
    (hvisited : (m.has_visited && !m.visited && decide (env.size > env.P.closest_nodes_size) &&
      !env.IsThisNodeInRange m.destination_id env.P.closest_nodes_size) = false)
    (hleader : (env.IsThisNodeGroupLeader m.destination_id
      (some (groupLeaderRouteHistory env m))).1 = false) :
    HandleGroupMessageAsClosestNode env m =
      [Effect.SendToDirectAdjustedRoute m
        (env.IsThisNodeGroupLeader m.destination_id
          (some (groupLeaderRouteHistory env m))).2.node_id
        (env.IsThisNodeGroupLeader m.destination_id
          (some (groupLeaderRouteHistory env m))).2.connection_id] := by
  unfold HandleGroupMessageAsClosestNode
  simp only [hclosest, hvisited, hleader, Bool.false_eq_true, if_false, Bool.not_false, if_true]

/-- Counterexample to claim C31: for a message whose route history is the single entry
`nodeId 5`, on the vault `nodeId 1`, the history handed to `IsThisNodeGroupLeader` is that one
entry, not the empty list: a node that is group leader exactly for the empty history passes
the message on to the peer the query names instead of replicating it. -/
theorem route_history_claim_counterexample :
    ({ groupRequest 4 with route_history := [nodeId 5] } : Message).route_history.dropLast = []
    ∧ groupLeaderRouteHistory (historyLeaderNode 1)
        { groupRequest 4 with route_history := [nodeId 5] } = [nodeId 5] ∧
    ((historyLeaderNode 1).IsThisNodeGroupLeader (nodeId 9) (some [])).1 = true ∧
    HandleGroupMessageAsClosestNode (historyLeaderNode 1)
        { groupRequest 4 with route_history := [nodeId 5] } =
      [Effect.SendToDirectAdjustedRoute { groupRequest 4 with route_history := [nodeId 5] }
        (nodeId 6) (nodeId 6)] := by
  decide

/-- Claim C31, amended: the route history that `HandleGroupMessageAsClosestNode` passes to
`IsThisNodeGroupLeader` is the message's `route_history` with its last entry removed when the
message carries more than one entry; when it carries exactly one entry the history passed is
that entry, unless the entry is the local node id, in which case it is empty; it is empty for
a message without entries. A message that passes the two earlier tests and for which the query
on that history answers no is sent to the peer the query names. -/
theorem group_leader_route_history (env : Env) (message : Message) :
    (1 < message.route_history.length →
      groupLeaderRouteHistory env message = message.route_history.dropLast) ∧
    (∀ entry, message.route_history = [entry] →
      groupLeaderRouteHistory env message = if entry = env.kNodeId then [] else [entry]) ∧
    (message.route_history = [] → groupLeaderRouteHistory env message = []) ∧
    ((!env.IsThisNodeClosestTo message.destination_id (!IsDirect message) &&
        !env.Contains message.destination_id) = false →
      (message.has_visited && !message.visited &&
        decide (env.size > env.P.closest_nodes_size) &&
        !env.IsThisNodeInRange message.destination_id env.P.closest_nodes_size) = false →
      (env.IsThisNodeGroupLeader message.destination_id
        (some (groupLeaderRouteHistory env message))).1 = false →
      HandleGroupMessageAsClosestNode env message =
        [Effect.SendToDirectAdjustedRoute message
          (env.IsThisNodeGroupLeader message.destination_id
            (some (groupLeaderRouteHistory env message))).2.node_id
          (env.IsThisNodeGroupLeader message.destination_id
            (some (groupLeaderRouteHistory env message))).2.connection_id]) := by
  refine ⟨fun h => ?_, fun entry h => ?_, fun h => ?_,
    HandleGroup_to_leader_query env message⟩
  · unfold groupLeaderRouteHistory
    simp only [gt_iff_lt, h, if_true]
  · unfold groupLeaderRouteHistory
    by_cases he : entry = env.kNodeId <;> simp [h, he]
  · unfold groupLeaderRouteHistory
    simp [h]

theorem HandleGroup_visited_prepass (env : Env) (m : Message)
    (hclosest : (!env.IsThisNodeClosestTo m.destination_id (!IsDirect m) &&
      !env.Contains m.destination_id) = false)
    (hvisited : (m.has_visited && !m.visited && decide (env.size > env.P.closest_nodes_size) &&
      !env.IsThisNodeInRange m.destination_id env.P.closest_nodes_size) = true) :
    HandleGroupMessageAsClosestNode env m =
      [Effect.SendToClosestNode { m with visited? := some true }] := by
  unfold HandleGroupMessageAsClosestNode
  simp only [hclosest, hvisited, Bool.false_eq_true, if_false, if_true]

/-- Counterexample to claim C32: on a vault with nine peers (more than `closest_nodes_size`,
which is 8) that is not among the closest nodes of the destination, a group request that does
not carry the `visited` field is not forwarded but delivered to the application; and on such
a vault that is not closest to the destination and has no peer with that id, a group request
with `visited = false` is forwarded with `visited` still false. -/
theorem visited_prepass_claim_counterexample :
    (groupRequest 4).has_visited = false ∧ (groupRequest 4).visited = false ∧
    (largeTableNode 1).size > (largeTableNode 1).P.closest_nodes_size ∧
    (largeTableNode 1).IsThisNodeInRange (nodeId 9) 8 = false ∧
    HandleGroupMessageAsClosestNode (largeTableNode 1) (groupRequest 4) =
      [Effect.message_received (some [113])
        { groupRequest 4 with
          direct? := some true, route_history := [], destination_id? := some (nodeId 1) }] ∧
    HandleGroupMessageAsClosestNode { largeTableNode 1 with IsThisNodeClosestTo := fun _ _ => false }
        { groupRequest 4 with visited? := some false } =
      [Effect.SendToClosestNode { groupRequest 4 with visited? := some false }] := by
  decide

/-- Claim C32, amended: for every group message handled by `HandleGroupMessageAsClosestNode`
that is not passed on by the first test (this node is closest to the destination, or has a
peer with the destination id) and that carries the `visited` field with the value false, when
the routing table holds more than `closest_nodes_size` peers and the local node is not within
the `closest_nodes_size` closest to the destination, the handler makes exactly one call:
`SendToClosestNode` of the message with `visited` set to true and every other field
unchanged. So the message is neither replicated nor delivered locally. -/
theorem visited_prepass_forwards (env : Env) (message : Message)
    (hfirst : env.IsThisNodeClosestTo message.destination_id (!IsDirect message) = true ∨
      env.Contains message.destination_id = true)
    (hfield : message.has_visited = true) (hvisited : message.visited = false)
    (hsize : env.size > env.P.closest_nodes_size)
    (hrange : env.IsThisNodeInRange message.destination_id env.P.closest_nodes_size = false) :
    HandleGroupMessageAsClosestNode env message =
      [Effect.SendToClosestNode { message with visited? := some true }] ∧
    (HandleGroupMessageAsClosestNode env message).filter Effect.isDelivery = [] ∧
    sentMessages (HandleGroupMessageAsClosestNode env message) =
      [{ message with visited? := some true }] := by
  have h : HandleGroupMessageAsClosestNode env message =
      [Effect.SendToClosestNode { message with visited? := some true }] := by
    apply HandleGroup_visited_prepass
    · rcases hfirst with h | h <;> simp [h]
    · simp [hfield, hvisited, hsize, hrange]
  rw [h]
  exact ⟨rfl, rfl, rfl⟩

/-- Witness for claim C32: the vault with nine peers forwards a group request that carries
`visited = false`, with `visited` set. -/
theorem visited_prepass_forwards_witness :
    HandleGroupMessageAsClosestNode (largeTableNode 1)
        { groupRequest 4 with visited? := some false } =
      [Effect.SendToClosestNode { groupRequest 4 with visited? := some true }] :=
  (visited_prepass_forwards (largeTableNode 1) { groupRequest 4 with visited? := some false }
    (Or.inl rfl) rfl rfl (by decide) rfl).1

/-- Claim C33: when a group message reaches the replication step with
`1 <= replication <= GROUP_SIZE`, the handler's calls are one send per replication peer, in
order, followed by the local delivery. The copy for a peer is the incoming message with
`destination_id` set to the peer's id, `direct` set to true and `route_history` emptied, every
other field (among them `source_id`, `id`, `type`, `data`, `replication`, `hops_to_live`)
being that of the incoming message. The copy is sent with `SendToDirect` to the node id and
connection id of the peer's routing-table record when `GetNodeInfo` finds one, and with
`SendToClosestNode` otherwise. -/
theorem replicated_copies (env : Env) (message : Message)
    (hstep : reachesReplicationStep env message = true)
    (h1 : 1 ≤ replicationOf message) (h2 : replicationOf message ≤ env.P.group_size) :
    ∃ rest,
      HandleGroupMessageAsClosestNode env message =
        (replicationTargets env message).map (fun peer =>
          match env.GetNodeInfo peer.node_id with
          | some node =>
            Effect.SendToDirect
              { message with
                direct? := some true, route_history := [],
                destination_id? := some peer.node_id }
              node.node_id node.connection_id
          | none =>
            Effect.SendToClosestNode
              { message with
                direct? := some true, route_history := [],
                destination_id? := some peer.node_id }) ++ rest ∧
      ∀ peer ∈ replicationTargets env message, ∀ copy : Message,
        copy = { message with
          direct? := some true, route_history := [], destination_id? := some peer.node_id } →
        copy.destination_id = peer.node_id ∧ copy.direct = true ∧ copy.route_history = [] ∧
        copy.source_id? = message.source_id? ∧ copy.id? = message.id? ∧
        copy.type? = message.type? ∧ copy.data = message.data ∧
        copy.replication? = message.replication? ∧
        copy.hops_to_live? = message.hops_to_live? ∧
        { copy with
          direct? := message.direct?, route_history := message.route_history,
          destination_id? := message.destination_id? } = message := by
  refine ⟨deliverLocally env (replicaFor message env.kNodeId), ?_, ?_⟩
  · rw [HandleGroup_at_replication env message hstep]
    have hr : ¬ (replicationOf message < 1 ∨ replicationOf message > env.P.group_size) := by
      omega
    simp only [hr, if_false]
    rfl
  · intro peer _ copy hcopy
    rw [hcopy]
    exact ⟨rfl, rfl, rfl, rfl, rfl, rfl, rfl, rfl, rfl, rfl⟩

/-- Witness for claim C33: the group leader `nodeId 1` replicates a request with replication 3
to `nodeId 2`, for which it has a record, directly, and to `nodeId 3`, for which it has none,
through the closest node. -/
theorem replicated_copies_witness :
    ∃ rest,
      HandleGroupMessageAsClosestNode groupLeaderNode (groupRequest 3) =
        [Effect.SendToDirect
          { groupRequest 3 with
            direct? := some true, route_history := [], destination_id? := some (nodeId 2) }
          (nodeId 2) (nodeId 2),
         Effect.SendToClosestNode
          { groupRequest 3 with
            direct? := some true, route_history := [], destination_id? := some (nodeId 3) }]
        ++ rest := by
  obtain ⟨rest, h, _⟩ := replicated_copies groupLeaderNode (groupRequest 3) (by decide)
    (by decide) (by decide)
  refine ⟨rest, ?_⟩
  rw [h]
  congr 1

theorem replicateToGroup_no_delivery (env : Env) (l : List NodeInfo) (m : Message) :
    ((replicateToGroup env m l).2).filter Effect.isDelivery = [] ∧
    ∀ e ∈ (replicateToGroup env m l).2, e.isSend = true := by
  rw [(replicateToGroup_sends env l m).1]
  constructor
  · rw [List.filter_eq_nil_iff]
    intro e he
    rw [List.mem_map] at he
    obtain ⟨i, _, rfl⟩ := he
    cases env.GetNodeInfo i.node_id <;> simp [Effect.isDelivery]
  · intro e he
    rw [List.mem_map] at he
    obtain ⟨i, _, rfl⟩ := he
    cases env.GetNodeInfo i.node_id <;> rfl

/-- Claim C34: when a group message reaches the replication step with
`1 <= replication <= GROUP_SIZE`, the handler's calls are the fan-out, which consists of sends
only (one per replication peer), followed by one local delivery of the message with
`destination_id` set to the local node id (and `direct` set and the route history cleared, as
for the copies): the calls of `HandleRoutingMessage` on it if `IsRoutingMessage` holds for
the message, those of `HandleNodeLevelMessageForThisNode` on it otherwise. -/
theorem local_delivery_after_fan_out (env : Env) (message : Message)
    (hstep : reachesReplicationStep env message = true)
    (h1 : 1 ≤ replicationOf message) (h2 : replicationOf message ≤ env.P.group_size) :
    ∃ fan_out local_copy,
      local_copy =
        { message with
          direct? := some true, route_history := [], destination_id? := some env.kNodeId } ∧
      local_copy.destination_id = env.kNodeId ∧
      fan_out.length = (replicationTargets env message).length ∧
      (∀ e ∈ fan_out, e.isSend = true) ∧
      HandleGroupMessageAsClosestNode env message =
        fan_out ++
          (if IsRoutingMessage message = true then HandleRoutingMessage env local_copy
           else HandleNodeLevelMessageForThisNode env local_copy) := by
  refine ⟨(replicationTargets env message).map (sendReplica env message),
    replicaFor message env.kNodeId, rfl, rfl, by simp, ?_, ?_⟩
  · intro e he
    rw [List.mem_map] at he
    obtain ⟨i, _, rfl⟩ := he
    unfold sendReplica
    cases env.GetNodeInfo i.node_id <;> rfl
  · rw [HandleGroup_at_replication env message hstep]
    have hr : ¬ (replicationOf message < 1 ∨ replicationOf message > env.P.group_size) := by
      omega
    simp only [hr, if_false]
    unfold deliverLocally
    have : IsRoutingMessage (replicaFor message env.kNodeId) = IsRoutingMessage message := rfl
    rw [this]

/-- Witness for claim C34: the group leader `nodeId 1` sends the two copies of a node-level
request with replication 3 and then hands the request, addressed to itself, to the
application. -/
theorem local_delivery_after_fan_out_witness :
    (∃ fan_out local_copy,
      local_copy =
        { groupRequest 3 with
          direct? := some true, route_history := [],
          destination_id? := some groupLeaderNode.kNodeId } ∧
      local_copy.destination_id = groupLeaderNode.kNodeId ∧
      fan_out.length = (replicationTargets groupLeaderNode (groupRequest 3)).length ∧
      (∀ e ∈ fan_out, e.isSend = true) ∧
      HandleGroupMessageAsClosestNode groupLeaderNode (groupRequest 3) =
        fan_out ++
          (if IsRoutingMessage (groupRequest 3) = true then
            HandleRoutingMessage groupLeaderNode local_copy
           else HandleNodeLevelMessageForThisNode groupLeaderNode local_copy)) ∧
    (HandleGroupMessageAsClosestNode groupLeaderNode (groupRequest 3)).filter Effect.isDelivery =
      [Effect.message_received (some [113])
        { groupRequest 3 with
          direct? := some true, route_history := [], destination_id? := some (nodeId 1) }] :=
  ⟨local_delivery_after_fan_out groupLeaderNode (groupRequest 3) (by decide) (by decide)
    (by decide), by decide⟩

theorem HandleMessageAsFarNode_marks (env : Env) (m : Message)
    (h : m.has_visited = true ∧ m.direct = false ∧ m.visited = false ∧
      env.IsThisNodeClosestTo m.destination_id (!m.direct) = true) :
    HandleMessageAsFarNode env m = [Effect.SendToClosestNode { m with visited? := some true }] := by
  have h4 : env.IsThisNodeClosestTo m.destination_id true = true := by
    have := h.2.2.2
    rw [h.2.1] at this
    exact this
  unfold HandleMessageAsFarNode
  simp only [h.1, h.2.1, h.2.2.1, h4, Bool.not_false, Bool.and_self, if_true]

theorem HandleMessageAsFarNode_keeps (env : Env) (m : Message)
    (h : ¬ (m.has_visited = true ∧ m.direct = false ∧ m.visited = false ∧
      env.IsThisNodeClosestTo m.destination_id (!m.direct) = true)) :
    HandleMessageAsFarNode env m = [Effect.SendToClosestNode m] := by
  unfold HandleMessageAsFarNode
  have hc : (m.has_visited && env.IsThisNodeClosestTo m.destination_id (!m.direct) &&
      !m.direct && !m.visited) = false := by
    by_contra hne
    simp only [Bool.not_eq_false, Bool.and_eq_true, Bool.not_eq_true'] at hne
    exact h ⟨hne.1.1.1, hne.1.2, hne.2, hne.1.1.2⟩
  simp only [hc, Bool.false_eq_true, if_false]

/-- Claim C35: `HandleMessageAsFarNode` makes exactly one call, `SendToClosestNode` of the
message. The message sent has `visited` set to true if the incoming message carries the
`visited` field, is not direct, is not yet visited and the local node is closest to the
destination; otherwise it is the incoming message itself. In both cases every field other
than `visited` is that of the incoming message. -/
theorem HandleMessageAsFarNode_send (env : Env) (message : Message) :
    ∃ sent,
      HandleMessageAsFarNode env message = [Effect.SendToClosestNode sent] ∧
      ((message.has_visited = true ∧ message.direct = false ∧ message.visited = false ∧
          env.IsThisNodeClosestTo message.destination_id (!message.direct) = true) →
        sent = { message with visited? := some true }) ∧
      (¬ (message.has_visited = true ∧ message.direct = false ∧ message.visited = false ∧
          env.IsThisNodeClosestTo message.destination_id (!message.direct) = true) →
        sent = message) ∧
      { sent with visited? := message.visited? } = message := by
  by_cases h : message.has_visited = true ∧ message.direct = false ∧ message.visited = false ∧
      env.IsThisNodeClosestTo message.destination_id (!message.direct) = true
  · exact ⟨{ message with visited? := some true }, HandleMessageAsFarNode_marks env message h,
      fun _ => rfl, fun hn => absurd h hn, rfl⟩
  · exact ⟨message, HandleMessageAsFarNode_keeps env message h, fun hp => absurd hp h,
      fun _ => rfl, rfl⟩

/-- Claim C37: the reply functor handed to the application with a node-level request, called
with an empty reply string, makes no call at all: nothing is sent, `HandleMessage` is not
entered again, and none of the collaborators is touched. -/
theorem empty_reply_does_nothing (env : Env) (message : Message) :
    response_functor env message [] = [] ∧
    (∀ reply_message : Bytes, reply_message.isEmpty = true →
      response_functor env message reply_message = [] ∧
      sentMessages (response_functor env message reply_message) = []) := by
  constructor
  · rfl
  · intro reply_message h
    unfold response_functor
    simp [h, sentMessages]

theorem HandleDirectRelay_at_closest (env : Env) (m : Message)
    (hclosest : env.IsThisNodeClosestTo m.destination_id false = true) :
    HandleDirectRelayRequestMessageAsClosestNode env m =
      if env.Contains m.destination_id = true ∨ env.client_Contains m.destination_id = true
      then [Effect.SendToClosestNode { m with source_id? := some env.kNodeId }]
      else [] := by
  unfold HandleDirectRelayRequestMessageAsClosestNode
  simp only [hclosest, if_true]
  rcases Bool.eq_false_or_eq_true (env.Contains m.destination_id) with h1 | h1 <;>
    rcases Bool.eq_false_or_eq_true (env.client_Contains m.destination_id) with h2 | h2 <;>
    simp [h1, h2]

/-- Claim C39: `HandleRelayRequest` hands a message to
`HandleDirectRelayRequestMessageAsClosestNode` exactly when the message is not a request for
this node's own id, its `request` flag is set, this node is closest to the destination and
the message is direct. As the handler asks the same question of the same routing table, its
not-closest branch is not taken: the result is one `SendToClosestNode` of the message with
`source_id` set to the local id when the destination is in the routing table or in the client
table, and no call at all otherwise. -/
theorem direct_relay_at_closest_node (env : Env) (message : Message)
    (hother : (decide (message.destination_id = env.kNodeId) && IsRequest message) = false)
    (hflag : message.request = true)
    (hclosest : env.IsThisNodeClosestTo message.destination_id false = true)
    (hdirect : message.direct = true) :
    HandleRelayRequest env message =
      HandleDirectRelayRequestMessageAsClosestNode env message ∧
    HandleDirectRelayRequestMessageAsClosestNode env message =
      (if env.Contains message.destination_id = true ∨
          env.client_Contains message.destination_id = true
       then [Effect.SendToClosestNode { message with source_id? := some env.kNodeId }]
       else []) ∧
    (∀ sent ∈ sentMessages (HandleRelayRequest env message),
      sent.source_id = env.kNodeId) := by
  have hdispatch : HandleRelayRequest env message =
      HandleDirectRelayRequestMessageAsClosestNode env message := by
    unfold HandleRelayRequest
    simp only [hother, hflag, hclosest, hdirect, Bool.false_eq_true, if_false, Bool.and_self,
      if_true]
  refine ⟨hdispatch, HandleDirectRelay_at_closest env message hclosest, ?_⟩
  rw [hdispatch, HandleDirectRelay_at_closest env message hclosest]
  intro sent hs
  split at hs
  · simp only [sentMessages, List.filterMap_cons, Effect.sent?, List.filterMap_nil,
      List.mem_singleton] at hs
    rw [hs]
    rfl
  · cases hs

/-- Witness for claim C39: the vault `nodeId 1`, closest to every target, at a direct relay
request for its peer `nodeId 2` (forwarded with the local id as source) and at one for
`nodeId 9`, which is in neither table (dropped). -/
theorem direct_relay_at_closest_node_witness :
    HandleRelayRequest tableNode directRelayRequest =
      [Effect.SendToClosestNode { directRelayRequest with source_id? := some (nodeId 1) }] ∧
    HandleRelayRequest tableNode
      { directRelayRequest with destination_id? := some (nodeId 9) } = [] :=
  ⟨((direct_relay_at_closest_node tableNode directRelayRequest (by decide) rfl rfl rfl).1).trans
      (by decide),
   ((direct_relay_at_closest_node tableNode
      { directRelayRequest with destination_id? := some (nodeId 9) }
      (by decide) rfl rfl rfl).1).trans (by decide)⟩

theorem foldl_Remove_empties (queue : List Timers) (self : Acknowledgement)
    (hq : self.queue_ = queue) :
    ((queue.map (fun timer => timer.ack_id)).foldl Acknowledgement.Remove self).queue_ = [] ∧
    ((queue.map (fun timer => timer.ack_id)).foldl Acknowledgement.Remove self).ack_id_ =
      self.ack_id_ := by
  induction queue generalizing self with
  | nil => exact ⟨hq, rfl⟩
  | cons i rest ih =>
    rw [List.map_cons, List.foldl_cons]
    have hstep := Remove_at self i.ack_id [] rest i hq rfl (fun x hx => by cases hx)
    have := ih (self.Remove i.ack_id) (by rw [hstep]; rfl)
    refine ⟨this.1, this.2.trans ?_⟩
    rw [hstep]

/-- Claim C40: for every ack queue, whatever the ack ids (repeated or not) and attempt counts
of its entries, `RemoveAll` leaves the queue empty, and it leaves the id counter as it was. -/
theorem RemoveAll_empties_queue (self : Acknowledgement) :
    self.RemoveAll.queue_ = [] ∧ self.RemoveAll.ack_id_ = self.ack_id_ ∧
    (∀ ack_id, found ack_id self.RemoveAll.queue_ = false) := by
  have h := foldl_Remove_empties self.queue_ self rfl
  have hq : self.RemoveAll.queue_ = [] := h.1
  refine ⟨hq, h.2, fun ack_id => ?_⟩
  rw [hq]
  rfl

/-! ## ValidateThisNode -/

/-- Claim C36: `ValidateThisNode` calls `AddNode` on at most one table: for a client peer
only on the client (non-routing) table, the routing table being left as it was, and for any
other peer only on the routing table, the client table being left as it was. If the transport
`Add` does not return 0, the call of `Add` is the only call: no table is touched and no
connection is removed. If `Add` succeeds and the chosen table rejects the peer, the transport
connection to the peer's endpoint is removed, the other table is untouched and the chosen
table is as the rejecting `AddNode` left it (unchanged, for a table that a rejecting `AddNode`
does not modify). If the chosen table accepts the peer, nothing is removed. -/
theorem ValidateThisNode_tables {Network RoutingTable NonRoutingTable : Type}
    (env : Validation.Env Network RoutingTable NonRoutingTable)
    (state : Validation.State Network RoutingTable NonRoutingTable)
    (node_id public_key : Bytes) (their_endpoint our_endpoint : Validation.EndpointPair)
    (client : Bool) :
    let node_info : Validation.NodeInfo :=
      { node_id := node_id, public_key := public_key, endpoint := their_endpoint.external }
    let result := env.Add state.network_ our_endpoint.external their_endpoint.external node_id
    let furthest :=
      (env.GetNthClosestNode state.routing_table (env.identity state.routing_table)
        env.closest_nodes_size).node_id
    let client_added := env.non_routing_table_AddNode state.non_routing_table node_info furthest
    let routing_added := env.routing_table_AddNode state.routing_table node_info
    let out := Validation.ValidateThisNode env state node_id public_key their_endpoint
      our_endpoint client
    (client = true → out.1.routing_table = state.routing_table ∧
      ∀ node, Validation.Call.routing_table_AddNode node ∉ out.2) ∧
    (client = false → out.1.non_routing_table = state.non_routing_table ∧
      ∀ node id, Validation.Call.non_routing_table_AddNode node id ∉ out.2) ∧
    (result.1 ≠ 0 →
      out = ({ state with network_ := result.2 },
        [Validation.Call.network_Add our_endpoint.external their_endpoint.external node_id])) ∧
    (result.1 = 0 → client = true → client_added.1 = false →
      out = ({ network_ := env.Remove result.2 their_endpoint.external,
               routing_table := state.routing_table,
               non_routing_table := client_added.2 },
        [Validation.Call.network_Add our_endpoint.external their_endpoint.external node_id,
         Validation.Call.non_routing_table_AddNode node_info furthest,
         Validation.Call.network_Remove their_endpoint.external]) ∧
      (client_added.2 = state.non_routing_table →
        out.1.routing_table = state.routing_table ∧
        out.1.non_routing_table = state.non_routing_table)) ∧
    (result.1 = 0 → client = false → routing_added.1 = false →
      out = ({ network_ := env.Remove result.2 their_endpoint.external,
               routing_table := routing_added.2,
               non_routing_table := state.non_routing_table },
        [Validation.Call.network_Add our_endpoint.external their_endpoint.external node_id,
         Validation.Call.routing_table_AddNode node_info,
         Validation.Call.network_Remove their_endpoint.external]) ∧
      (routing_added.2 = state.routing_table →
        out.1.routing_table = state.routing_table ∧
        out.1.non_routing_table = state.non_routing_table)) ∧
    (result.1 = 0 → client = true → client_added.1 = true →
      out = ({ network_ := result.2, routing_table := state.routing_table,
               non_routing_table := client_added.2 },
        [Validation.Call.network_Add our_endpoint.external their_endpoint.external node_id,
         Validation.Call.non_routing_table_AddNode node_info furthest])) ∧
    (result.1 = 0 → client = false → routing_added.1 = true →
      out = ({ network_ := result.2, routing_table := routing_added.2,
               non_routing_table := state.non_routing_table },
        [Validation.Call.network_Add our_endpoint.external their_endpoint.external node_id,
         Validation.Call.routing_table_AddNode node_info])) := by
  intro node_info result furthest client_added routing_added out
  refine ⟨fun hc => ?_, fun hc => ?_, fun hr => ?_, fun hr hc ha => ?_, fun hr hc ha => ?_,
    fun hr hc ha => ?_, fun hr hc ha => ?_⟩
  · simp only [out, Validation.ValidateThisNode, hc, if_true]
    by_cases hr : result.1 = 0 <;>
      rcases Bool.eq_false_or_eq_true client_added.1 with ha | ha <;>
      simp [result, client_added, node_info, furthest] at hr ha ⊢ <;>
      simp [hr, ha]
  · simp only [out, Validation.ValidateThisNode, hc, Bool.false_eq_true, if_false]
    by_cases hr : result.1 = 0 <;>
      rcases Bool.eq_false_or_eq_true routing_added.1 with ha | ha <;>
      simp [result, routing_added, node_info] at hr ha ⊢ <;>
      simp [hr, ha]
  · simp only [result] at hr
    simp only [out, Validation.ValidateThisNode, ne_eq, hr, not_false_eq_true, if_true]
  · simp only [result, client_added, node_info, furthest] at hr ha
    have hout : out =
        ({ network_ := env.Remove result.2 their_endpoint.external,
           routing_table := state.routing_table,
           non_routing_table := client_added.2 },
         [Validation.Call.network_Add our_endpoint.external their_endpoint.external node_id,
          Validation.Call.non_routing_table_AddNode node_info furthest,
          Validation.Call.network_Remove their_endpoint.external]) := by
      simp only [out, Validation.ValidateThisNode, ne_eq, hr, not_true_eq_false, if_false, hc,
        if_true, ha, Bool.not_false]
      rfl
    refine ⟨hout, fun hk => ?_⟩
    rw [hout]
    exact ⟨rfl, hk⟩
  · simp only [result, routing_added, node_info] at hr ha
    have hout : out =
        ({ network_ := env.Remove result.2 their_endpoint.external,
           routing_table := routing_added.2,
           non_routing_table := state.non_routing_table },
         [Validation.Call.network_Add our_endpoint.external their_endpoint.external node_id,
          Validation.Call.routing_table_AddNode node_info,
          Validation.Call.network_Remove their_endpoint.external]) := by
      simp only [out, Validation.ValidateThisNode, ne_eq, hr, not_true_eq_false, if_false, hc,
        Bool.false_eq_true, ha, Bool.not_false, if_true]
      rfl
    refine ⟨hout, fun hk => ?_⟩
    rw [hout]
    exact ⟨hk, rfl⟩
  · simp only [result, client_added, node_info, furthest] at hr ha
    simp only [out, Validation.ValidateThisNode, ne_eq, hr, not_true_eq_false, if_false, hc,
      if_true, ha, Bool.not_true, Bool.false_eq_true]
    rfl
  · simp only [result, routing_added, node_info] at hr ha
    simp only [out, Validation.ValidateThisNode, ne_eq, hr, not_true_eq_false, if_false, hc,
      Bool.false_eq_true, ha, Bool.not_true]
    rfl

/-- Witness for claim C36: with a full routing table, a peer that is not a client is rejected
and its connection removed again, so that all three objects are as before; the same peer as
a client is added to the client table only; and a peer whose transport `Add` fails leaves
everything as it was. -/
theorem ValidateThisNode_tables_witness :
    Validation.ValidateThisNode Validation.sampleEnv Validation.fullRoutingTable [4] []
        (Validation.endpointPair 4 5000) (Validation.endpointPair 1 5000) false =
      (Validation.fullRoutingTable,
        [Validation.Call.network_Add (Validation.endpointPair 1 5000).external
           (Validation.endpointPair 4 5000).external [4],
         Validation.Call.routing_table_AddNode
           { node_id := [4], public_key := [],
             endpoint := (Validation.endpointPair 4 5000).external },
         Validation.Call.network_Remove (Validation.endpointPair 4 5000).external]) ∧
    Validation.ValidateThisNode Validation.sampleEnv Validation.fullRoutingTable [4] []
        (Validation.endpointPair 4 5000) (Validation.endpointPair 1 5000) true =
      ({ Validation.fullRoutingTable with
          network_ := Validation.fullRoutingTable.network_ ++
            [(Validation.endpointPair 4 5000).external]
          non_routing_table :=
            [{ node_id := [4], public_key := [],
               endpoint := (Validation.endpointPair 4 5000).external }] },
        [Validation.Call.network_Add (Validation.endpointPair 1 5000).external
           (Validation.endpointPair 4 5000).external [4],
         Validation.Call.non_routing_table_AddNode
           { node_id := [4], public_key := [],
             endpoint := (Validation.endpointPair 4 5000).external } [3]]) ∧
    Validation.ValidateThisNode Validation.sampleEnv Validation.fullRoutingTable [4] []
        (Validation.endpointPair 4 0) (Validation.endpointPair 1 5000) false =
      (Validation.fullRoutingTable,
        [Validation.Call.network_Add (Validation.endpointPair 1 5000).external
           (Validation.endpointPair 4 0).external [4]]) :=
  ⟨((ValidateThisNode_tables Validation.sampleEnv Validation.fullRoutingTable [4] []
      (Validation.endpointPair 4 5000) (Validation.endpointPair 1 5000) false).2.2.2.2.1
      (by decide) rfl (by decide)).1.trans (by decide),
   ((ValidateThisNode_tables Validation.sampleEnv Validation.fullRoutingTable [4] []
      (Validation.endpointPair 4 5000) (Validation.endpointPair 1 5000) true).2.2.2.2.2.1
      (by decide) rfl (by decide)).trans (by decide),
   ((ValidateThisNode_tables Validation.sampleEnv Validation.fullRoutingTable [4] []
      (Validation.endpointPair 4 0) (Validation.endpointPair 1 5000) false).2.2.1
      (by decide)).trans (by decide)⟩

/-! ## Relay replication -/

theorem routingSwitch_no_erase (env : Env) (m : Message) (r : Message × List Effect)
    (h : routingSwitch env m = some r) : Effect.erase_begin_of_empty ∉ r.2 := by
  unfold routingSwitch at h
  split at h
  case h_7 =>
    by_cases hz : (env.ClosestNodesUpdate m).1 = kZeroId <;>
      split at h <;> cases h <;>
      simp [call, hz]
  all_goals first
    | (cases h; done)
    | (cases h; simp [call])

theorem deliverLocally_no_erase (env : Env) (m : Message) :
    Effect.erase_begin_of_empty ∉ deliverLocally env m := by
  unfold deliverLocally
  split
  · cases hr : routingSwitch env m with
    | none =>
      rw [HandleRoutingMessage_unknown env m hr]
      exact List.not_mem_nil _
    | some r =>
      rw [HandleRoutingMessage_eq env m r hr, List.mem_append]
      intro h
      rcases h with h | h
      · exact routingSwitch_no_erase env m r hr h
      · split at h
        · split at h <;> simp at h
        · cases h
  · unfold HandleNodeLevelMessageForThisNode InvokeTypedMessageReceivedFunctor
    simp only
    repeat' split
    all_goals simp

theorem tableNode_contract : closestNodesInDistanceOrder tableNode sampleTable := by
  have hnodup : sampleTable.Nodup := by decide
  have hget : ∀ target n, tableNode.GetClosestNodes target n =
      (if target ∈ sampleTable then target :: sampleTable.erase target
       else sampleTable).take n := fun _ _ => rfl
  refine ⟨hnodup, fun id => ?_, fun target n => ?_, fun target n => ?_,
    fun target n id hid => ?_, fun target n ht hn => ?_⟩
  · show decide (id ∈ sampleTable) = true ↔ id ∈ sampleTable
    simp
  · rw [hget, List.length_take]
    by_cases ht : target ∈ sampleTable
    · simp only [ht, if_true, List.length_cons, List.length_erase_of_mem ht]
      have : sampleTable.length = 3 := rfl
      omega
    · simp only [ht, if_false]
  · rw [hget]
    apply List.Nodup.sublist (List.take_sublist _ _)
    by_cases ht : target ∈ sampleTable
    · simp only [ht, if_true, List.nodup_cons]
      exact ⟨hnodup.not_mem_erase, hnodup.erase target⟩
    · simp only [ht, if_false]
      exact hnodup
  · rw [hget] at hid
    have hid2 := List.mem_of_mem_take hid
    by_cases ht : target ∈ sampleTable
    · simp only [ht, if_true, List.mem_cons] at hid2
      rcases hid2 with h | h
      · rw [h]
        exact ht
      · exact List.mem_of_mem_erase h
    · simp only [ht, if_false] at hid2
      exact hid2
  · rw [hget]
    simp only [ht, if_true]
    cases n with
    | zero => omega
    | succ k => rfl

theorem relay_close_nonempty (env : Env) (table : List Bytes) (target : Bytes) (n : Nat)
    (htable : closestNodesInDistanceOrder env table)
    (hcontains : env.Contains target = true) (hn : 1 ≤ n) :
    (env.GetClosestNodes target n).isEmpty = false := by
  obtain ⟨_, hc, hlen, _, _, _⟩ := htable
  have hmem : target ∈ table := (hc target).1 hcontains
  have hpos : 0 < table.length := List.length_pos_of_mem hmem
  have hl := hlen target n
  cases hg : env.GetClosestNodes target n with
  | nil =>
    rw [hg] at hl
    simp only [List.length_nil] at hl
    omega
  | cons a l => rfl

theorem relay_close_bound (env : Env) (table : List Bytes) (target : Bytes) (r : Nat)
    (htable : closestNodesInDistanceOrder env table) (hr : 1 ≤ r) :
    (if env.Contains target = true then (env.GetClosestNodes target r).tail
      else env.GetClosestNodes target (r - 1)).length ≤ r - 1 ∧
    target ∉ (if env.Contains target = true then (env.GetClosestNodes target r).tail
      else env.GetClosestNodes target (r - 1)) := by
  obtain ⟨_, hc, hlen, hnd, hmem, hhead⟩ := htable
  by_cases hcontains : env.Contains target = true
  · simp only [hcontains, if_true, List.length_tail]
    have hl := hlen target r
    refine ⟨by omega, ?_⟩
    have hh := hhead target r ((hc target).1 hcontains) (by omega)
    have hn := hnd target r
    cases hg : env.GetClosestNodes target r with
    | nil => simp
    | cons a l =>
      rw [hg] at hh hn
      simp only [List.head?_cons, Option.some.injEq] at hh
      rw [hh, List.nodup_cons] at hn
      exact hn.1
  · have hcf : env.Contains target = false := by
      simpa using hcontains
    simp only [hcf, Bool.false_eq_true, if_false]
    have hl := hlen target (r - 1)
    refine ⟨by omega, fun h => ?_⟩
    exact hcontains ((hc target).2 (hmem target (r - 1) target h))

theorem HandleGroupRelay_at_replication (env : Env) (m : Message) (table : List Bytes)
    (h1 : 1 ≤ replicationOf m) (h2 : replicationOf m ≤ env.P.group_size)
    (htable : closestNodesInDistanceOrder env table)
    (hstep : reachesRelayReplicationStep env m = true) :
    HandleGroupRelayRequestMessageAsClosestNode env m =
      (if env.Contains m.destination_id = true then
          (env.GetClosestNodes m.destination_id (replicationOf m)).tail
        else env.GetClosestNodes m.destination_id (replicationOf m - 1)).filterMap
        (fun i =>
          (env.GetNodeInfo i).map (fun node =>
            Effect.SendToDirect
              { m with
                direct? := some true, source_id? := some env.kNodeId,
                destination_id? := some i }
              node.node_id node.connection_id)) ++
      deliverLocally env
        { m with
          direct? := some true, source_id? := some env.kNodeId,
          destination_id? := some env.kNodeId } := by
  unfold reachesRelayReplicationStep at hstep
  simp only [Bool.and_eq_true, Bool.not_eq_true'] at hstep
  obtain ⟨hg1, hg2⟩ := hstep
  have hrep : (decide (replicationOf m < 1) || decide (replicationOf m > env.P.group_size))
      = false := by
    simp only [Bool.or_eq_false_iff, decide_eq_false_iff_not]
    omega
  have hsucc : replicationOf m - 1 + 1 = replicationOf m := by omega
  unfold HandleGroupRelayRequestMessageAsClosestNode
  simp only [hg1, hg2, hrep, Bool.false_eq_true, if_false, Bool.not_true]
  by_cases hcontains : env.Contains m.destination_id = true
  · have hne := relay_close_nonempty env table m.destination_id (replicationOf m) htable
      hcontains h1
    have hdest : ({ m with direct? := some true } : Message).destination_id =
      m.destination_id := rfl
    simp only [hcontains, if_true, hsucc, hdest, hne, Bool.and_false, Bool.false_eq_true,
      if_false]
    have hs := relayReplicate_sends env (env.GetClosestNodes m.destination_id
      (replicationOf m)).tail
      { m with direct? := some true, source_id? := some env.kNodeId }
    rw [hs.1, hs.2]
  · have hcf : env.Contains m.destination_id = false := by
      simpa using hcontains
    have hdest : ({ m with direct? := some true } : Message).destination_id =
      m.destination_id := rfl
    simp only [hcf, Bool.false_eq_true, if_false, hdest, Bool.false_and]
    have hs := relayReplicate_sends env (env.GetClosestNodes m.destination_id
      (replicationOf m - 1))
      { m with direct? := some true, source_id? := some env.kNodeId }
    rw [hs.1, hs.2]

theorem HandleGroupRelay_no_erase (env : Env) (m : Message) (table : List Bytes)
    (h1 : 1 ≤ replicationOf m) (h2 : replicationOf m ≤ env.P.group_size)
    (htable : closestNodesInDistanceOrder env table) :
    Effect.erase_begin_of_empty ∉ HandleGroupRelayRequestMessageAsClosestNode env m := by
  by_cases hstep : reachesRelayReplicationStep env m = true
  · rw [HandleGroupRelay_at_replication env m table h1 h2 htable hstep, List.mem_append]
    intro h
    rcases h with h | h
    · rw [List.mem_filterMap] at h
      obtain ⟨i, _, hi⟩ := h
      cases hg : env.GetNodeInfo i <;> simp [hg] at hi
    · exact deliverLocally_no_erase env _ h
  · unfold reachesRelayReplicationStep at hstep
    unfold HandleGroupRelayRequestMessageAsClosestNode
    rcases Bool.eq_false_or_eq_true (!env.IsThisNodeClosestTo m.destination_id (!IsDirect m) &&
        !env.Contains m.destination_id) with hg1 | hg1
    · simp only [hg1, if_true]
      simp
    · simp only [hg1, Bool.not_false, Bool.true_and, Bool.not_eq_true] at hstep
      simp only [hg1, hstep, Bool.false_eq_true, if_false, Bool.not_false, if_true]
      simp

/-- Claim C38: in `HandleGroupRelayRequestMessageAsClosestNode` with
`1 <= replication <= GROUP_SIZE`, for a routing table whose `GetClosestNodes(target, n)`
returns the `min(n, size)` peers closest to `target` in distance order: when the table has a
peer with the group id, the list from which the first node is erased is not empty, so an
erase on an empty list never happens; and when the message reaches the replication step, the
handler's calls are the copies followed by the local delivery, with at most `replication - 1`
copies, each sent with `SendToDirect` and none addressed to the group id. -/
theorem relay_replication_is_safe (env : Env) (message : Message) (table : List Bytes)
    (h1 : 1 ≤ replicationOf message) (h2 : replicationOf message ≤ env.P.group_size)
    (htable : closestNodesInDistanceOrder env table) :
    (env.Contains message.destination_id = true →
      env.GetClosestNodes message.destination_id (replicationOf message) ≠ []) ∧
    Effect.erase_begin_of_empty ∉ HandleGroupRelayRequestMessageAsClosestNode env message ∧
    (reachesRelayReplicationStep env message = true →
      ∃ copies,
        HandleGroupRelayRequestMessageAsClosestNode env message =
          copies ++
            deliverLocally env
              { message with
                direct? := some true, source_id? := some env.kNodeId,
                destination_id? := some env.kNodeId } ∧
        copies.length ≤ replicationOf message - 1 ∧
        ∀ e ∈ copies, ∃ copy node_id connection_id,
          e = Effect.SendToDirect copy node_id connection_id ∧
          copy.destination_id ≠ message.destination_id) := by
  refine ⟨fun hcontains hnil => ?_,
    HandleGroupRelay_no_erase env message table h1 h2 htable, fun hstep => ?_⟩
  · have := relay_close_nonempty env table message.destination_id (replicationOf message)
      htable hcontains h1
    rw [hnil] at this
    cases this
  · have hb := relay_close_bound env table message.destination_id (replicationOf message)
      htable h1
    refine ⟨_, HandleGroupRelay_at_replication env message table h1 h2 htable hstep, ?_, ?_⟩
    · exact le_trans (List.length_filterMap_le _ _) hb.1
    · intro e he
      rw [List.mem_filterMap] at he
      obtain ⟨i, hi, hmap⟩ := he
      cases hg : env.GetNodeInfo i with
      | none => simp [hg] at hmap
      | some node =>
        simp only [hg, Option.map_some', Option.some.injEq] at hmap
        refine ⟨_, _, _, hmap.symm, ?_⟩
        intro hd
        have hd2 : i = message.destination_id := hd
        rw [hd2] at hi
        exact hb.2 hi

/-- Witness for claim C38: the vault `nodeId 1` with the peers `nodeId 2`, `nodeId 3`,
`nodeId 4` handles a relay group request with replication 3 for the group id `nodeId 3`: the
closest nodes are `nodeId 3`, `nodeId 2`, `nodeId 4`, the first is erased, two copies go to
`nodeId 2` and `nodeId 4`, and the request is then delivered locally. -/
theorem relay_replication_is_safe_witness :
    closestNodesInDistanceOrder tableNode sampleTable ∧
    sentMessages (HandleGroupRelayRequestMessageAsClosestNode tableNode (relayGroupRequest 3)) =
      [{ relayGroupRequest 3 with
          direct? := some true, source_id? := some (nodeId 1),
          destination_id? := some (nodeId 2) },
       { relayGroupRequest 3 with
          direct? := some true, source_id? := some (nodeId 1),
          destination_id? := some (nodeId 4) }] ∧
    Effect.erase_begin_of_empty ∉
      HandleGroupRelayRequestMessageAsClosestNode tableNode (relayGroupRequest 3) :=
  ⟨tableNode_contract, by decide,
   (relay_replication_is_safe tableNode (relayGroupRequest 3) sampleTable (by decide)
     (by decide) tableNode_contract).2.1⟩

end Routing
